import Mathlib

/-!
XCCDF rule, dependency and check parsing: `src/XCCDF/rule.c`

A shallow embedding of the parsing functions of `rule.c` and theorems about them.

Conventions of the embedding:

* a C string is the list of its characters before the terminating NUL (`cstring`);
  a `char*` that may be NULL is an `Option cstring`;
* the streaming token source (`xmlTextReaderPtr`) positioned at an element is the
  tree of that element (`xml_node`); the loop
  `while (xccdf_to_start_element(reader, depth)) { ...; xmlTextReaderRead(reader); }`
  visits the immediate child elements in document order;
* the memory the parser mutates outside the item being built (the owning benchmark's
  tables and the allocator) is passed explicitly as `xccdf_mem`;
* a failed `assert` aborts the program: functions that can reach one return an
  `Option` whose `none` is the abort.
-/

set_option autoImplicit false

/-! ## C strings -/

/-- A C string: the characters before the terminating NUL. -/
abbrev cstring := List Char

/-- The libc function `strchr(s, c)`: the offset of the first occurrence of `c` in `s`,
NULL (`none`) when there is none. The terminating NUL counts as part of the string, so
looking for NUL finds the terminator. -/
def strchr : cstring → Char → Option Nat
  | [], c => if c = Char.ofNat 0 then some 0 else none
  | x :: t, c => if x = c then some 0 else (strchr t c).map (· + 1)

/-- The libc function `strcmp(a, b) == 0`. -/
def streq (a b : cstring) : Bool := decide (a = b)

/-- Source `xccdf_strsep` (rule.c 59-69). `str` is the `char**`: `none` is a NULL `str`,
`some none` a NULL `*str`, `some (some s)` a cursor at the string `s`. The result is the
returned pointer (as the C string it now denotes, the delimiter having been overwritten
with NUL) and the updated `*str` (`none` when `str` itself is NULL: nothing to
update). For the delimiter NUL the C cursor is left one past the terminator, outside
the string; the empty string stands for it here, and only its being other than NULL is
relied on. -/
def xccdf_strsep (str : Option (Option cstring)) (delim : Char) :
    Option cstring × Option cstring :=
  match str with
  | none => (none, none)
  | some none => (none, none)
  | some (some s) =>
    match strchr s delim with
    | none => (some s, none)
    | some i => (some (s.take i), some (s.drop (i + 1)))

/-! ## Elements, attributes and the token source -/

/-- Modelled from the spec: the enum `xccdf_element` is declared in `elements.h`, not in
`rule.c`. The tags are the ones `rule.c` switches on; `XCCDFE_OTHER` stands for
every other recognised element (title, description, ...), `XCCDFE_ERROR` for an
unrecognised one. -/
inductive xccdf_element where
  | XCCDFE_ERROR
  | XCCDFE_BENCHMARK
  | XCCDFE_GROUP
  | XCCDFE_RULE
  | XCCDFE_VALUE
  | XCCDFE_REQUIRES
  | XCCDFE_CONFLICTS
  | XCCDFE_PROFILE_NOTE
  | XCCDFE_CHECK
  | XCCDFE_COMPLEX_CHECK
  | XCCDFE_CHECK_CONTENT_REF
  | XCCDFE_CHECK_CONTENT
  | XCCDFE_CHECK_IMPORT
  | XCCDFE_CHECK_EXPORT
  | XCCDFE_FIX
  | XCCDFE_FIXTEXT
  | XCCDFE_IDENT
  | XCCDFE_OTHER (tag : Nat)
deriving DecidableEq, Repr

/-- Modelled from the spec: the enum `xccdf_attribute` is declared in `elements.h`, not in
`rule.c`. The names are the ones `rule.c` reads; `XCCDFA_OTHER` stands for every
other attribute. -/
inductive xccdf_attribute where
  | XCCDFA_ID
  | XCCDFA_IDREF
  | XCCDFA_SYSTEM
  | XCCDFA_SELECTOR
  | XCCDFA_OPERATOR
  | XCCDFA_NEGATE
  | XCCDFA_HREF
  | XCCDFA_NAME
  | XCCDFA_IMPORT_NAME
  | XCCDFA_EXPORT_NAME
  | XCCDFA_VALUE_ID
  | XCCDFA_TAG
  | XCCDFA_ROLE
  | XCCDFA_SEVERITY
  | XCCDFA_FIXREF
  | XCCDFA_PLATFORM
  | XCCDFA_REBOOT
  | XCCDFA_STRATEGY
  | XCCDFA_DISRUPTION
  | XCCDFA_COMPLEXITY
  | XCCDFA_OTHER (name : Nat)
deriving DecidableEq, Repr

open xccdf_element xccdf_attribute

/-- Modelled from the spec: the token source is external (spec section 6: a positioned
cursor over a nested-element stream). A reader positioned at a start element is the tree
of that element: its tag, its attributes, its text body (`xccdf_element_string_get`,
NULL when it has none), its raw inner XML (`xccdf_get_xml`) and its immediate child
elements in document order. -/
inductive xml_node where
  | mk (el : xccdf_element) (attrs : List (xccdf_attribute × cstring))
      (text : Option cstring) (xml : Option cstring) (children : List xml_node)

/-- Modelled from the spec: `xccdf_element_get`, the current element's recognised tag. -/
def xccdf_element_get : xml_node → xccdf_element
  | .mk el _ _ _ _ => el

/-- Modelled from the spec: `xccdf_attribute_get`, attribute lookup by name, NULL when
the attribute is absent. -/
def xccdf_attribute_get : xml_node → xccdf_attribute → Option cstring
  | .mk _ attrs _ _ _, a => attrs.lookup a

/-- Modelled from the spec: `xccdf_attribute_copy`, a fresh copy of the attribute value,
NULL when the attribute is absent. -/
def xccdf_attribute_copy (reader : xml_node) (a : xccdf_attribute) : Option cstring :=
  xccdf_attribute_get reader a

/-- Modelled from the spec: `xccdf_attribute_has`, whether the attribute is present. -/
def xccdf_attribute_has (reader : xml_node) (a : xccdf_attribute) : Bool :=
  (xccdf_attribute_get reader a).isSome

/-- Modelled from the spec: `xccdf_attribute_get_bool`, the boolean-coerced attribute:
true when the attribute is present with the value "true", false when it is absent. -/
def xccdf_attribute_get_bool (reader : xml_node) (a : xccdf_attribute) : Bool :=
  decide (xccdf_attribute_get reader a = some "true".toList)

/-- Modelled from the spec: `xccdf_element_string_get`, the text body of the element. -/
def xccdf_element_string_get : xml_node → Option cstring
  | .mk _ _ text _ _ => text

/-- Modelled from the spec: `xccdf_element_string_copy`, a copy of the text body. -/
def xccdf_element_string_copy (reader : xml_node) : Option cstring :=
  xccdf_element_string_get reader

/-- Modelled from the spec: `xccdf_get_xml`, the sub-tree captured as a raw string. -/
def xccdf_get_xml : xml_node → Option cstring
  | .mk _ _ _ xml _ => xml

/-- Modelled from the spec: the elements that the loop
`while (xccdf_to_start_element(reader, depth)) { ...; xmlTextReaderRead(reader); }`
visits with `depth` one more than the depth of the element: its immediate child
elements, in document order. -/
def xml_children : xml_node → List xml_node
  | .mk _ _ _ _ children => children

/-! ## Enum maps -/

/-- A `struct xccdf_string_map[]` table: the entries before the terminator, and the value
of the terminating `{ value, NULL }` entry. -/
structure xccdf_string_map (α : Type) where
  entries : List (α × cstring)
  dflt : α

/-- Modelled from the spec: `string_to_enum` (Enum/Token Mapping, external): the value of
the first entry whose string equals `str`; the terminator's value when there is none or
`str` is NULL. -/
def string_to_enum {α : Type} (map : xccdf_string_map α) (str : Option cstring) : α :=
  match str with
  | none => map.dflt
  | some s =>
    match map.entries.find? (fun e => streq e.2 s) with
    | some e => e.1
    | none => map.dflt

/-! ## The benchmark's tables and the reference registry -/

/-- Modelled from the spec: the enum `xccdf_type` is declared in a header, not in
`rule.c`. `XCCDF_CONTENT` is the expected kind "content item" (a rule or a group),
`XCCDF_VALUE` the kind "value"; `XCCDF_TYPE_0` is the literal `0` that
`xccdf_fixtext_new_parse` passes as the expected kind. -/
inductive xccdf_type where
  | XCCDF_TYPE_0
  | XCCDF_BENCHMARK
  | XCCDF_RULE
  | XCCDF_GROUP
  | XCCDF_VALUE
  | XCCDF_CONTENT
deriving DecidableEq, Repr

open xccdf_type

/-- A pending reference request: the address of the slot to fill, the identifier to look
up (NULL when the caller passed NULL) and the expected kind. -/
structure xccdf_backref where
  ptr : Nat
  id : Option cstring
  type : xccdf_type
deriving DecidableEq, Repr

/-- Modelled from the spec: the part of the benchmark (document root) that `rule.c`
uses. `dict` is the main identifier table (the identifiers registered so far),
`auxdict` the auxiliary table of fixes (identifier, address of the fix) and `idrefs` the
reference registry's queue of requests, in the order they were issued. -/
structure xccdf_benchmark where
  dict : List cstring
  auxdict : List (cstring × Nat)
  idrefs : List xccdf_backref
deriving DecidableEq, Repr

/-- The memory that parsing mutates outside the item under construction: the owning
benchmark, and `brk`, the next address the allocator hands out (every allocation whose
address is stored somewhere takes a fresh one). -/
structure xccdf_mem where
  bench : xccdf_benchmark
  brk : Nat
deriving DecidableEq, Repr

/-- Modelled from the spec: `xccdf_benchmark_add_ref`, the registry's
`request_reference(owning_document, out_slot, identifier_or_null, expected_kind)`: the
request is queued; resolution happens in a later pass. -/
def xccdf_benchmark_add_ref (m : xccdf_mem) (ptr : Nat) (id : Option cstring)
    (type : xccdf_type) : xccdf_mem :=
  { m with bench := { m.bench with idrefs := m.bench.idrefs ++ [⟨ptr, id, type⟩] } }

/-- Modelled from the spec: `xccdf_htable_add` on the auxiliary table: the fix at address
`fix` is entered under `key`. -/
def xccdf_htable_add_aux (m : xccdf_mem) (key : cstring) (fix : Nat) : xccdf_mem :=
  { m with bench := { m.bench with auxdict := m.bench.auxdict ++ [(key, fix)] } }

/-- A reference slot: the `data` cell of a list node made by `xccdf_list_add(list, NULL)`
(or a pointer field of a record), NULL during the parse and filled by the registry
through the pointer given to `xccdf_benchmark_add_ref`. `cell` is the address of the
cell. -/
structure xccdf_slot where
  cell : Nat
deriving DecidableEq, Repr

/-- Modelled from the spec: `xccdf_list_add` (generic ordered-list container, external):
the value is appended at the end of the list. -/
def xccdf_list_add {α : Type} (list : List α) (value : α) : List α :=
  list ++ [value]

/-- The statement pair `xccdf_list_add(list, NULL)` followed by taking
`&list->last->data`: a node with a NULL cell is allocated at the end of the list; the
result is the list, the address of the new cell and the memory after the allocation. -/
def xccdf_list_add_null (list : List xccdf_slot) (m : xccdf_mem) :
    List xccdf_slot × Nat × xccdf_mem :=
  (xccdf_list_add list ⟨m.brk⟩, m.brk, { m with brk := m.brk + 1 })

/-! ## Checks -/

/-- Modelled from the spec: the enum `xccdf_bool_operator` is declared in a header,
not in `rule.c`. The spec gives the operators AND and OR and an independent NOT flag
folded into the same value, zero meaning that no operator is present. -/
def XCCDF_OPERATOR_AND : Nat := 0x0002

/-- Modelled from the spec: see `XCCDF_OPERATOR_AND`. -/
def XCCDF_OPERATOR_OR : Nat := 0x0003

/-- Modelled from the spec: see `XCCDF_OPERATOR_AND`; the NOT flag is a bit of its own. -/
def XCCDF_OPERATOR_NOT : Nat := 0x0100

/-- The record `struct xccdf_check_content_ref`: `href` is a `strdup` of a non-NULL
string, `name` may be NULL. -/
structure xccdf_check_content_ref where
  name : Option cstring
  href : cstring
deriving DecidableEq, Repr

/-- The record `struct xccdf_check_import`. -/
structure xccdf_check_import where
  name : cstring
  content : Option cstring
deriving DecidableEq, Repr

/-- The record `struct xccdf_check_export`: `value` is the reference slot `exp->value`. -/
structure xccdf_check_export where
  name : cstring
  value : xccdf_slot
deriving DecidableEq, Repr

/-- The record `struct xccdf_check`. Entries of `children` are the pointers handed to
`xccdf_list_add`, `none` being NULL. The back-pointer `parent` is not kept: it is only
read to reach the benchmark, which is passed as `xccdf_mem`. -/
inductive xccdf_check where
  | mk (id system selector content : Option cstring) (oper : Nat)
      (content_refs : List xccdf_check_content_ref) (imports : List xccdf_check_import)
      (exports : List xccdf_check_export) (children : List (Option xccdf_check))

namespace xccdf_check

def id : xccdf_check → Option cstring
  | mk i _ _ _ _ _ _ _ _ => i

def system : xccdf_check → Option cstring
  | mk _ s _ _ _ _ _ _ _ => s

def selector : xccdf_check → Option cstring
  | mk _ _ s _ _ _ _ _ _ => s

def content : xccdf_check → Option cstring
  | mk _ _ _ c _ _ _ _ _ => c

def oper : xccdf_check → Nat
  | mk _ _ _ _ o _ _ _ _ => o

def content_refs : xccdf_check → List xccdf_check_content_ref
  | mk _ _ _ _ _ r _ _ _ => r

def imports : xccdf_check → List xccdf_check_import
  | mk _ _ _ _ _ _ i _ _ => i

def exports : xccdf_check → List xccdf_check_export
  | mk _ _ _ _ _ _ _ e _ => e

def children : xccdf_check → List (Option xccdf_check)
  | mk _ _ _ _ _ _ _ _ c => c

def set_id : xccdf_check → Option cstring → xccdf_check
  | mk _ s sel c o r i e ch, v => mk v s sel c o r i e ch

def set_system : xccdf_check → Option cstring → xccdf_check
  | mk d _ sel c o r i e ch, v => mk d v sel c o r i e ch

def set_selector : xccdf_check → Option cstring → xccdf_check
  | mk d s _ c o r i e ch, v => mk d s v c o r i e ch

def set_content : xccdf_check → Option cstring → xccdf_check
  | mk d s sel _ o r i e ch, v => mk d s sel v o r i e ch

def set_oper : xccdf_check → Nat → xccdf_check
  | mk d s sel c _ r i e ch, v => mk d s sel c v r i e ch

def set_content_refs : xccdf_check → List xccdf_check_content_ref → xccdf_check
  | mk d s sel c o _ i e ch, v => mk d s sel c o v i e ch

def set_imports : xccdf_check → List xccdf_check_import → xccdf_check
  | mk d s sel c o r _ e ch, v => mk d s sel c o r v e ch

def set_exports : xccdf_check → List xccdf_check_export → xccdf_check
  | mk d s sel c o r i _ ch, v => mk d s sel c o r i v ch

def set_children : xccdf_check → List (Option xccdf_check) → xccdf_check
  | mk d s sel c o r i e _, v => mk d s sel c o r i e v

end xccdf_check

/-- Source `xccdf_check_new_empty` (rule.c 363-372): `calloc` zeroes every field, then
the four lists are created empty. -/
def xccdf_check_new_empty : xccdf_check :=
  .mk none none none none 0 [] [] [] []

/-- Source `XCCDF_BOOLOP_MAP` (rule.c 374-378). -/
def XCCDF_BOOLOP_MAP : xccdf_string_map Nat where
  entries := [(XCCDF_OPERATOR_AND, "and".toList), (XCCDF_OPERATOR_AND, "AND".toList),
              (XCCDF_OPERATOR_OR, "or".toList), (XCCDF_OPERATOR_OR, "OR".toList)]
  dflt := 0

/-- The attribute part of source `xccdf_check_new_parse` (rule.c 384-390): the check as
it stands when the loop over the child elements starts. -/
def xccdf_check_new_parse_attrs (reader : xml_node) : xccdf_check :=
  let check := xccdf_check_new_empty
  let check := check.set_id (xccdf_attribute_copy reader XCCDFA_ID)
  let check := check.set_system (xccdf_attribute_copy reader XCCDFA_SYSTEM)
  let check := check.set_selector (xccdf_attribute_copy reader XCCDFA_SELECTOR)
  let check := check.set_oper
    (string_to_enum XCCDF_BOOLOP_MAP (xccdf_attribute_get reader XCCDFA_OPERATOR))
  if xccdf_attribute_get_bool reader XCCDFA_NEGATE then
    check.set_oper (check.oper ||| XCCDF_OPERATOR_NOT)
  else check

/-- One pass of the loop body of `xccdf_check_new_parse` for a child that is not a nested
check (rule.c 401-432): `check-content-ref`, `check-content`, `check-import`,
`check-export`, anything else. -/
def xccdf_check_new_parse_leaf (c : xml_node) (check : xccdf_check) (m : xccdf_mem) :
    xccdf_check × xccdf_mem :=
  match xccdf_element_get c with
  | XCCDFE_CHECK_CONTENT_REF =>
    match xccdf_attribute_get c XCCDFA_HREF with
    | none => (check, m)
    | some href =>
      let ref : xccdf_check_content_ref :=
        { name := xccdf_attribute_copy c XCCDFA_NAME, href := href }
      (check.set_content_refs (xccdf_list_add check.content_refs ref), m)
  | XCCDFE_CHECK_CONTENT =>
    if check.content = none then
      (check.set_content (xccdf_element_string_copy c), m)
    else (check, m)
  | XCCDFE_CHECK_IMPORT =>
    match xccdf_attribute_get c XCCDFA_IMPORT_NAME with
    | none => (check, m)
    | some name =>
      let imp : xccdf_check_import :=
        { name := name, content := xccdf_element_string_copy c }
      (check.set_imports (xccdf_list_add check.imports imp), m)
  | XCCDFE_CHECK_EXPORT =>
    match xccdf_attribute_get c XCCDFA_EXPORT_NAME with
    | none => (check, m)
    | some name =>
      let exp : xccdf_check_export := { name := name, value := ⟨m.brk⟩ }
      let m := { m with brk := m.brk + 1 }
      let m := xccdf_benchmark_add_ref m exp.value.cell
        (xccdf_attribute_get c XCCDFA_VALUE_ID) XCCDF_VALUE
      (check.set_exports (xccdf_list_add check.exports exp), m)
  | _ => (check, m)

mutual
/-- Source `xccdf_check_new_parse` (rule.c 380-438). The result is the returned pointer
(`none` is NULL) and the memory afterwards. -/
def xccdf_check_new_parse : xml_node → xccdf_mem → Option xccdf_check × xccdf_mem
  | .mk el attrs text xml children, m =>
    if el ≠ XCCDFE_CHECK ∧ el ≠ XCCDFE_COMPLEX_CHECK then (none, m)
    else
      let r := xccdf_check_new_parse_loop children
        (xccdf_check_new_parse_attrs (.mk el attrs text xml children)) m
      (some r.1, r.2)
/-- The loop of `xccdf_check_new_parse` over the child elements still to visit
(rule.c 394-435). -/
def xccdf_check_new_parse_loop :
    List xml_node → xccdf_check → xccdf_mem → xccdf_check × xccdf_mem
  | [], check, m => (check, m)
  | c :: rest, check, m =>
    if xccdf_element_get c = XCCDFE_CHECK ∨ xccdf_element_get c = XCCDFE_COMPLEX_CHECK then
      if check.oper = 0 then xccdf_check_new_parse_loop rest check m
      else
        let r := xccdf_check_new_parse c m
        xccdf_check_new_parse_loop rest
          (check.set_children (xccdf_list_add check.children r.1)) r.2
    else
      let r := xccdf_check_new_parse_leaf c check m
      xccdf_check_new_parse_loop rest r.1 r.2
end

/-- Source `xccdf_check_complex` (rule.c 450-453). -/
def xccdf_check_complex (check : xccdf_check) : Bool :=
  if check.oper ≠ 0 then true else false

/-! ## Idents, profile notes, fixes -/

/-- The record `struct xccdf_ident`. -/
structure xccdf_ident where
  id : cstring
  system : cstring
deriving DecidableEq, Repr

/-- Source `xccdf_ident_new` (rule.c 320-327). -/
def xccdf_ident_new (id sys : Option cstring) : Option xccdf_ident :=
  match id, sys with
  | some id, some sys => some { id := id, system := sys }
  | _, _ => none

/-- Source `xccdf_ident_new_parse` (rule.c 329-335). `none` at the outer level is the
failed `XCCDF_ASSERT_ELEMENT`. -/
def xccdf_ident_new_parse (reader : xml_node) : Option (Option xccdf_ident) :=
  if xccdf_element_get reader ≠ XCCDFE_IDENT then none
  else
    let sys := xccdf_attribute_get reader XCCDFA_SYSTEM
    let id := xccdf_element_string_get reader
    some (xccdf_ident_new id sys)

/-- The record `struct xccdf_profile_note`. -/
structure xccdf_profile_note where
  reftag : cstring
  text : Option cstring
deriving DecidableEq, Repr

/-- Modelled from the spec: the enum `xccdf_strategy` is declared in a header, not in
`rule.c`; its constants are the ones `XCCDF_STRATEGY_MAP` names. -/
inductive xccdf_strategy where
  | XCCDF_STRATEGY_UNKNOWN
  | XCCDF_STRATEGY_CONFIGURE
  | XCCDF_STRATEGY_COMBINATION
  | XCCDF_STRATEGY_DISABLE
  | XCCDF_STRATEGY_ENABLE
  | XCCDF_STRATEGY_PATCH
  | XCCDF_STRATEGY_POLICY
  | XCCDF_STRATEGY_RESTRICT
  | XCCDF_STRATEGY_UPDATE
deriving DecidableEq, Repr

open xccdf_strategy

/-- Source `XCCDF_STRATEGY_MAP` (rule.c 501-511). -/
def XCCDF_STRATEGY_MAP : xccdf_string_map xccdf_strategy where
  entries := [(XCCDF_STRATEGY_CONFIGURE, "configure".toList),
              (XCCDF_STRATEGY_COMBINATION, "combination".toList),
              (XCCDF_STRATEGY_DISABLE, "disable".toList),
              (XCCDF_STRATEGY_ENABLE, "enable".toList),
              (XCCDF_STRATEGY_PATCH, "patch".toList),
              (XCCDF_STRATEGY_POLICY, "policy".toList),
              (XCCDF_STRATEGY_RESTRICT, "restrict".toList),
              (XCCDF_STRATEGY_UPDATE, "update".toList)]
  dflt := XCCDF_STRATEGY_UNKNOWN

/-! ## Items -/

/-- Modelled from the spec: the fields common to all items (`item->item`), which the
external generic steps of `item.c` maintain: the variant tag, the identifier and the
generic elements (tag and text body) the item has absorbed. The back-pointers to the
benchmark and to the parent are not kept: the benchmark is passed as `xccdf_mem`. -/
structure xccdf_item_base where
  type : xccdf_type
  id : Option cstring
  generic : List (xccdf_element × Option cstring)
deriving DecidableEq, Repr

/-- Modelled from the spec: Value construction is external; of a value the embedding
keeps the identifier. -/
structure xccdf_value where
  id : Option cstring
deriving DecidableEq, Repr

/-- What `rule.c` uses from `item.h` without defining it, taken as a parameter: the
tables `XCCDF_ROLE_MAP` and `XCCDF_LEVEL_MAP`, the constants `XCCDF_ROLE_FULL` and
`XCCDF_UNKNOWN`, and the external steps `xccdf_item_process_attributes` (result: whether
it succeeded), `xccdf_item_process_element` and `xccdf_value_new_parse`. The external
steps work on the common fields of the item and on the benchmark. -/
structure xccdf_item_h where
  XCCDF_ROLE_MAP : xccdf_string_map Nat
  XCCDF_LEVEL_MAP : xccdf_string_map Nat
  XCCDF_ROLE_FULL : Nat
  XCCDF_UNKNOWN : Nat
  xccdf_item_process_attributes :
    xccdf_item_base → xml_node → xccdf_mem → Bool × xccdf_item_base × xccdf_mem
  xccdf_item_process_element :
    xccdf_item_base → xml_node → xccdf_mem → xccdf_item_base × xccdf_mem
  xccdf_value_new_parse : xml_node → xccdf_mem → Option xccdf_value × xccdf_mem

/-- The fields that `XCCDF_FIXCOMMON_PARSE` fills, shared by `struct xccdf_fix` and
`struct xccdf_fixtext`. -/
structure xccdf_fixcommon where
  reboot : Bool
  strategy : xccdf_strategy
  disruption : Nat
  complexity : Nat
  content : Option cstring
deriving DecidableEq, Repr

/-- Source macro `XCCDF_FIXCOMMON_PARSE` (rule.c 513-519). -/
def XCCDF_FIXCOMMON_PARSE (h : xccdf_item_h) (reader : xml_node) : xccdf_fixcommon where
  reboot := xccdf_attribute_get_bool reader XCCDFA_REBOOT
  strategy := string_to_enum XCCDF_STRATEGY_MAP (xccdf_attribute_get reader XCCDFA_STRATEGY)
  disruption := string_to_enum h.XCCDF_LEVEL_MAP (xccdf_attribute_get reader XCCDFA_DISRUPTION)
  complexity := string_to_enum h.XCCDF_LEVEL_MAP (xccdf_attribute_get reader XCCDFA_COMPLEXITY)
  content := xccdf_element_string_copy reader

/-- The record `struct xccdf_fix`; `addr` is the address of the record, under which it is
entered in the auxiliary table. -/
structure xccdf_fix extends xccdf_fixcommon where
  addr : Nat
  id : Option cstring
  system : Option cstring
  platform : Option cstring
deriving DecidableEq, Repr

/-- The record `struct xccdf_fixtext`; `fixref` is the reference slot `fix->fixref`. -/
structure xccdf_fixtext extends xccdf_fixcommon where
  fixref : xccdf_slot
deriving DecidableEq, Repr

/-- Source `xccdf_fix_new_parse` (rule.c 522-532). -/
def xccdf_fix_new_parse (h : xccdf_item_h) (reader : xml_node) (m : xccdf_mem) :
    xccdf_fix × xccdf_mem :=
  let addr := m.brk
  let m := { m with brk := m.brk + 1 }
  let id := xccdf_attribute_copy reader XCCDFA_ID
  let m := match id with
    | some s => if s ≠ [] then xccdf_htable_add_aux m s addr else m
    | none => m
  ({ XCCDF_FIXCOMMON_PARSE h reader with
      addr := addr, id := id,
      system := xccdf_attribute_copy reader XCCDFA_SYSTEM,
      platform := xccdf_attribute_copy reader XCCDFA_PLATFORM }, m)

/-- Source `xccdf_fixtext_new_parse` (rule.c 534-541). -/
def xccdf_fixtext_new_parse (h : xccdf_item_h) (reader : xml_node) (m : xccdf_mem) :
    xccdf_fixtext × xccdf_mem :=
  let addr := m.brk
  let m := { m with brk := m.brk + 1 }
  let m := xccdf_benchmark_add_ref m addr (xccdf_attribute_get reader XCCDFA_FIXREF)
    XCCDF_TYPE_0
  ({ XCCDF_FIXCOMMON_PARSE h reader with fixref := ⟨addr⟩ }, m)

/-- The rule part of an item (`item->sub.rule`). `check` is the primary check, `none`
being NULL. Entries of `idents` are the pointers handed to `xccdf_list_add`, `none`
being NULL; `checks` only ever receives non-NULL pointers. -/
structure xccdf_rule_item where
  role : Nat
  severity : Nat
  check : Option xccdf_check
  idents : List (Option xccdf_ident)
  checks : List xccdf_check
  requires : List (List xccdf_slot)
  conflicts : List xccdf_slot
  profile_notes : List xccdf_profile_note
  fixes : List xccdf_fix
  fixtexts : List xccdf_fixtext

/-- The record `struct xccdf_item`, by variant: a rule, a group (`item->sub.group`: the
owned content, the requires and conflicts lists, the owned values) or the benchmark
(of which the content list is kept). -/
inductive xccdf_item where
  | rule (item : xccdf_item_base) (sub : xccdf_rule_item)
  | group (item : xccdf_item_base) (content : List xccdf_item)
      (requires : List (List xccdf_slot)) (conflicts : List xccdf_slot)
      (values : List (Option xccdf_value))
  | benchmark (item : xccdf_item_base) (content : List xccdf_item)

namespace xccdf_item

/-- The common fields `item->item`. -/
def base : xccdf_item → xccdf_item_base
  | rule b _ => b
  | group b _ _ _ _ => b
  | benchmark b _ => b

/-- Assignment to the common fields `item->item`. -/
def set_base : xccdf_item → xccdf_item_base → xccdf_item
  | rule _ s, b => rule b s
  | group _ c r k v, b => group b c r k v
  | benchmark _ c, b => benchmark b c

/-- The rule fields `item->sub.rule` of a rule. -/
def sub_rule : xccdf_item → Option xccdf_rule_item
  | rule _ s => some s
  | _ => none

/-- An assignment to fields of `item->sub.rule`. -/
def upd_rule (f : xccdf_rule_item → xccdf_rule_item) : xccdf_item → xccdf_item
  | rule b s => rule b (f s)
  | i => i

/-- The requires list of a rule or group. -/
def requires : xccdf_item → List (List xccdf_slot)
  | rule _ s => s.requires
  | group _ _ r _ _ => r
  | benchmark _ _ => []

/-- The conflicts list of a rule or group. -/
def conflicts : xccdf_item → List xccdf_slot
  | rule _ s => s.conflicts
  | group _ _ _ k _ => k
  | benchmark _ _ => []

/-- The lists that `xccdf_deps_get` returned pointers to, after the caller has changed
them in place. -/
def deps_put : xccdf_item → List xccdf_slot → List (List xccdf_slot) → xccdf_item
  | rule b s, k, r => rule b { s with requires := r, conflicts := k }
  | group b c _ _ v, k, r => group b c r k v
  | benchmark b c, _, _ => benchmark b c

end xccdf_item

/-- Source `xccdf_deps_get` (rule.c 71-84): the conflicts list and the requires list of a
rule or group; `none` is the failed `assert(false)`. -/
def xccdf_deps_get (item : xccdf_item) :
    Option (List xccdf_slot × List (List xccdf_slot)) :=
  match item with
  | .rule _ s => some (s.conflicts, s.requires)
  | .group _ _ r k _ => some (k, r)
  | .benchmark _ _ => none

/-! ## Dependencies -/

/-- The loop of `xccdf_parse_deps` over the identifiers (rule.c 96-100). `ids` is the
cursor `ids`, `reqs` the list under construction. `fuel` bounds the number of passes;
`xccdf_parse_deps` gives it more than the loop can use. -/
def xccdf_parse_deps_loop :
    Nat → Option cstring → List xccdf_slot → xccdf_mem → List xccdf_slot × xccdf_mem
  | 0, _, reqs, m => (reqs, m)
  | fuel + 1, ids, reqs, m =>
    match xccdf_strsep (some ids) ' ' with
    | (none, _) => (reqs, m)
    | (some id, ids) =>
      if streq id [] then xccdf_parse_deps_loop fuel ids reqs m
      else
        let r := xccdf_list_add_null reqs m
        let m := xccdf_benchmark_add_ref r.2.2 r.2.1 (some id) XCCDF_CONTENT
        xccdf_parse_deps_loop fuel ids r.1 m

/-- Source `xccdf_parse_deps` (rule.c 86-119). The result is the returned boolean, the
item and the memory afterwards; `none` is a failed `assert(false)`. -/
def xccdf_parse_deps (reader : xml_node) (item : xccdf_item) (m : xccdf_mem) :
    Option (Bool × xccdf_item × xccdf_mem) :=
  match xccdf_deps_get item with
  | none => none
  | some (conflicts, requires) =>
    match xccdf_element_get reader with
    | XCCDFE_REQUIRES =>
      let ids := xccdf_attribute_copy reader XCCDFA_IDREF
      let r := xccdf_parse_deps_loop ((ids.elim 0 List.length) + 2) ids [] m
      if r.1.length = 0 then some (false, item, r.2)
      else some (true, item.deps_put conflicts (xccdf_list_add requires r.1), r.2)
    | XCCDFE_CONFLICTS =>
      let r := xccdf_list_add_null conflicts m
      let m := xccdf_benchmark_add_ref r.2.2 r.2.1
        (xccdf_attribute_get reader XCCDFA_IDREF) XCCDF_CONTENT
      some (true, item.deps_put r.1 requires, m)
    | _ => none

/-! ## Rules -/

/-- Modelled from the spec: `xccdf_item_new` (external) allocates a zeroed item of the
given variant. -/
def xccdf_item_new (type : xccdf_type) : xccdf_item_base :=
  { type := type, id := none, generic := [] }

/-- Source `xccdf_rule_new_empty` (rule.c 223-236). The primary check is not assigned:
it keeps the NULL of the zeroed allocation. -/
def xccdf_rule_new_empty (h : xccdf_item_h) : xccdf_item :=
  .rule (xccdf_item_new XCCDF_RULE)
    { role := h.XCCDF_ROLE_FULL, severity := h.XCCDF_UNKNOWN, check := none,
      idents := [], checks := [], requires := [], conflicts := [],
      profile_notes := [], fixes := [], fixtexts := [] }

/-- The body of the loop of `xccdf_rule_new_parse` for the child element `c`
(rule.c 257-287); `none` is a failed assertion in a callee. -/
def xccdf_rule_new_parse_step (h : xccdf_item_h) (c : xml_node) (rule : xccdf_item)
    (m : xccdf_mem) : Option (xccdf_item × xccdf_mem) :=
  match xccdf_element_get c with
  | XCCDFE_REQUIRES | XCCDFE_CONFLICTS =>
    match xccdf_parse_deps c rule m with
    | none => none
    | some r => some (r.2.1, r.2.2)
  | XCCDFE_PROFILE_NOTE =>
    match xccdf_attribute_get c XCCDFA_TAG with
    | none => some (rule, m)
    | some tag =>
      let note : xccdf_profile_note := { reftag := tag, text := xccdf_get_xml c }
      some (rule.upd_rule (fun s =>
        { s with profile_notes := xccdf_list_add s.profile_notes note }), m)
  | XCCDFE_CHECK =>
    match xccdf_check_new_parse c m with
    | (none, m) => some (rule, m)
    | (some check, m) =>
      let rule :=
        if check.selector = none ∨ check.selector = some [] then
          rule.upd_rule (fun s => { s with check := some check })
        else rule
      some (rule.upd_rule (fun s => { s with checks := xccdf_list_add s.checks check }), m)
  | XCCDFE_FIX =>
    let r := xccdf_fix_new_parse h c m
    some (rule.upd_rule (fun s => { s with fixes := xccdf_list_add s.fixes r.1 }), r.2)
  | XCCDFE_FIXTEXT =>
    let r := xccdf_fixtext_new_parse h c m
    some (rule.upd_rule (fun s => { s with fixtexts := xccdf_list_add s.fixtexts r.1 }), r.2)
  | XCCDFE_IDENT =>
    match xccdf_ident_new_parse c with
    | none => none
    | some ident =>
      some (rule.upd_rule (fun s => { s with idents := xccdf_list_add s.idents ident }), m)
  | _ =>
    let r := h.xccdf_item_process_element rule.base c m
    some (rule.set_base r.1, r.2)

/-- The loop of `xccdf_rule_new_parse` over the child elements still to visit
(rule.c 256-289). -/
def xccdf_rule_new_parse_loop (h : xccdf_item_h) :
    List xml_node → xccdf_item → xccdf_mem → Option (xccdf_item × xccdf_mem)
  | [], rule, m => some (rule, m)
  | c :: rest, rule, m =>
    match xccdf_rule_new_parse_step h c rule m with
    | none => none
    | some r => xccdf_rule_new_parse_loop h rest r.1 r.2

/-- Source `xccdf_rule_new_parse` (rule.c 239-292). The result is the returned pointer
(`none` is NULL) and the memory afterwards; `none` at the outer level is a failed
assertion (`XCCDF_ASSERT_ELEMENT`). -/
def xccdf_rule_new_parse (h : xccdf_item_h) (reader : xml_node) (m : xccdf_mem) :
    Option (Option xccdf_item × xccdf_mem) :=
  if xccdf_element_get reader ≠ XCCDFE_RULE then none
  else
    let rule := xccdf_rule_new_empty h
    let r := h.xccdf_item_process_attributes rule.base reader m
    if r.1 = false then some (none, r.2.2)
    else
      let rule := rule.set_base r.2.1
      let rule :=
        if xccdf_attribute_has reader XCCDFA_ROLE then
          let role := string_to_enum h.XCCDF_ROLE_MAP (xccdf_attribute_get reader XCCDFA_ROLE)
          rule.upd_rule (fun s => { s with role := role })
        else rule
      let rule :=
        if xccdf_attribute_has reader XCCDFA_SEVERITY then
          let severity :=
            string_to_enum h.XCCDF_LEVEL_MAP (xccdf_attribute_get reader XCCDFA_SEVERITY)
          rule.upd_rule (fun s => { s with severity := severity })
        else rule
      match xccdf_rule_new_parse_loop h (xml_children reader) rule r.2.2 with
      | none => none
      | some r => some (some r.1, r.2)

/-! ## Helpers for the statements -/

/-- The non-empty tokens of `s` split on the space character, in the order they occur. -/
def idref_tokens (s : cstring) : List cstring :=
  (s.splitOn ' ').filter (fun t => t ≠ [])

/-- The reference slots at the `n` consecutive addresses from `a`. -/
def slots_from : Nat → Nat → List xccdf_slot
  | _, 0 => []
  | a, n + 1 => ⟨a⟩ :: slots_from (a + 1) n

/-- The requests of kind `type` that fill the consecutive cells from `a` with the
identifiers `ids`, in order. -/
def requests_from : Nat → List cstring → xccdf_type → List xccdf_backref
  | _, [], _ => []
  | a, t :: ts, type => ⟨a, some t, type⟩ :: requests_from (a + 1) ts type

/-- A run of `xccdf_parse_deps` calls on one item, one per reader in turn, each call
starting from the item and memory the previous one left; `none` when a call aborts. -/
def xccdf_parse_deps_seq :
    List xml_node → xccdf_item → xccdf_mem → Option (xccdf_item × xccdf_mem)
  | [], item, m => some (item, m)
  | reader :: rest, item, m =>
    match xccdf_parse_deps reader item m with
    | none => none
    | some r => xccdf_parse_deps_seq rest r.2.1 r.2.2

/-- Whether the selector of a check is absent or empty (the test of rule.c 273). -/
def no_selector (check : xccdf_check) : Bool :=
  decide (check.selector = none ∨ check.selector = some [])

/-- Whether an element is a `check` element. -/
def is_check (c : xml_node) : Bool :=
  decide (xccdf_element_get c = XCCDFE_CHECK)

/-- Whether an element is a `check` or a `complex-check` element. -/
def is_check_or_complex (c : xml_node) : Bool :=
  decide (xccdf_element_get c = XCCDFE_CHECK ∨ xccdf_element_get c = XCCDFE_COMPLEX_CHECK)

/-- A memory with empty benchmark tables, the allocator at address 0. -/
def mem0 : xccdf_mem :=
  { bench := { dict := [], auxdict := [], idrefs := [] }, brk := 0 }

/-- Modelled from the spec: an instance of the external part for the examples. Attribute
processing takes the identifier from the id attribute, fails when it is absent and
registers it in the identifier table otherwise; the generic element processor records
the element among the item's generic elements; a value is made of its id attribute. -/
def item_h0 : xccdf_item_h where
  XCCDF_ROLE_MAP := { entries := [], dflt := 0 }
  XCCDF_LEVEL_MAP := { entries := [], dflt := 0 }
  XCCDF_ROLE_FULL := 1
  XCCDF_UNKNOWN := 0
  xccdf_item_process_attributes := fun b r m =>
    match xccdf_attribute_copy r XCCDFA_ID with
    | none => (false, b, m)
    | some id => (true, { b with id := some id },
        { m with bench := { m.bench with dict := m.bench.dict ++ [id] } })
  xccdf_item_process_element := fun b r m =>
    ({ b with generic := b.generic ++ [(xccdf_element_get r, xccdf_element_string_get r)] }, m)
  xccdf_value_new_parse := fun r m => (some { id := xccdf_attribute_copy r XCCDFA_ID }, m)

/-- An element with the given tag and attributes, without body or children. -/
def leaf_node (el : xccdf_element) (attrs : List (xccdf_attribute × cstring)) : xml_node :=
  .mk el attrs none none []

/-- An element with the given tag, attributes and children, without body. -/
def tree_node (el : xccdf_element) (attrs : List (xccdf_attribute × cstring))
    (children : List xml_node) : xml_node :=
  .mk el attrs none none children

/-- Whether the operator attribute of the element is one of the strings of
`XCCDF_BOOLOP_MAP`: "and", "AND", "or" or "OR". -/
def operator_recognised (reader : xml_node) : Bool :=
  decide (xccdf_attribute_get reader XCCDFA_OPERATOR = some "and".toList
    ∨ xccdf_attribute_get reader XCCDFA_OPERATOR = some "AND".toList
    ∨ xccdf_attribute_get reader XCCDFA_OPERATOR = some "or".toList
    ∨ xccdf_attribute_get reader XCCDFA_OPERATOR = some "OR".toList)

/-- The value the operator attribute maps to, as the table is described: AND for "and"
and "AND", OR for "or" and "OR", 0 for any other string and for an absent attribute. -/
def boolop_value (op : Option cstring) : Nat :=
  if op = some "and".toList ∨ op = some "AND".toList then XCCDF_OPERATOR_AND
  else if op = some "or".toList ∨ op = some "OR".toList then XCCDF_OPERATOR_OR
  else 0

/-- Whether an element is a `check` element whose selector attribute is absent or
empty. -/
def is_check_without_selector (c : xml_node) : Bool :=
  is_check c && decide (xccdf_attribute_get c XCCDFA_SELECTOR = none
    ∨ xccdf_attribute_get c XCCDFA_SELECTOR = some [])

/-- The rule fields of the item that `xccdf_rule_new_parse` returned, when it returned
a rule. -/
def parsed_rule (r : Option (Option xccdf_item × xccdf_mem)) : Option xccdf_rule_item :=
  r.bind (fun p => p.1.bind xccdf_item.sub_rule)

/-- The content-ref record that a child element of a check contributes: one for a
`check-content-ref` element that has an href attribute (its name attribute may be
absent), none for any other element. -/
def content_ref_of (c : xml_node) : Option xccdf_check_content_ref :=
  if xccdf_element_get c = XCCDFE_CHECK_CONTENT_REF then
    (xccdf_attribute_get c XCCDFA_HREF).map
      (fun href => { name := xccdf_attribute_get c XCCDFA_NAME, href := href })
  else none

/-- The import record that a child element of a check contributes: one for a
`check-import` element that has a name attribute, none for any other element. -/
def import_of (c : xml_node) : Option xccdf_check_import :=
  if xccdf_element_get c = XCCDFE_CHECK_IMPORT then
    (xccdf_attribute_get c XCCDFA_IMPORT_NAME).map
      (fun name => { name := name, content := xccdf_element_string_get c })
  else none

/-- Whether an element is a `check-content` element. -/
def is_check_content (c : xml_node) : Bool :=
  decide (xccdf_element_get c = XCCDFE_CHECK_CONTENT)

/-- Whether an element is a `check-export` element that has a name attribute. -/
def is_named_export (c : xml_node) : Bool :=
  decide (xccdf_element_get c = XCCDFE_CHECK_EXPORT)
    && (xccdf_attribute_get c XCCDFA_EXPORT_NAME).isSome

/-- Whether an element is a `check-import` or `check-export` element without its name
attribute. -/
def is_unnamed_import_or_export (c : xml_node) : Bool :=
  (decide (xccdf_element_get c = XCCDFE_CHECK_IMPORT)
      && (xccdf_attribute_get c XCCDFA_IMPORT_NAME).isNone)
    || (decide (xccdf_element_get c = XCCDFE_CHECK_EXPORT)
      && (xccdf_attribute_get c XCCDFA_EXPORT_NAME).isNone)

/-- An element with the given tag, attributes and text body, without children. -/
def text_node (el : xccdf_element) (attrs : List (xccdf_attribute × cstring))
    (text : cstring) : xml_node :=
  .mk el attrs (some text) none []

/-- Every queued reference request points to a cell that has been allocated. -/
def mem_fresh (m : xccdf_mem) : Prop :=
  ∀ b ∈ m.bench.idrefs, b.ptr < m.brk

/-- From the memory `m` to the memory `n`, the only changes are allocations and newly
queued reference requests, each into a cell allocated in between, no two into the same
cell; the identifier tables are the same. -/
def mem_ext (m n : xccdf_mem) : Prop :=
  m.brk ≤ n.brk ∧ n.bench.dict = m.bench.dict ∧ n.bench.auxdict = m.bench.auxdict
    ∧ ∃ new, n.bench.idrefs = m.bench.idrefs ++ new
      ∧ (∀ b ∈ new, m.brk ≤ b.ptr ∧ b.ptr < n.brk)
      ∧ (new.map (fun b => b.ptr)).Nodup

/-- The reference request that belongs to the export record `e` made from the
`check-export` element `c`: into the slot of `e`, for the value-id attribute of `c`,
of kind `XCCDF_VALUE`. -/
def export_request (c : xml_node) (e : xccdf_check_export) : xccdf_backref :=
  ⟨e.value.cell, xccdf_attribute_get c XCCDFA_VALUE_ID, XCCDF_VALUE⟩

/-- The export record that a child element of a check contributes when its slot is
allocated at the address `cell`: one for a `check-export` element that has a name
attribute, none for any other element. -/
def export_of (c : xml_node) (cell : Nat) : Option xccdf_check_export :=
  if xccdf_element_get c = XCCDFE_CHECK_EXPORT then
    (xccdf_attribute_get c XCCDFA_EXPORT_NAME).map
      (fun name => { name := name, value := ⟨cell⟩ })
  else none

/-! ## Groups and content -/

namespace xccdf_item

/-- The content list that `xccdf_content_parse` selects by the variant of the parent
(rule.c 36-40): that of a benchmark or of a group; `none` is the failed
`assert(false)`. -/
def content_list : xccdf_item → Option (List xccdf_item)
  | benchmark _ c => some c
  | group _ c _ _ _ => some c
  | rule _ _ => none

/-- The content list selected by `content_list`, after the caller has changed it in
place. -/
def set_content : xccdf_item → List xccdf_item → xccdf_item
  | benchmark b _, c => benchmark b c
  | group b _ r k v, c => group b c r k v
  | rule b s, _ => rule b s

/-- The values list `item->sub.group.values` of a group. -/
def values : xccdf_item → List (Option xccdf_value)
  | group _ _ _ _ v => v
  | _ => []

/-- An assignment to `item->sub.group.values`. -/
def set_values : xccdf_item → List (Option xccdf_value) → xccdf_item
  | group b c r k _, v => group b c r k v
  | i, _ => i

end xccdf_item

/-- Source `xccdf_group_new_empty` (rule.c 157-165). -/
def xccdf_group_new_empty : xccdf_item :=
  .group (xccdf_item_new XCCDF_GROUP) [] [] [] []

/-- Source `xccdf_content_parse` (rule.c 29-57), with the result of its call
`xccdf_group_new_parse(reader, parent)` (rule.c 46) passed in as `group_new_parse`, so
that the group parser recurses through the child elements only. The result is the
returned boolean, the parent and the memory afterwards; `none` is a failed assertion. -/
def xccdf_content_parse_with (h : xccdf_item_h)
    (group_new_parse : Option (Option xccdf_item × xccdf_mem))
    (reader : xml_node) (parent : xccdf_item) (m : xccdf_mem) :
    Option (Bool × xccdf_item × xccdf_mem) :=
  match parent.content_list with
  | none => none
  | some list =>
    let item : Option (Option xccdf_item × xccdf_mem) :=
      match xccdf_element_get reader with
      | XCCDFE_RULE => xccdf_rule_new_parse h reader m
      | XCCDFE_GROUP => group_new_parse
      | XCCDFE_VALUE => some (none, m)
      | _ => none
    match item with
    | none => none
    | some (some item, m) => some (true, parent.set_content (xccdf_list_add list item), m)
    | some (none, m) => some (false, parent, m)

/-- The body of the loop of `xccdf_group_new_parse` for the child element `c`
(rule.c 181-192), with the result of `xccdf_group_new_parse` on `c`, which the call
`xccdf_content_parse(reader, group)` of rule.c 186 makes for a `group` child, passed
in as `group_new_parse`; `none` is a failed assertion in a callee. -/
def xccdf_group_new_parse_step (h : xccdf_item_h)
    (group_new_parse : Option (Option xccdf_item × xccdf_mem))
    (c : xml_node) (group : xccdf_item) (m : xccdf_mem) : Option (xccdf_item × xccdf_mem) :=
  match xccdf_element_get c with
  | XCCDFE_REQUIRES | XCCDFE_CONFLICTS =>
    match xccdf_parse_deps c group m with
    | none => none
    | some r => some (r.2.1, r.2.2)
  | XCCDFE_GROUP | XCCDFE_RULE =>
    match xccdf_content_parse_with h group_new_parse c group m with
    | none => none
    | some r => some (r.2.1, r.2.2)
  | XCCDFE_VALUE =>
    let r := h.xccdf_value_new_parse c m
    some (group.set_values (xccdf_list_add group.values r.1), r.2)
  | _ =>
    let r := h.xccdf_item_process_element group.base c m
    some (group.set_base r.1, r.2)

mutual
/-- Source `xccdf_group_new_parse` (rule.c 167-197). The result is the returned pointer
(`none` is NULL) and the memory afterwards; `none` at the outer level is a failed
assertion. -/
def xccdf_group_new_parse (h : xccdf_item_h) :
    xml_node → xccdf_mem → Option (Option xccdf_item × xccdf_mem)
  | .mk el attrs text xml children, m =>
    if el ≠ XCCDFE_GROUP then none
    else
      let group := xccdf_group_new_empty
      let r := h.xccdf_item_process_attributes group.base (.mk el attrs text xml children) m
      if r.1 = false then some (none, r.2.2)
      else
        match xccdf_group_new_parse_loop h children (group.set_base r.2.1) r.2.2 with
        | none => none
        | some r => some (some r.1, r.2)
/-- The loop of `xccdf_group_new_parse` over the child elements still to visit
(rule.c 180-194). -/
def xccdf_group_new_parse_loop (h : xccdf_item_h) :
    List xml_node → xccdf_item → xccdf_mem → Option (xccdf_item × xccdf_mem)
  | [], group, m => some (group, m)
  | c :: rest, group, m =>
    match xccdf_group_new_parse_step h (xccdf_group_new_parse h c m) c group m with
    | none => none
    | some r => xccdf_group_new_parse_loop h rest r.1 r.2
end

/-- Source `xccdf_content_parse` (rule.c 29-57). The result is the returned boolean, the
parent and the memory afterwards; `none` is a failed assertion. -/
def xccdf_content_parse (h : xccdf_item_h) (reader : xml_node) (parent : xccdf_item)
    (m : xccdf_mem) : Option (Bool × xccdf_item × xccdf_mem) :=
  xccdf_content_parse_with h (xccdf_group_new_parse h reader m) reader parent m

/-- The result of the parser that `xccdf_content_parse` calls for the element: the rule
parser for a `rule`, the group parser for a `group`, NULL for a `value`; `none` is a
failed assertion. -/
def parse_content_item (h : xccdf_item_h) (reader : xml_node) (m : xccdf_mem) :
    Option (Option xccdf_item × xccdf_mem) :=
  match xccdf_element_get reader with
  | XCCDFE_RULE => xccdf_rule_new_parse h reader m
  | XCCDFE_GROUP => xccdf_group_new_parse h reader m
  | XCCDFE_VALUE => some (none, m)
  | _ => none

/-- Whether an element is a `group` or a `rule` element. -/
def is_group_or_rule (c : xml_node) : Bool :=
  decide (xccdf_element_get c = XCCDFE_GROUP ∨ xccdf_element_get c = XCCDFE_RULE)

/-- The identifiers of the items of a content list, in order. -/
def content_ids (l : List xccdf_item) : List (Option cstring) :=
  l.map (fun i => i.base.id)

/-- The outcome of the external attribute processing on the new, empty item that the
rule parser (for a `rule` element) or the group parser (for any other element) hands
to it: whether it succeeded, the common fields and the memory afterwards. -/
def content_item_attributes (h : xccdf_item_h) (reader : xml_node) (m : xccdf_mem) :
    Bool × xccdf_item_base × xccdf_mem :=
  if xccdf_element_get reader = XCCDFE_RULE then
    h.xccdf_item_process_attributes (xccdf_rule_new_empty h).base reader m
  else h.xccdf_item_process_attributes xccdf_group_new_empty.base reader m

/-- Whether an element is a `fix` element. -/
def is_fix (c : xml_node) : Bool :=
  decide (xccdf_element_get c = XCCDFE_FIX)

/-- The results that the parsers of the immediate `group` and `rule` children return,
NULL included, in document order, as the description of the group parser has them: each
such child is handed to its parser with the memory that the children before it left,
and the memory its parser leaves goes to the children after it; any other child
contributes nothing and passes on the group and the memory as its own pass of the loop
leaves them. The content list that `group` carries is not consulted. -/
def group_children_results (h : xccdf_item_h) :
    List xml_node → xccdf_item → xccdf_mem → List (Option xccdf_item)
  | [], _, _ => []
  | c :: rest, group, m =>
    if is_group_or_rule c then
      match parse_content_item h c m with
      | none => []
      | some r => r.1 :: group_children_results h rest group r.2
    else
      match xccdf_group_new_parse_step h (xccdf_group_new_parse h c m) c group m with
      | none => []
      | some r => group_children_results h rest r.1 r.2

/-- An instance of the external steps for examples in which the memory matters: as
`item_h0`, but attribute processing also fails when the identifier is in the
identifier table already. -/
def item_h1 : xccdf_item_h :=
  { item_h0 with
    xccdf_item_process_attributes := fun b r m =>
      match xccdf_attribute_copy r XCCDFA_ID with
      | none => (false, b, m)
      | some id =>
        if id ∈ m.bench.dict then (false, b, m)
        else (true, { b with id := some id },
          { m with bench := { m.bench with dict := m.bench.dict ++ [id] } }) }

/-! ## Destruction -/

/-- One destructor invocation that released an entity: which entity it was. NULL
pointers handed to a destructor release nothing and leave no event; the strings and
list nodes of an entity go with it. -/
inductive xccdf_freed where
  | ident (i : xccdf_ident)
  | profile_note (n : xccdf_profile_note)
  | check (c : xccdf_check)
  | check_content_ref (r : xccdf_check_content_ref)
  | check_import (i : xccdf_check_import)
  | check_export (e : xccdf_check_export)
  | fix (f : xccdf_fix)
  | fixtext (t : xccdf_fixtext)
  | value (v : xccdf_value)
  | item (i : xccdf_item)

/-- Modelled from the spec: `xccdf_list_delete(list, destructor)` (generic ordered-list
container, external): the destructor, when one is given, is invoked on the data of
each node in list order; with a NULL destructor the data is left alone. The result is
the sequence of destructor events. -/
def xccdf_list_delete {α : Type} :
    List α → Option (α → List xccdf_freed) → List xccdf_freed
  | [], _ => []
  | x :: rest, some destructor => destructor x ++ xccdf_list_delete rest (some destructor)
  | _ :: rest, none => xccdf_list_delete rest none

/-- Modelled from the spec: `xccdf_list_delete0` (external): deletes a list without
touching what its nodes point to (reference slots are non-owning). -/
def xccdf_list_delete0 {α : Type} (list : List α) : List xccdf_freed :=
  xccdf_list_delete list none

/-- Source `xccdf_ident_delete` (rule.c 342-349). -/
def xccdf_ident_delete : Option xccdf_ident → List xccdf_freed
  | some ident => [.ident ident]
  | none => []

/-- Source `xccdf_profile_note_delete` (rule.c 351-358). -/
def xccdf_profile_note_delete : Option xccdf_profile_note → List xccdf_freed
  | some note => [.profile_note note]
  | none => []

/-- Source `xccdf_check_content_ref_delete` (rule.c 475-482). -/
def xccdf_check_content_ref_delete : Option xccdf_check_content_ref → List xccdf_freed
  | some ref => [.check_content_ref ref]
  | none => []

/-- Source `xccdf_check_import_delete` (rule.c 484-491). -/
def xccdf_check_import_delete : Option xccdf_check_import → List xccdf_freed
  | some item => [.check_import item]
  | none => []

/-- Source `xccdf_check_export_delete` (rule.c 493-499): the name and the record are
freed, the referenced value is not touched. -/
def xccdf_check_export_delete : Option xccdf_check_export → List xccdf_freed
  | some item => [.check_export item]
  | none => []

/-- Source `xccdf_fixtext_delete` (rule.c 543-549): the content and the record are freed,
the referenced fix is not touched. -/
def xccdf_fixtext_delete : Option xccdf_fixtext → List xccdf_freed
  | some item => [.fixtext item]
  | none => []

/-- Source `xccdf_fix_delete` (rule.c 551-560). -/
def xccdf_fix_delete : Option xccdf_fix → List xccdf_freed
  | some item => [.fix item]
  | none => []

mutual
/-- Source `xccdf_check_delete` (rule.c 455-468): the three record lists, then the
children, each deleted with its destructor, then the check itself. -/
def xccdf_check_delete : Option xccdf_check → List xccdf_freed
  | none => []
  | some (.mk id system selector content oper content_refs imports exports children) =>
    xccdf_list_delete content_refs (some (fun r => xccdf_check_content_ref_delete (some r)))
      ++ xccdf_list_delete imports (some (fun i => xccdf_check_import_delete (some i)))
      ++ xccdf_list_delete exports (some (fun e => xccdf_check_export_delete (some e)))
      ++ xccdf_check_delete_children children
      ++ [.check (.mk id system selector content oper content_refs imports exports children)]
/-- The call `xccdf_list_delete(check->children, xccdf_check_delete)` of rule.c 461. -/
def xccdf_check_delete_children : List (Option xccdf_check) → List xccdf_freed
  | [] => []
  | c :: rest => xccdf_check_delete c ++ xccdf_check_delete_children rest
end

/-- Modelled from the spec: `xccdf_value_delete` (external): releases a value. -/
def xccdf_value_delete : Option xccdf_value → List xccdf_freed
  | some v => [.value v]
  | none => []

/-- Modelled from the spec: `xccdf_item_release` (external): releases the common fields
of an item and the item itself. -/
def xccdf_item_release (item : xccdf_item) : List xccdf_freed :=
  [.item item]

/-- Source `xccdf_rule_delete` (rule.c 306-318). On a pointer that is not a rule the
function is outside its domain; the embedding gives it no event. -/
def xccdf_rule_delete : Option xccdf_item → List xccdf_freed
  | some (.rule b s) =>
    xccdf_list_delete s.idents (some xccdf_ident_delete)
      ++ xccdf_list_delete s.checks (some (fun c => xccdf_check_delete (some c)))
      ++ xccdf_list_delete s.requires (some xccdf_list_delete0)
      ++ xccdf_list_delete s.conflicts none
      ++ xccdf_list_delete s.profile_notes (some (fun n => xccdf_profile_note_delete (some n)))
      ++ xccdf_list_delete s.fixes (some (fun f => xccdf_fix_delete (some f)))
      ++ xccdf_list_delete s.fixtexts (some (fun t => xccdf_fixtext_delete (some t)))
      ++ xccdf_item_release (.rule b s)
  | _ => []

mutual
/-- Modelled from the spec: `xccdf_item_delete` (external) destroys an item according to
its variant: a rule with `xccdf_rule_delete`, a group as `xccdf_group_delete` does
(rule.c 212-221), the benchmark by destroying its content and releasing it. -/
def xccdf_item_delete : xccdf_item → List xccdf_freed
  | .rule b s => xccdf_rule_delete (some (.rule b s))
  | .group b content requires conflicts values =>
    xccdf_item_delete_content content
      ++ xccdf_list_delete requires (some xccdf_list_delete0)
      ++ xccdf_list_delete values (some xccdf_value_delete)
      ++ xccdf_list_delete conflicts none
      ++ xccdf_item_release (.group b content requires conflicts values)
  | .benchmark b content =>
    xccdf_item_delete_content content ++ xccdf_item_release (.benchmark b content)
/-- The call `xccdf_list_delete(content, xccdf_item_delete)`. -/
def xccdf_item_delete_content : List xccdf_item → List xccdf_freed
  | [] => []
  | i :: rest => xccdf_item_delete i ++ xccdf_item_delete_content rest
end

/-- Source `xccdf_group_delete` (rule.c 212-221). On a pointer that is not a group the
function is outside its domain; the embedding gives it no event. -/
def xccdf_group_delete : Option xccdf_item → List xccdf_freed
  | some (.group b content requires conflicts values) =>
    xccdf_list_delete content (some xccdf_item_delete)
      ++ xccdf_list_delete requires (some xccdf_list_delete0)
      ++ xccdf_list_delete values (some xccdf_value_delete)
      ++ xccdf_list_delete conflicts none
      ++ xccdf_item_release (.group b content requires conflicts values)
  | _ => []

mutual
/-- A check node that is not NULL together with every entity it owns: its content
references, imports and exports, and its child checks with what they own in turn. -/
def check_entities : Option xccdf_check → List xccdf_freed
  | none => []
  | some (.mk id system selector content oper content_refs imports exports children) =>
    .check (.mk id system selector content oper content_refs imports exports children)
      :: (content_refs.map .check_content_ref ++ imports.map .check_import
        ++ exports.map .check_export ++ check_entities_list children)
/-- The entities of a list of check nodes. -/
def check_entities_list : List (Option xccdf_check) → List xccdf_freed
  | [] => []
  | c :: rest => check_entities c ++ check_entities_list rest
end

/-- The entities a rule owns: its idents, its checks with everything they own, its
profile notes, fixes and fixtexts. What its requires groups, its conflicts list, its
check exports and its fixtexts refer to is not owned. -/
def rule_owned (s : xccdf_rule_item) : List xccdf_freed :=
  s.idents.reduceOption.map .ident ++ check_entities_list (s.checks.map some)
    ++ s.profile_notes.map .profile_note ++ s.fixes.map .fix ++ s.fixtexts.map .fixtext

mutual
/-- An item together with every entity it owns: for a rule what `rule_owned` lists, for
a group (and the benchmark) its content items with what they own in turn, and for a
group its values. -/
def item_entities : xccdf_item → List xccdf_freed
  | .rule b s => .item (.rule b s) :: rule_owned s
  | .group b content requires conflicts values =>
    .item (.group b content requires conflicts values)
      :: (item_entities_list content ++ values.reduceOption.map .value)
  | .benchmark b content => .item (.benchmark b content) :: item_entities_list content
/-- The entities of a list of items. -/
def item_entities_list : List xccdf_item → List xccdf_freed
  | [] => []
  | i :: rest => item_entities i ++ item_entities_list rest
end

mutual
/-- An item and its content items, their content items and so on: the items that the
item owns, itself included. -/
def item_tree : xccdf_item → List xccdf_item
  | .rule b s => [.rule b s]
  | .group b content requires conflicts values =>
    .group b content requires conflicts values :: item_tree_list content
  | .benchmark b content => .benchmark b content :: item_tree_list content
/-- The items of a list of items, with the items they own. -/
def item_tree_list : List xccdf_item → List xccdf_item
  | [] => []
  | i :: rest => item_tree i ++ item_tree_list rest
end

/-- The calls `xccdf_strsep(&cursor, delim)` made one after the other, as the loop of
rule.c 96 makes them, until one returns NULL: the returned token of every call that
did not return NULL, each with the cursor that call left. `fuel` bounds the number of
calls; `none` means that it ran out before a call returned NULL. -/
def xccdf_strsep_calls : Nat → Option cstring → Char → Option (List (cstring × Option cstring))
  | 0, _, _ => none
  | fuel + 1, cursor, delim =>
    match xccdf_strsep (some cursor) delim with
    | (none, _) => some []
    | (some token, cursor) =>
      (xccdf_strsep_calls fuel cursor delim).map (fun rest => (token, cursor) :: rest)

/-! ## Splitting the idref list -/

theorem strchr_eq_none {s : cstring} {c : Char} (h : strchr s c = none) : c ∉ s := by
  induction s with
  | nil => simp
  | cons x t ih =>
    simp only [strchr] at h
    split at h
    · simp at h
    · rename_i hx
      simp only [Option.map_eq_none'] at h
      simp only [List.mem_cons, not_or]
      exact ⟨fun e => hx e.symm, ih h⟩

theorem strchr_eq_some {s : cstring} {c : Char} (hc : c ≠ Char.ofNat 0) {i : Nat}
    (h : strchr s c = some i) :
    c ∉ s.take i ∧ s = s.take i ++ c :: s.drop (i + 1) := by
  induction s generalizing i with
  | nil => simp [strchr, hc] at h
  | cons x t ih =>
    simp only [strchr] at h
    split at h
    · rename_i hx
      simp only [Option.some.injEq] at h
      subst h
      simp [hx]
    · rename_i hx
      simp only [Option.map_eq_some'] at h
      obtain ⟨j, hj, rfl⟩ := h
      obtain ⟨h1, h2⟩ := ih hj
      refine ⟨?_, ?_⟩
      · simp only [List.take_succ_cons, List.mem_cons, not_or]
        exact ⟨fun e => hx e.symm, h1⟩
      · simp only [List.take_succ_cons, List.drop_succ_cons, List.cons_append]
        rw [← h2]

theorem strchr_lt_length {s : cstring} {c : Char} (hc : c ≠ Char.ofNat 0) {i : Nat}
    (h : strchr s c = some i) : i < s.length := by
  have h2 := (strchr_eq_some hc h).2
  have h3 := congrArg List.length h2
  simp only [List.length_append, List.length_cons, List.length_take, List.length_drop] at h3
  omega

theorem space_ne_nul : ' ' ≠ Char.ofNat 0 := by decide

theorem idref_tokens_of_none {s : cstring} (h : strchr s ' ' = none) :
    idref_tokens s = if s = [] then [] else [s] := by
  have hs : s.splitOn ' ' = [s] := by
    unfold List.splitOn
    apply List.splitOnP_eq_single
    intro x hx hp
    simp only [beq_iff_eq] at hp
    subst hp
    exact strchr_eq_none h hx
  unfold idref_tokens
  rw [hs]
  by_cases he : s = [] <;> simp [he]

theorem idref_tokens_of_some {s : cstring} {i : Nat} (h : strchr s ' ' = some i) :
    idref_tokens s =
      (if s.take i = [] then [] else [s.take i]) ++ idref_tokens (s.drop (i + 1)) := by
  obtain ⟨h1, h2⟩ := strchr_eq_some space_ne_nul h
  have hs : s.splitOn ' ' = s.take i :: (s.drop (i + 1)).splitOn ' ' := by
    conv_lhs => rw [h2]
    unfold List.splitOn
    apply List.splitOnP_first
    · intro x hx hp
      simp only [beq_iff_eq] at hp
      subst hp
      exact h1 hx
    · simp
  unfold idref_tokens
  rw [hs]
  by_cases he : s.take i = [] <;> simp [he, List.filter_cons]

theorem parse_deps_loop_none (fuel : Nat) (reqs : List xccdf_slot) (m : xccdf_mem) :
    xccdf_parse_deps_loop fuel none reqs m = (reqs, m) := by
  cases fuel <;> simp [xccdf_parse_deps_loop, xccdf_strsep]

/-- With the fuel `xccdf_parse_deps` gives it, the loop over the identifiers of `s` adds
one slot per non-empty token, at consecutive fresh addresses, and queues one request
per token. -/
theorem parse_deps_loop_some (fuel : Nat) (s : cstring) (reqs : List xccdf_slot)
    (m : xccdf_mem) (hf : s.length + 2 ≤ fuel) :
    xccdf_parse_deps_loop fuel (some s) reqs m =
      (reqs ++ slots_from m.brk (idref_tokens s).length,
       { bench := { m.bench with
            idrefs := m.bench.idrefs ++ requests_from m.brk (idref_tokens s) XCCDF_CONTENT },
         brk := m.brk + (idref_tokens s).length }) := by
  induction fuel generalizing s reqs m with
  | zero => omega
  | succ fuel ih =>
    cases hch : strchr s ' ' with
    | none =>
      rw [idref_tokens_of_none hch]
      by_cases he : s = []
      · subst he
        simp [xccdf_parse_deps_loop, xccdf_strsep, hch, streq, parse_deps_loop_none,
          slots_from, requests_from]
      · simp [xccdf_parse_deps_loop, xccdf_strsep, hch, streq, he, parse_deps_loop_none,
          slots_from, requests_from, xccdf_list_add_null, xccdf_list_add,
          xccdf_benchmark_add_ref]
    | some i =>
      have hlt := strchr_lt_length space_ne_nul hch
      have hlen : (s.drop (i + 1)).length + 2 ≤ fuel := by
        simp only [List.length_drop]; omega
      rw [idref_tokens_of_some hch]
      by_cases he : s.take i = []
      · simp [xccdf_parse_deps_loop, xccdf_strsep, hch, streq, he, ih _ _ _ hlen]
      · simp [xccdf_parse_deps_loop, xccdf_strsep, hch, streq, he, ih _ _ _ hlen,
          slots_from, requests_from, xccdf_list_add_null, xccdf_list_add,
          xccdf_benchmark_add_ref, Nat.add_assoc, Nat.add_comm 1]

theorem parse_deps_requires_eq (reader : xml_node) (item : xccdf_item) (m : xccdf_mem)
    (s : cstring) (conflicts : List xccdf_slot) (requires : List (List xccdf_slot))
    (hel : xccdf_element_get reader = XCCDFE_REQUIRES)
    (hattr : xccdf_attribute_copy reader XCCDFA_IDREF = some s)
    (hitem : xccdf_deps_get item = some (conflicts, requires)) :
    xccdf_parse_deps reader item m =
      if (idref_tokens s).length = 0 then some (false, item, m)
      else some (true,
        item.deps_put conflicts (requires ++ [slots_from m.brk (idref_tokens s).length]),
        { bench := { m.bench with
            idrefs := m.bench.idrefs ++ requests_from m.brk (idref_tokens s) XCCDF_CONTENT },
          brk := m.brk + (idref_tokens s).length }) := by
  have hlen : ∀ a n, (slots_from a n).length = n := by
    intro a n
    induction n generalizing a with
    | zero => rfl
    | succ n ih => simp [slots_from, ih]
  unfold xccdf_parse_deps
  simp only [hitem, hel, hattr, Option.elim]
  rw [parse_deps_loop_some _ _ _ _ (le_refl _)]
  simp only [List.nil_append, hlen]
  by_cases h0 : (idref_tokens s).length = 0
  · simp only [h0, if_true]
    rw [List.length_eq_zero] at h0
    simp [h0, requests_from]
  · simp [h0, xccdf_list_add]

theorem deps_get_deps_put (item : xccdf_item) (k k' : List xccdf_slot)
    (r r' : List (List xccdf_slot)) (h : xccdf_deps_get item = some (k, r)) :
    xccdf_deps_get (item.deps_put k' r') = some (k', r') := by
  cases item <;> simp_all [xccdf_deps_get, xccdf_item.deps_put]

theorem slots_from_length (a n : Nat) : (slots_from a n).length = n := by
  induction n generalizing a with
  | zero => rfl
  | succ n ih => simp [slots_from, ih]

theorem requests_from_length (a : Nat) (ids : List cstring) (t : xccdf_type) :
    (requests_from a ids t).length = ids.length := by
  induction ids generalizing a with
  | nil => rfl
  | cons x xs ih => simp [requests_from, ih]

theorem requests_from_spec (a : Nat) (ids : List cstring) (t : xccdf_type) :
    (requests_from a ids t).map (fun b => b.ptr) = (slots_from a ids.length).map (fun x => x.cell)
      ∧ (requests_from a ids t).map (fun b => b.id) = ids.map some
      ∧ ∀ b ∈ requests_from a ids t, b.type = t := by
  induction ids generalizing a with
  | nil => simp [requests_from, slots_from]
  | cons x xs ih =>
    obtain ⟨h1, h2, h3⟩ := ih (a + 1)
    simp only [requests_from, slots_from, List.length_cons, List.map_cons, h1, h2,
      List.mem_cons, true_and]
    rintro b (rfl | hb)
    · rfl
    · exact h3 b hb

/-! ## Theorems -/

/-- C1: on a `requires` element whose idref attribute `s` has at least one non-empty
space-separated token, `xccdf_parse_deps` on a rule or group returns true and appends
exactly one alternative group at the end of the requires list (the conflicts list is
kept); the group has one slot per non-empty token of `s`; the requests queued are, in
the order of the tokens, one per slot of the group, for that token, of kind
`XCCDF_CONTENT`. -/
theorem parse_deps_requires_appends_group (reader : xml_node) (item : xccdf_item)
    (m : xccdf_mem) (s : cstring) (conflicts : List xccdf_slot)
    (requires : List (List xccdf_slot))
    (hel : xccdf_element_get reader = XCCDFE_REQUIRES)
    (hattr : xccdf_attribute_copy reader XCCDFA_IDREF = some s)
    (hitem : xccdf_deps_get item = some (conflicts, requires))
    (htok : idref_tokens s ≠ []) :
    ∃ (item' : xccdf_item) (m' : xccdf_mem) (group : List xccdf_slot)
      (reqs : List xccdf_backref),
      xccdf_parse_deps reader item m = some (true, item', m')
      ∧ xccdf_deps_get item' = some (conflicts, requires ++ [group])
      ∧ group.length = (idref_tokens s).length
      ∧ m'.bench.idrefs = m.bench.idrefs ++ reqs
      ∧ reqs.map (fun b => b.ptr) = group.map (fun x => x.cell)
      ∧ reqs.map (fun b => b.id) = (idref_tokens s).map some
      ∧ (∀ b ∈ reqs, b.type = XCCDF_CONTENT)
      ∧ m'.bench.dict = m.bench.dict ∧ m'.bench.auxdict = m.bench.auxdict := by
  have hne : ¬ (idref_tokens s).length = 0 := by
    rw [List.length_eq_zero]; exact htok
  obtain ⟨h1, h2, h3⟩ := requests_from_spec m.brk (idref_tokens s) XCCDF_CONTENT
  refine ⟨item.deps_put conflicts (requires ++ [slots_from m.brk (idref_tokens s).length]),
    { bench := { m.bench with
        idrefs := m.bench.idrefs ++ requests_from m.brk (idref_tokens s) XCCDF_CONTENT },
      brk := m.brk + (idref_tokens s).length },
    slots_from m.brk (idref_tokens s).length,
    requests_from m.brk (idref_tokens s) XCCDF_CONTENT, ?_, ?_, ?_, ?_, h1, h2, h3, ?_, ?_⟩
  · rw [parse_deps_requires_eq reader item m s conflicts requires hel hattr hitem, if_neg hne]
  · exact deps_get_deps_put item _ _ _ _ hitem
  · exact slots_from_length _ _
  · rfl
  · rfl
  · rfl

/-- C1, the double-space example: `requires` with idref "id1  id2" on a new rule gives
one group of exactly two slots, requested for "id1" and "id2" in that order. -/
theorem parse_deps_requires_appends_group_witness :
    idref_tokens "id1  id2".toList = ["id1".toList, "id2".toList] ∧
    ∃ (item' : xccdf_item) (m' : xccdf_mem) (group : List xccdf_slot)
      (reqs : List xccdf_backref),
      xccdf_parse_deps (leaf_node XCCDFE_REQUIRES [(XCCDFA_IDREF, "id1  id2".toList)])
        (xccdf_rule_new_empty item_h0) mem0 = some (true, item', m')
      ∧ xccdf_deps_get item' = some ([], [] ++ [group])
      ∧ group.length = (idref_tokens "id1  id2".toList).length
      ∧ m'.bench.idrefs = mem0.bench.idrefs ++ reqs
      ∧ reqs.map (fun b => b.ptr) = group.map (fun x => x.cell)
      ∧ reqs.map (fun b => b.id) = (idref_tokens "id1  id2".toList).map some
      ∧ (∀ b ∈ reqs, b.type = XCCDF_CONTENT)
      ∧ m'.bench.dict = mem0.bench.dict ∧ m'.bench.auxdict = mem0.bench.auxdict :=
  ⟨by decide,
   parse_deps_requires_appends_group
    (leaf_node XCCDFE_REQUIRES [(XCCDFA_IDREF, "id1  id2".toList)])
    (xccdf_rule_new_empty item_h0) mem0 "id1  id2".toList [] []
    (by decide) (by decide) (by decide) (by decide)⟩

theorem idref_tokens_blank (s : cstring) (h : ∀ c ∈ s, c = ' ') : idref_tokens s = [] := by
  induction s with
  | nil => simp [idref_tokens, List.splitOn, List.splitOnP_nil]
  | cons x t ih =>
    have hx : x = ' ' := h x (List.mem_cons_self _ _)
    have ht : idref_tokens t = [] := ih (fun c hc => h c (List.mem_cons_of_mem _ hc))
    unfold idref_tokens at ht ⊢
    unfold List.splitOn at ht ⊢
    rw [List.splitOnP_cons]
    simp only [hx, beq_self_eq_true, if_true]
    rw [List.filter_cons]
    simpa using ht

theorem parse_deps_requires_null (reader : xml_node) (item : xccdf_item) (m : xccdf_mem)
    (hel : xccdf_element_get reader = XCCDFE_REQUIRES)
    (hattr : xccdf_attribute_copy reader XCCDFA_IDREF = none)
    (hitem : xccdf_deps_get item ≠ none) :
    xccdf_parse_deps reader item m = some (false, item, m) := by
  unfold xccdf_parse_deps
  cases hd : xccdf_deps_get item with
  | none => exact absurd hd hitem
  | some p =>
    obtain ⟨k, r⟩ := p
    simp [hel, hattr, parse_deps_loop_none]

theorem requires_of_deps_get (item : xccdf_item) (k : List xccdf_slot)
    (r : List (List xccdf_slot)) (h : xccdf_deps_get item = some (k, r)) :
    item.requires = r ∧ item.conflicts = k := by
  cases item <;> simp_all [xccdf_deps_get, xccdf_item.requires, xccdf_item.conflicts]

/-- One call of `xccdf_parse_deps` keeps every alternative group of the requires list
non-empty. -/
theorem parse_deps_keeps_groups_nonempty (reader : xml_node) (item item' : xccdf_item)
    (m m' : xccdf_mem) (b : Bool) (hinv : ∀ g ∈ item.requires, g ≠ [])
    (hrun : xccdf_parse_deps reader item m = some (b, item', m')) :
    ∀ g ∈ item'.requires, g ≠ [] := by
  cases hd : xccdf_deps_get item with
  | none => simp [xccdf_parse_deps, hd] at hrun
  | some p =>
    obtain ⟨k, r⟩ := p
    have hr := (requires_of_deps_get item k r hd).1
    by_cases hel : xccdf_element_get reader = XCCDFE_REQUIRES
    · cases hattr : xccdf_attribute_copy reader XCCDFA_IDREF with
      | none =>
        rw [parse_deps_requires_null reader item m hel hattr (by simp [hd])] at hrun
        simp only [Option.some.injEq, Prod.mk.injEq] at hrun
        obtain ⟨_, rfl, _⟩ := hrun
        exact hinv
      | some s =>
        rw [parse_deps_requires_eq reader item m s k r hel hattr hd] at hrun
        split at hrun
        · simp only [Option.some.injEq, Prod.mk.injEq] at hrun
          obtain ⟨_, rfl, _⟩ := hrun
          exact hinv
        · rename_i hne
          simp only [Option.some.injEq, Prod.mk.injEq] at hrun
          obtain ⟨_, rfl, _⟩ := hrun
          have hg := deps_get_deps_put item k k r
            (r ++ [slots_from m.brk (idref_tokens s).length]) hd
          rw [(requires_of_deps_get _ _ _ hg).1]
          intro g hgm
          rw [List.mem_append, List.mem_singleton] at hgm
          rcases hgm with hgm | rfl
          · exact hinv g (hr ▸ hgm)
          · intro hnil
            have := congrArg List.length hnil
            rw [slots_from_length] at this
            exact hne this
    · by_cases hel2 : xccdf_element_get reader = XCCDFE_CONFLICTS
      · simp only [xccdf_parse_deps, hd, hel2, Option.some.injEq, Prod.mk.injEq] at hrun
        obtain ⟨_, rfl, _⟩ := hrun
        have hg := deps_get_deps_put item k (xccdf_list_add_null k m).1 r r hd
        rw [(requires_of_deps_get _ _ _ hg).1]
        exact fun g hgm => hinv g (hr ▸ hgm)
      · exfalso
        unfold xccdf_parse_deps at hrun
        simp only [hd] at hrun
        cases hrun

/-- C2: on a `requires` element whose idref attribute is absent, empty or made only of
spaces, `xccdf_parse_deps` on a rule or group returns false and leaves the item (so its
requires and conflicts lists) and the memory (so the queue of reference requests)
unchanged; and a run of `xccdf_parse_deps` calls on any elements, started from an item
whose alternative groups are all non-empty (such as a new item, which has none), ends
with an item whose alternative groups are all non-empty. -/
theorem parse_deps_requires_blank (reader : xml_node) (item : xccdf_item) (m : xccdf_mem)
    (readers : List xml_node) :
    (xccdf_element_get reader = XCCDFE_REQUIRES →
      (∀ s, xccdf_attribute_copy reader XCCDFA_IDREF = some s → ∀ c ∈ s, c = ' ') →
      xccdf_deps_get item ≠ none →
      xccdf_parse_deps reader item m = some (false, item, m))
    ∧ ((∀ g ∈ item.requires, g ≠ []) →
      ∀ (item' : xccdf_item) (m' : xccdf_mem),
        xccdf_parse_deps_seq readers item m = some (item', m') →
        ∀ g ∈ item'.requires, g ≠ []) := by
  constructor
  · intro hel hblank hitem
    cases hattr : xccdf_attribute_copy reader XCCDFA_IDREF with
    | none => exact parse_deps_requires_null reader item m hel hattr hitem
    | some s =>
      cases hd : xccdf_deps_get item with
      | none => exact absurd hd hitem
      | some p =>
        obtain ⟨k, r⟩ := p
        rw [parse_deps_requires_eq reader item m s k r hel hattr hd,
          idref_tokens_blank s (hblank s hattr)]
        simp
  · intro hinv
    induction readers generalizing item m with
    | nil =>
      intro item' m' hrun
      simp only [xccdf_parse_deps_seq, Option.some.injEq, Prod.mk.injEq] at hrun
      obtain ⟨rfl, _⟩ := hrun
      exact hinv
    | cons rd rest ih =>
      intro item' m' hrun
      simp only [xccdf_parse_deps_seq] at hrun
      cases hstep : xccdf_parse_deps rd item m with
      | none => simp [hstep] at hrun
      | some q =>
        obtain ⟨b, it1, m1⟩ := q
        simp only [hstep] at hrun
        exact ih it1 m1
          (parse_deps_keeps_groups_nonempty rd item it1 m m1 b hinv hstep) item' m' hrun

/-- C2 on examples: `requires` with idref of two spaces on a new rule returns false and
changes nothing; after the calls for idref "a b", idref "", a `conflicts` and an absent
idref the requires list is the single group of two slots. -/
theorem parse_deps_requires_blank_witness :
    xccdf_parse_deps (leaf_node XCCDFE_REQUIRES [(XCCDFA_IDREF, "  ".toList)])
        (xccdf_rule_new_empty item_h0) mem0
      = some (false, xccdf_rule_new_empty item_h0, mem0)
    ∧ (∃ item' m',
        xccdf_parse_deps_seq
          [leaf_node XCCDFE_REQUIRES [(XCCDFA_IDREF, "a b".toList)],
           leaf_node XCCDFE_REQUIRES [(XCCDFA_IDREF, "".toList)],
           leaf_node XCCDFE_CONFLICTS [(XCCDFA_IDREF, "c".toList)],
           leaf_node XCCDFE_REQUIRES []]
          (xccdf_rule_new_empty item_h0) mem0 = some (item', m')
        ∧ item'.requires = [[⟨0⟩, ⟨1⟩]]
        ∧ ∀ g ∈ item'.requires, g ≠ []) := by
  refine ⟨(parse_deps_requires_blank
      (leaf_node XCCDFE_REQUIRES [(XCCDFA_IDREF, "  ".toList)])
      (xccdf_rule_new_empty item_h0) mem0 []).1 (by decide) ?_ (by decide), ?_⟩
  · intro s hs c hc
    have hs2 : s = "  ".toList := by
      have : xccdf_attribute_copy (leaf_node XCCDFE_REQUIRES [(XCCDFA_IDREF, "  ".toList)])
          XCCDFA_IDREF = some "  ".toList := by decide
      rw [this] at hs
      exact (Option.some.inj hs).symm
    subst hs2
    revert c
    decide
  · have hsome : (xccdf_parse_deps_seq
          [leaf_node XCCDFE_REQUIRES [(XCCDFA_IDREF, "a b".toList)],
           leaf_node XCCDFE_REQUIRES [(XCCDFA_IDREF, "".toList)],
           leaf_node XCCDFE_CONFLICTS [(XCCDFA_IDREF, "c".toList)],
           leaf_node XCCDFE_REQUIRES []]
          (xccdf_rule_new_empty item_h0) mem0).isSome = true := by decide
    obtain ⟨q, hrun⟩ := Option.isSome_iff_exists.mp hsome
    · obtain ⟨item', m'⟩ := q
      refine ⟨item', m', hrun, ?_, ?_⟩
      · have : (xccdf_parse_deps_seq
          [leaf_node XCCDFE_REQUIRES [(XCCDFA_IDREF, "a b".toList)],
           leaf_node XCCDFE_REQUIRES [(XCCDFA_IDREF, "".toList)],
           leaf_node XCCDFE_CONFLICTS [(XCCDFA_IDREF, "c".toList)],
           leaf_node XCCDFE_REQUIRES []]
          (xccdf_rule_new_empty item_h0) mem0).map (fun r => r.1.requires)
            = some [[⟨0⟩, ⟨1⟩]] := by decide
        rw [hrun] at this
        simpa using this
      · exact (parse_deps_requires_blank (leaf_node XCCDFE_REQUIRES [])
          (xccdf_rule_new_empty item_h0) mem0 _).2 (by decide) item' m' hrun

/-- C3: on a `conflicts` element, whatever its idref attribute is (a value, the empty
string or absent), `xccdf_parse_deps` on a rule or group returns true, appends exactly
one reference slot at the end of the conflicts list, queues exactly one request, for
the attribute value (NULL when absent) with kind `XCCDF_CONTENT` into that slot, and
keeps the requires list. -/
theorem parse_deps_conflicts_appends_slot (reader : xml_node) (item : xccdf_item)
    (m : xccdf_mem) (conflicts : List xccdf_slot) (requires : List (List xccdf_slot))
    (hel : xccdf_element_get reader = XCCDFE_CONFLICTS)
    (hitem : xccdf_deps_get item = some (conflicts, requires)) :
    ∃ (item' : xccdf_item) (m' : xccdf_mem) (slot : xccdf_slot),
      xccdf_parse_deps reader item m = some (true, item', m')
      ∧ xccdf_deps_get item' = some (conflicts ++ [slot], requires)
      ∧ m'.bench.idrefs = m.bench.idrefs ++
          [⟨slot.cell, xccdf_attribute_get reader XCCDFA_IDREF, XCCDF_CONTENT⟩]
      ∧ m'.bench.dict = m.bench.dict ∧ m'.bench.auxdict = m.bench.auxdict := by
  refine ⟨item.deps_put (conflicts ++ [⟨m.brk⟩]) requires,
    xccdf_benchmark_add_ref { m with brk := m.brk + 1 } m.brk
      (xccdf_attribute_get reader XCCDFA_IDREF) XCCDF_CONTENT, ⟨m.brk⟩, ?_, ?_, rfl, rfl, rfl⟩
  · simp [xccdf_parse_deps, hitem, hel, xccdf_list_add_null, xccdf_list_add]
  · exact deps_get_deps_put item _ _ _ _ hitem

/-- C3 on an example: a `conflicts` element without idref attribute on a new rule. The
call returns true, the conflicts list holds one slot, and one request with a NULL
identifier is queued for it. -/
theorem parse_deps_conflicts_appends_slot_witness :
    ∃ (item' : xccdf_item) (m' : xccdf_mem) (slot : xccdf_slot),
      xccdf_parse_deps (leaf_node XCCDFE_CONFLICTS []) (xccdf_rule_new_empty item_h0) mem0
        = some (true, item', m')
      ∧ xccdf_deps_get item' = some ([] ++ [slot], [])
      ∧ m'.bench.idrefs = mem0.bench.idrefs ++
          [⟨slot.cell, xccdf_attribute_get (leaf_node XCCDFE_CONFLICTS []) XCCDFA_IDREF,
            XCCDF_CONTENT⟩]
      ∧ m'.bench.dict = mem0.bench.dict ∧ m'.bench.auxdict = mem0.bench.auxdict :=
  parse_deps_conflicts_appends_slot (leaf_node XCCDFE_CONFLICTS [])
    (xccdf_rule_new_empty item_h0) mem0 [] [] (by decide) (by decide)

/-! ## Checks: what the loop keeps -/

theorem check_parse_leaf_keeps (c : xml_node) (check : xccdf_check) (m : xccdf_mem) :
    (xccdf_check_new_parse_leaf c check m).1.oper = check.oper
    ∧ (xccdf_check_new_parse_leaf c check m).1.children = check.children
    ∧ (xccdf_check_new_parse_leaf c check m).1.id = check.id
    ∧ (xccdf_check_new_parse_leaf c check m).1.system = check.system
    ∧ (xccdf_check_new_parse_leaf c check m).1.selector = check.selector := by
  cases check
  unfold xccdf_check_new_parse_leaf
  split
  · split <;> simp [xccdf_check.set_content_refs, xccdf_check.oper, xccdf_check.children,
      xccdf_check.id, xccdf_check.system, xccdf_check.selector]
  · split <;> simp [xccdf_check.set_content, xccdf_check.oper, xccdf_check.children,
      xccdf_check.id, xccdf_check.system, xccdf_check.selector]
  · split <;> simp [xccdf_check.set_imports, xccdf_check.oper, xccdf_check.children,
      xccdf_check.id, xccdf_check.system, xccdf_check.selector]
  · split <;> simp [xccdf_check.set_exports, xccdf_check.oper, xccdf_check.children,
      xccdf_check.id, xccdf_check.system, xccdf_check.selector]
  · simp

theorem check_set_children_keeps (check : xccdf_check) (l : List (Option xccdf_check)) :
    (check.set_children l).oper = check.oper
    ∧ (check.set_children l).children = l
    ∧ (check.set_children l).id = check.id
    ∧ (check.set_children l).system = check.system
    ∧ (check.set_children l).selector = check.selector := by
  cases check
  simp [xccdf_check.set_children, xccdf_check.oper, xccdf_check.children,
      xccdf_check.id, xccdf_check.system, xccdf_check.selector]

theorem check_parse_loop_keeps (cs : List xml_node) (check : xccdf_check) (m : xccdf_mem) :
    (xccdf_check_new_parse_loop cs check m).1.oper = check.oper
    ∧ (xccdf_check_new_parse_loop cs check m).1.id = check.id
    ∧ (xccdf_check_new_parse_loop cs check m).1.system = check.system
    ∧ (xccdf_check_new_parse_loop cs check m).1.selector = check.selector := by
  induction cs generalizing check m with
  | nil => simp [xccdf_check_new_parse_loop]
  | cons c rest ih =>
    rw [xccdf_check_new_parse_loop]
    split
    · split
      · exact ih check m
      · obtain ⟨h1, h2, h3, h4⟩ := ih (check.set_children
          (xccdf_list_add check.children (xccdf_check_new_parse c m).1))
          (xccdf_check_new_parse c m).2
        obtain ⟨k1, _, k3, k4, k5⟩ := check_set_children_keeps check
          (xccdf_list_add check.children (xccdf_check_new_parse c m).1)
        exact ⟨h1.trans k1, h2.trans k3, h3.trans k4, h4.trans k5⟩
    · obtain ⟨h1, h2, h3, h4⟩ := ih (xccdf_check_new_parse_leaf c check m).1
          (xccdf_check_new_parse_leaf c check m).2
      obtain ⟨k1, _, k3, k4, k5⟩ := check_parse_leaf_keeps c check m
      exact ⟨h1.trans k1, h2.trans k3, h3.trans k4, h4.trans k5⟩

theorem check_parse_eq (reader : xml_node) (m : xccdf_mem)
    (hel : xccdf_element_get reader = XCCDFE_CHECK
      ∨ xccdf_element_get reader = XCCDFE_COMPLEX_CHECK) :
    xccdf_check_new_parse reader m =
      (some (xccdf_check_new_parse_loop (xml_children reader)
          (xccdf_check_new_parse_attrs reader) m).1,
       (xccdf_check_new_parse_loop (xml_children reader)
          (xccdf_check_new_parse_attrs reader) m).2) := by
  cases reader with
  | mk el attrs text xml children =>
    simp only [xccdf_element_get] at hel
    rw [xccdf_check_new_parse]
    have : ¬ (el ≠ XCCDFE_CHECK ∧ el ≠ XCCDFE_COMPLEX_CHECK) := by
      rcases hel with h | h <;> simp [h]
    simp only [this, if_false, xml_children]

theorem check_parse_null (reader : xml_node) (m : xccdf_mem)
    (hel : ¬ (xccdf_element_get reader = XCCDFE_CHECK
      ∨ xccdf_element_get reader = XCCDFE_COMPLEX_CHECK)) :
    xccdf_check_new_parse reader m = (none, m) := by
  cases reader with
  | mk el attrs text xml children =>
    simp only [xccdf_element_get, not_or] at hel
    rw [xccdf_check_new_parse]
    simp [hel.1, hel.2]

theorem string_to_enum_boolop (op : Option cstring) :
    string_to_enum XCCDF_BOOLOP_MAP op = boolop_value op := by
  cases op with
  | none => simp [string_to_enum, XCCDF_BOOLOP_MAP, boolop_value]
  | some s =>
    by_cases h1 : s = ['a', 'n', 'd']
    · subst h1; decide
    by_cases h2 : s = ['A', 'N', 'D']
    · subst h2; decide
    by_cases h3 : s = ['o', 'r']
    · subst h3; decide
    by_cases h4 : s = ['O', 'R']
    · subst h4; decide
    simp [string_to_enum, XCCDF_BOOLOP_MAP, boolop_value, streq, List.find?, h1, h2, h3, h4,
      Ne.symm h1, Ne.symm h2, Ne.symm h3, Ne.symm h4]

theorem check_attrs_oper (reader : xml_node) :
    (xccdf_check_new_parse_attrs reader).oper =
      if xccdf_attribute_get_bool reader XCCDFA_NEGATE = true then
        boolop_value (xccdf_attribute_get reader XCCDFA_OPERATOR) ||| XCCDF_OPERATOR_NOT
      else boolop_value (xccdf_attribute_get reader XCCDFA_OPERATOR) := by
  unfold xccdf_check_new_parse_attrs
  simp only [string_to_enum_boolop]
  split <;> rfl

/-- C7: for a `check` or `complex-check` element, `xccdf_check_new_parse` returns a check
whose operator is the `XCCDF_BOOLOP_MAP` value of the operator attribute (AND for
"and"/"AND", OR for "or"/"OR", 0 for any other or absent string), bitwise-or'ed with
`XCCDF_OPERATOR_NOT` when the negate attribute is true and unchanged when it is not. -/
theorem check_parse_operator (reader : xml_node) (m : xccdf_mem)
    (hel : xccdf_element_get reader = XCCDFE_CHECK
      ∨ xccdf_element_get reader = XCCDFE_COMPLEX_CHECK) :
    ∃ check, (xccdf_check_new_parse reader m).1 = some check
      ∧ string_to_enum XCCDF_BOOLOP_MAP (xccdf_attribute_get reader XCCDFA_OPERATOR)
          = boolop_value (xccdf_attribute_get reader XCCDFA_OPERATOR)
      ∧ check.oper =
        if xccdf_attribute_get_bool reader XCCDFA_NEGATE = true then
          boolop_value (xccdf_attribute_get reader XCCDFA_OPERATOR) ||| XCCDF_OPERATOR_NOT
        else boolop_value (xccdf_attribute_get reader XCCDFA_OPERATOR) := by
  refine ⟨_, by rw [check_parse_eq reader m hel], string_to_enum_boolop _, ?_⟩
  rw [(check_parse_loop_keeps _ _ _).1]
  exact check_attrs_oper reader

/-- C7 on the example: a `complex-check` with operator "and" and negate "true" (and a
nested check) gets the operator AND|NOT. -/
theorem check_parse_operator_witness :
    ∃ check, (xccdf_check_new_parse
        (tree_node XCCDFE_COMPLEX_CHECK
          [(XCCDFA_OPERATOR, "and".toList), (XCCDFA_NEGATE, "true".toList)]
          [leaf_node XCCDFE_CHECK []]) mem0).1 = some check
      ∧ check.oper = XCCDF_OPERATOR_AND ||| XCCDF_OPERATOR_NOT := by
  obtain ⟨check, h1, _, h3⟩ := check_parse_operator
    (tree_node XCCDFE_COMPLEX_CHECK
      [(XCCDFA_OPERATOR, "and".toList), (XCCDFA_NEGATE, "true".toList)]
      [leaf_node XCCDFE_CHECK []]) mem0 (by decide)
  exact ⟨check, h1, h3.trans (by decide)⟩

theorem check_parse_loop_leaf_children (cs : List xml_node) (check : xccdf_check)
    (m : xccdf_mem) (h0 : check.oper = 0) :
    (xccdf_check_new_parse_loop cs check m).1.children = check.children := by
  induction cs generalizing check m with
  | nil => simp [xccdf_check_new_parse_loop]
  | cons c rest ih =>
    rw [xccdf_check_new_parse_loop]
    split
    · exact ih check m h0
    · obtain ⟨k1, k2, _⟩ := check_parse_leaf_keeps c check m
      rw [ih _ _ (k1.trans h0)]
      exact k2

theorem check_attrs_children (reader : xml_node) :
    (xccdf_check_new_parse_attrs reader).children = [] := by
  unfold xccdf_check_new_parse_attrs
  split <;> rfl

theorem boolop_value_unrecognised (reader : xml_node)
    (h : operator_recognised reader = false) :
    boolop_value (xccdf_attribute_get reader XCCDFA_OPERATOR) = 0 := by
  simp only [operator_recognised, decide_eq_false_iff_not, not_or] at h
  unfold boolop_value
  rw [if_neg (not_or.mpr ⟨h.1, h.2.1⟩), if_neg (not_or.mpr ⟨h.2.2.1, h.2.2.2⟩)]

theorem boolop_value_recognised (reader : xml_node)
    (h : operator_recognised reader = true) :
    boolop_value (xccdf_attribute_get reader XCCDFA_OPERATOR) ≠ 0 := by
  simp only [operator_recognised, decide_eq_true_eq] at h
  unfold boolop_value
  rcases h with h | h | h | h <;> rw [h] <;> decide

theorem lor_not_ne_zero (x : Nat) : x ||| XCCDF_OPERATOR_NOT ≠ 0 := by
  intro h
  have h8 := congrArg (fun n => n.testBit 8) h
  simp only [Nat.testBit_or, Nat.zero_testBit, Bool.or_eq_false_iff] at h8
  exact absurd h8.2 (by decide)

/-- C8, as stated, fails: a `complex-check` with the unrecognised operator "xor" and
negate "true" that has one nested check comes back with one child, because the NOT
flag alone makes the stored operator non-zero. -/
theorem check_parse_unrecognised_negated_keeps_child :
    operator_recognised (tree_node XCCDFE_COMPLEX_CHECK
        [(XCCDFA_OPERATOR, "xor".toList), (XCCDFA_NEGATE, "true".toList)]
        [leaf_node XCCDFE_CHECK [(XCCDFA_ID, "c1".toList)]]) = false
    ∧ (xccdf_check_new_parse (tree_node XCCDFE_COMPLEX_CHECK
        [(XCCDFA_OPERATOR, "xor".toList), (XCCDFA_NEGATE, "true".toList)]
        [leaf_node XCCDFE_CHECK [(XCCDFA_ID, "c1".toList)]]) mem0).1.map
          (fun check => (check.oper, check.children.map (fun k => k.map xccdf_check.id)))
        = some (XCCDF_OPERATOR_NOT, [some (some "c1".toList)]) := by
  decide

/-- C8 amended: for a `complex-check` element whose operator attribute is not one of
the strings recognised by `XCCDF_BOOLOP_MAP` and whose negate attribute is not true,
whatever its other attributes and its nested elements are, the check returned by
`xccdf_check_new_parse` has an empty children list. -/
theorem check_parse_unrecognised_no_children (reader : xml_node) (m : xccdf_mem)
    (hel : xccdf_element_get reader = XCCDFE_COMPLEX_CHECK)
    (hun : operator_recognised reader = false)
    (hneg : xccdf_attribute_get_bool reader XCCDFA_NEGATE = false) :
    ∃ check, (xccdf_check_new_parse reader m).1 = some check ∧ check.children = [] := by
  refine ⟨_, by rw [check_parse_eq reader m (Or.inr hel)], ?_⟩
  have h0 : (xccdf_check_new_parse_attrs reader).oper = 0 := by
    rw [check_attrs_oper, boolop_value_unrecognised reader hun, hneg]
    simp
  rw [check_parse_loop_leaf_children _ _ _ h0]
  exact check_attrs_children reader

/-- C8 amended, on an example: operator "xor", no negate attribute, two nested checks:
no children. -/
theorem check_parse_unrecognised_no_children_witness :
    ∃ check, (xccdf_check_new_parse (tree_node XCCDFE_COMPLEX_CHECK
        [(XCCDFA_OPERATOR, "xor".toList)]
        [leaf_node XCCDFE_CHECK [(XCCDFA_ID, "c1".toList)],
         tree_node XCCDFE_COMPLEX_CHECK [(XCCDFA_OPERATOR, "and".toList)]
           [leaf_node XCCDFE_CHECK []]]) mem0).1 = some check
      ∧ check.children = [] :=
  check_parse_unrecognised_no_children _ mem0 (by decide) (by decide) (by decide)

/-- C9, as stated, fails in the "only if" direction: a `check` element (not a
`complex-check`) with operator "and" is reported as complex, and so is a
`complex-check` without operator attribute whose negate attribute is "true". -/
theorem check_complex_without_recognised_complex_check :
    (xccdf_check_new_parse
        (leaf_node XCCDFE_CHECK [(XCCDFA_OPERATOR, "and".toList)]) mem0).1.map
          xccdf_check_complex = some true
    ∧ operator_recognised (leaf_node XCCDFE_COMPLEX_CHECK [(XCCDFA_NEGATE, "true".toList)])
        = false
    ∧ (xccdf_check_new_parse
        (leaf_node XCCDFE_COMPLEX_CHECK [(XCCDFA_NEGATE, "true".toList)]) mem0).1.map
          xccdf_check_complex = some true := by
  decide

/-- C9 amended: for every check node produced by `xccdf_check_new_parse` from a `check`
or `complex-check` element, `xccdf_check_complex` reports it as a Combinator if and only
if the element carries a recognised operator attribute ("and", "AND", "or" or "OR") or
a true negate attribute. -/
theorem check_complex_iff (reader : xml_node) (m : xccdf_mem)
    (hel : xccdf_element_get reader = XCCDFE_CHECK
      ∨ xccdf_element_get reader = XCCDFE_COMPLEX_CHECK) :
    ∃ check, (xccdf_check_new_parse reader m).1 = some check
      ∧ (xccdf_check_complex check = true ↔
          (operator_recognised reader = true
            ∨ xccdf_attribute_get_bool reader XCCDFA_NEGATE = true)) := by
  refine ⟨_, by rw [check_parse_eq reader m hel], ?_⟩
  unfold xccdf_check_complex
  rw [(check_parse_loop_keeps _ _ _).1, check_attrs_oper]
  cases hneg : xccdf_attribute_get_bool reader XCCDFA_NEGATE
  · cases hrec : operator_recognised reader
    · simp [boolop_value_unrecognised reader hrec]
    · simp [boolop_value_recognised reader hrec]
  · simp [lor_not_ne_zero]

/-- C9 amended, on an example: a `complex-check` with operator "OR" is complex. -/
theorem check_complex_iff_witness :
    ∃ check, (xccdf_check_new_parse
        (leaf_node XCCDFE_COMPLEX_CHECK [(XCCDFA_OPERATOR, "OR".toList)]) mem0).1 = some check
      ∧ xccdf_check_complex check = true := by
  obtain ⟨check, h1, h2⟩ := check_complex_iff
    (leaf_node XCCDFE_COMPLEX_CHECK [(XCCDFA_OPERATOR, "OR".toList)]) mem0 (by decide)
  exact ⟨check, h1, h2.mpr (Or.inl (by decide))⟩

theorem check_parse_loop_combinator_children (cs : List xml_node) (check : xccdf_check)
    (m : xccdf_mem) (h0 : check.oper ≠ 0) :
    ∃ l, (xccdf_check_new_parse_loop cs check m).1.children = check.children ++ l
      ∧ List.Forall₂
          (fun c k => ∃ m1 sub, (xccdf_check_new_parse c m1).1 = some sub ∧ k = some sub)
          (cs.filter is_check_or_complex) l := by
  induction cs generalizing check m with
  | nil => exact ⟨[], by simp [xccdf_check_new_parse_loop], by simp⟩
  | cons c rest ih =>
    rw [xccdf_check_new_parse_loop]
    by_cases hc : xccdf_element_get c = XCCDFE_CHECK
        ∨ xccdf_element_get c = XCCDFE_COMPLEX_CHECK
    · rw [if_pos hc, if_neg h0]
      obtain ⟨k1, k2, _⟩ := check_set_children_keeps check
        (xccdf_list_add check.children (xccdf_check_new_parse c m).1)
      obtain ⟨l, hl, hf⟩ := ih (check.set_children
        (xccdf_list_add check.children (xccdf_check_new_parse c m).1))
        (xccdf_check_new_parse c m).2 (by rw [k1]; exact h0)
      refine ⟨(xccdf_check_new_parse c m).1 :: l, ?_, ?_⟩
      · rw [hl, k2]
        simp [xccdf_list_add]
      · have hfil : (c :: rest).filter is_check_or_complex
            = c :: rest.filter is_check_or_complex := by
          simp [List.filter_cons, is_check_or_complex, hc]
        rw [hfil]
        have hsome := congrArg Prod.fst (check_parse_eq c m hc)
        exact List.Forall₂.cons ⟨m, _, hsome, hsome⟩ hf
    · rw [if_neg hc]
      obtain ⟨k1, k2, _⟩ := check_parse_leaf_keeps c check m
      obtain ⟨l, hl, hf⟩ := ih (xccdf_check_new_parse_leaf c check m).1
        (xccdf_check_new_parse_leaf c check m).2 (by rw [k1]; exact h0)
      refine ⟨l, by rw [hl, k2], ?_⟩
      have hfil : (c :: rest).filter is_check_or_complex
          = rest.filter is_check_or_complex := by
        simp [List.filter_cons, is_check_or_complex, hc]
      rw [hfil]
      exact hf

/-- C10: for a `check` or `complex-check` element, `xccdf_check_new_parse` returns a check
such that: if its stored operator is 0 its children list is empty, whatever nested
elements the source has; if its stored operator is non-zero its children list has, in
document order, exactly one entry per immediate nested `check`/`complex-check` element,
that entry being the non-NULL result of `xccdf_check_new_parse` on that element. -/
theorem check_parse_children (reader : xml_node) (m : xccdf_mem)
    (hel : xccdf_element_get reader = XCCDFE_CHECK
      ∨ xccdf_element_get reader = XCCDFE_COMPLEX_CHECK) :
    ∃ check, (xccdf_check_new_parse reader m).1 = some check
      ∧ (check.oper = 0 → check.children = [])
      ∧ (check.oper ≠ 0 →
          List.Forall₂
            (fun c k => ∃ m1 sub, (xccdf_check_new_parse c m1).1 = some sub ∧ k = some sub)
            ((xml_children reader).filter is_check_or_complex) check.children) := by
  refine ⟨_, by rw [check_parse_eq reader m hel], ?_, ?_⟩
  · intro h0
    rw [(check_parse_loop_keeps _ _ _).1] at h0
    rw [check_parse_loop_leaf_children _ _ _ h0]
    exact check_attrs_children reader
  · intro h0
    rw [(check_parse_loop_keeps _ _ _).1] at h0
    obtain ⟨l, hl, hf⟩ := check_parse_loop_combinator_children (xml_children reader)
      (xccdf_check_new_parse_attrs reader) m h0
    rw [hl, check_attrs_children]
    exact hf

/-- C10 on examples: a `check` without operator drops its nested check; a
`complex-check` with operator "or" keeps its two nested checks, in document order, and
skips the `check-content` between them. -/
theorem check_parse_children_witness :
    (∃ check, (xccdf_check_new_parse (tree_node XCCDFE_CHECK []
        [leaf_node XCCDFE_CHECK [(XCCDFA_ID, "c1".toList)]]) mem0).1 = some check
      ∧ check.children = [])
    ∧ (xccdf_check_new_parse (tree_node XCCDFE_COMPLEX_CHECK [(XCCDFA_OPERATOR, "or".toList)]
        [leaf_node XCCDFE_CHECK [(XCCDFA_ID, "c1".toList)],
         leaf_node XCCDFE_CHECK_CONTENT [],
         leaf_node XCCDFE_COMPLEX_CHECK [(XCCDFA_ID, "c2".toList)]]) mem0).1.map
          (fun check => check.children.map (fun k => k.map xccdf_check.id))
        = some [some (some "c1".toList), some (some "c2".toList)] := by
  refine ⟨?_, by decide⟩
  obtain ⟨check, h1, h2, _⟩ := check_parse_children (tree_node XCCDFE_CHECK []
    [leaf_node XCCDFE_CHECK [(XCCDFA_ID, "c1".toList)]]) mem0 (by decide)
  refine ⟨check, h1, h2 ?_⟩
  have : (xccdf_check_new_parse (tree_node XCCDFE_CHECK []
    [leaf_node XCCDFE_CHECK [(XCCDFA_ID, "c1".toList)]]) mem0).1.map xccdf_check.oper
      = some 0 := by decide
  rw [h1] at this
  simpa using this

/-! ## Rules: the checks list and the primary check -/

theorem parse_deps_rule_keeps (c : xml_node) (b : xccdf_item_base) (s : xccdf_rule_item)
    (m : xccdf_mem)
    (hel : xccdf_element_get c = XCCDFE_REQUIRES ∨ xccdf_element_get c = XCCDFE_CONFLICTS) :
    ∃ r s' m', xccdf_parse_deps c (.rule b s) m = some (r, .rule b s', m')
      ∧ s'.checks = s.checks ∧ s'.check = s.check := by
  rcases hel with hel | hel
  · simp only [xccdf_parse_deps, xccdf_deps_get, hel]
    split
    · exact ⟨_, _, _, rfl, rfl, rfl⟩
    · exact ⟨_, _, _, rfl, rfl, rfl⟩
  · simp only [xccdf_parse_deps, xccdf_deps_get, hel]
    exact ⟨_, _, _, rfl, rfl, rfl⟩

theorem rule_step_spec (h : xccdf_item_h) (c : xml_node) (b : xccdf_item_base)
    (s : xccdf_rule_item) (m : xccdf_mem) :
    ∃ b' s' m' l, xccdf_rule_new_parse_step h c (.rule b s) m = some (.rule b' s', m')
      ∧ s'.checks = s.checks ++ l
      ∧ List.Forall₂ (fun c k => ∃ m1, (xccdf_check_new_parse c m1).1 = some k)
          ([c].filter is_check) l
      ∧ s'.check = ((l.filter no_selector).getLast?).or s.check := by
  cases hel : xccdf_element_get c
  case XCCDFE_REQUIRES =>
    obtain ⟨r, s', m', h1, h2, h3⟩ := parse_deps_rule_keeps c b s m (Or.inl hel)
    refine ⟨b, s', m', [], ?_, by simp [h2], ?_, by simp [h3]⟩
    · simp [xccdf_rule_new_parse_step, hel, h1]
    · simp [is_check, hel]
  case XCCDFE_CONFLICTS =>
    obtain ⟨r, s', m', h1, h2, h3⟩ := parse_deps_rule_keeps c b s m (Or.inr hel)
    refine ⟨b, s', m', [], ?_, by simp [h2], ?_, by simp [h3]⟩
    · simp [xccdf_rule_new_parse_step, hel, h1]
    · simp [is_check, hel]
  case XCCDFE_CHECK =>
    have hp := check_parse_eq c m (Or.inl hel)
    generalize (xccdf_check_new_parse_loop (xml_children c)
      (xccdf_check_new_parse_attrs c) m) = r at hp
    have hfil : [c].filter is_check = [c] := by simp [is_check, hel]
    have hrel : List.Forall₂ (fun c k => ∃ m1, (xccdf_check_new_parse c m1).1 = some k)
        ([c].filter is_check) [r.1] := by
      rw [hfil]
      exact List.Forall₂.cons ⟨m, by rw [hp]⟩ List.Forall₂.nil
    by_cases hsel : r.1.selector = none ∨ r.1.selector = some []
    · refine ⟨b, { s with check := some r.1, checks := s.checks ++ [r.1] }, r.2, [r.1],
        ?_, rfl, hrel, ?_⟩
      · simp [xccdf_rule_new_parse_step, hel, hp, hsel, xccdf_item.upd_rule, xccdf_list_add]
      · simp [no_selector, hsel]
    · refine ⟨b, { s with checks := s.checks ++ [r.1] }, r.2, [r.1], ?_, rfl, hrel, ?_⟩
      · simp [xccdf_rule_new_parse_step, hel, hp, hsel, xccdf_item.upd_rule, xccdf_list_add]
      · simp [no_selector, hsel]
  case XCCDFE_PROFILE_NOTE =>
    have hfil : [c].filter is_check = [] := by simp [is_check, hel]
    rw [hfil]
    cases htag : xccdf_attribute_get c XCCDFA_TAG with
    | none =>
      exact ⟨b, s, m, [], by simp [xccdf_rule_new_parse_step, hel, htag], by simp,
        List.Forall₂.nil, by simp⟩
    | some tag =>
      exact ⟨b, _, m, [], by simp [xccdf_rule_new_parse_step, hel, htag, xccdf_item.upd_rule]; rfl,
        by simp, List.Forall₂.nil, by simp⟩
  case XCCDFE_IDENT =>
    have hfil : [c].filter is_check = [] := by simp [is_check, hel]
    rw [hfil]
    exact ⟨b, _, m, [], by simp [xccdf_rule_new_parse_step, hel, xccdf_ident_new_parse, xccdf_item.upd_rule]; rfl,
        by simp, List.Forall₂.nil, by simp⟩
  case XCCDFE_FIX =>
    have hfil : [c].filter is_check = [] := by simp [is_check, hel]
    rw [hfil]
    exact ⟨b, _, _, [], by simp [xccdf_rule_new_parse_step, hel, xccdf_item.upd_rule]; exact ⟨rfl, rfl⟩,
        by simp, List.Forall₂.nil, by simp⟩
  case XCCDFE_FIXTEXT =>
    have hfil : [c].filter is_check = [] := by simp [is_check, hel]
    rw [hfil]
    exact ⟨b, _, _, [], by simp [xccdf_rule_new_parse_step, hel, xccdf_item.upd_rule]; exact ⟨rfl, rfl⟩,
        by simp, List.Forall₂.nil, by simp⟩
  all_goals
    have hfil : [c].filter is_check = [] := by simp [is_check, hel]
    rw [hfil]
    exact ⟨_, s, _, [], by simp [xccdf_rule_new_parse_step, hel, xccdf_item.set_base, xccdf_item.base]; exact ⟨rfl, rfl⟩,
        by simp, List.Forall₂.nil, by simp⟩

theorem rule_loop_spec (h : xccdf_item_h) (cs : List xml_node) (b : xccdf_item_base)
    (s : xccdf_rule_item) (m : xccdf_mem) :
    ∃ b' s' m' l, xccdf_rule_new_parse_loop h cs (.rule b s) m = some (.rule b' s', m')
      ∧ s'.checks = s.checks ++ l
      ∧ List.Forall₂ (fun c k => ∃ m1, (xccdf_check_new_parse c m1).1 = some k)
          (cs.filter is_check) l
      ∧ s'.check = ((l.filter no_selector).getLast?).or s.check := by
  induction cs generalizing b s m with
  | nil => exact ⟨b, s, m, [], rfl, by simp, List.Forall₂.nil, by simp⟩
  | cons c rest ih =>
    obtain ⟨b1, s1, m1, l1, hs, hc1, hf1, hk1⟩ := rule_step_spec h c b s m
    obtain ⟨b2, s2, m2, l2, hl, hc2, hf2, hk2⟩ := ih b1 s1 m1
    refine ⟨b2, s2, m2, l1 ++ l2, ?_, ?_, ?_, ?_⟩
    · simp [xccdf_rule_new_parse_loop, hs, hl]
    · rw [hc2, hc1, List.append_assoc]
    · have : (c :: rest).filter is_check = [c].filter is_check ++ rest.filter is_check := by
        rw [← List.filter_append]; rfl
      rw [this]
      exact List.rel_append hf1 hf2
    · rw [hk2, hk1, List.filter_append, List.getLast?_append]
      cases (List.filter no_selector l2).getLast? <;> simp

theorem rule_parse_spec (h : xccdf_item_h) (reader : xml_node) (m : xccdf_mem)
    (hel : xccdf_element_get reader = XCCDFE_RULE)
    (hattr : (h.xccdf_item_process_attributes (xccdf_rule_new_empty h).base reader m).1 = true) :
    ∃ b s m', xccdf_rule_new_parse h reader m = some (some (.rule b s), m')
      ∧ List.Forall₂ (fun c k => ∃ m1, (xccdf_check_new_parse c m1).1 = some k)
          ((xml_children reader).filter is_check) s.checks
      ∧ s.check = (s.checks.filter no_selector).getLast? := by
  unfold xccdf_rule_new_parse
  simp only [hel, ne_eq, not_true_eq_false, if_false, hattr, Bool.true_eq_false]
  simp only [xccdf_rule_new_empty, xccdf_item.set_base]
  split_ifs
  all_goals
    try simp only [xccdf_item.upd_rule]
    obtain ⟨b', s', m', l, hl, hc, hf, hk⟩ := rule_loop_spec h (xml_children reader) _ _ _
    rw [hl]
    simp only [List.nil_append] at hc
    simp only [Option.or_none] at hk
    exact ⟨b', s', m', rfl, hc ▸ hf, hc ▸ hk⟩

theorem check_attrs_selector (reader : xml_node) :
    (xccdf_check_new_parse_attrs reader).selector = xccdf_attribute_copy reader XCCDFA_SELECTOR := by
  unfold xccdf_check_new_parse_attrs
  split <;> rfl

theorem check_parse_selector (c : xml_node) (m1 : xccdf_mem) (k : xccdf_check)
    (hk : (xccdf_check_new_parse c m1).1 = some k) :
    (xccdf_element_get c = XCCDFE_CHECK ∨ xccdf_element_get c = XCCDFE_COMPLEX_CHECK)
      ∧ k.selector = xccdf_attribute_get c XCCDFA_SELECTOR := by
  by_cases hel : xccdf_element_get c = XCCDFE_CHECK
      ∨ xccdf_element_get c = XCCDFE_COMPLEX_CHECK
  · refine ⟨hel, ?_⟩
    rw [check_parse_eq c m1 hel] at hk
    simp only [Option.some.injEq] at hk
    rw [← hk, (check_parse_loop_keeps _ _ _).2.2.2, check_attrs_selector]
    rfl
  · rw [check_parse_null c m1 hel] at hk
    cases hk

theorem forall₂_head {α β : Type} {R : α → β → Prop} {l₁ : List α} {l₂ : List β}
    (hf : List.Forall₂ R l₁ l₂) {a : α} (ha : l₁.head? = some a) :
    ∃ b, l₂.head? = some b ∧ R a b := by
  cases hf with
  | nil => simp at ha
  | cons hab _ =>
    simp only [List.head?_cons, Option.some.injEq] at ha
    subst ha
    exact ⟨_, rfl, hab⟩

theorem forall₂_getLast {α β : Type} {R : α → β → Prop} {l₁ : List α} {l₂ : List β}
    (hf : List.Forall₂ R l₁ l₂) {a : α} (ha : l₁.getLast? = some a) :
    ∃ b, l₂.getLast? = some b ∧ R a b := by
  rw [List.getLast?_eq_head?_reverse] at ha
  obtain ⟨b, hb, hab⟩ := forall₂_head (List.forall₂_reverse_iff.mpr hf) ha
  exact ⟨b, by rw [List.getLast?_eq_head?_reverse]; exact hb, hab⟩

/-- C4, as stated, fails: a rule with two `check` children without selector, "c1" then
"c2", records "c2", the last one, as its primary check, while its checks list is
"c1", "c2". -/
theorem rule_parse_primary_check_not_first :
    (parsed_rule (xccdf_rule_new_parse item_h0
        (tree_node XCCDFE_RULE [(XCCDFA_ID, "r".toList)]
          [leaf_node XCCDFE_CHECK [(XCCDFA_ID, "c1".toList)],
           leaf_node XCCDFE_CHECK [(XCCDFA_ID, "c2".toList)]]) mem0)).map
      (fun s => (s.check.bind xccdf_check.id, s.checks.map xccdf_check.id))
    = some (some "c2".toList, [some "c1".toList, some "c2".toList]) := by
  decide

/-- C4 amended: for every rule element on which attribute processing succeeds and whose
child elements include at least one `check` element with an absent or empty selector,
`xccdf_rule_new_parse` returns a rule whose primary check is the parse of the last such
`check` child in document order. -/
theorem rule_parse_primary_check_is_last (h : xccdf_item_h) (reader : xml_node)
    (m : xccdf_mem) (c : xml_node)
    (hel : xccdf_element_get reader = XCCDFE_RULE)
    (hattr : (h.xccdf_item_process_attributes (xccdf_rule_new_empty h).base reader m).1 = true)
    (hc : ((xml_children reader).filter is_check_without_selector).getLast? = some c) :
    ∃ b s m' m1 k, xccdf_rule_new_parse h reader m = some (some (.rule b s), m')
      ∧ (xccdf_check_new_parse c m1).1 = some k
      ∧ s.check = some k := by
  obtain ⟨b, s, m', hrun, hf, hk⟩ := rule_parse_spec h reader m hel hattr
  have hrel : List.Forall₂ (fun c k => ∃ m1, (xccdf_check_new_parse c m1).1 = some k)
      (((xml_children reader).filter is_check).filter
        (fun c => decide (xccdf_attribute_get c XCCDFA_SELECTOR = none
          ∨ xccdf_attribute_get c XCCDFA_SELECTOR = some [])))
      (s.checks.filter no_selector) := by
    refine List.rel_filter ?_ hf
    intro c k hck
    obtain ⟨m1, hm1⟩ := hck
    have hs := (check_parse_selector c m1 k hm1).2
    simp only [no_selector, hs]
  have hfil : ((xml_children reader).filter is_check).filter
        (fun c => decide (xccdf_attribute_get c XCCDFA_SELECTOR = none
          ∨ xccdf_attribute_get c XCCDFA_SELECTOR = some []))
      = (xml_children reader).filter is_check_without_selector := by
    rw [List.filter_filter]
    apply List.filter_congr
    intro x _
    simp only [is_check_without_selector, Bool.and_comm]
  rw [hfil] at hrel
  obtain ⟨k, hlast, m1, hm1⟩ := forall₂_getLast hrel hc
  exact ⟨b, s, m', m1, k, hrun, hm1, hk.trans hlast⟩

/-- C4 amended, on an example: of three `check` children "c1" (no selector), "c2" (empty
selector) and "c3" (selector "s"), the primary check is the parse of "c2". -/
theorem rule_parse_primary_check_is_last_witness :
    ∃ b s m' m1 k,
      xccdf_rule_new_parse item_h0 (tree_node XCCDFE_RULE [(XCCDFA_ID, "r".toList)]
        [leaf_node XCCDFE_CHECK [(XCCDFA_ID, "c1".toList)],
         leaf_node XCCDFE_CHECK [(XCCDFA_ID, "c2".toList), (XCCDFA_SELECTOR, [])],
         leaf_node XCCDFE_CHECK [(XCCDFA_ID, "c3".toList), (XCCDFA_SELECTOR, "s".toList)]])
        mem0 = some (some (.rule b s), m')
      ∧ (xccdf_check_new_parse
          (leaf_node XCCDFE_CHECK [(XCCDFA_ID, "c2".toList), (XCCDFA_SELECTOR, [])]) m1).1
          = some k
      ∧ s.check = some k :=
  rule_parse_primary_check_is_last item_h0 _ mem0 _ (by decide) (by decide) (by rfl)

/-- C5: for every rule element on which attribute processing succeeds,
`xccdf_rule_new_parse` returns a rule such that: its checks list has, in document order,
exactly one entry per `check` child, that entry being the result of
`xccdf_check_new_parse` on the child; the primary check, when set, is an element of the
checks list and has an absent or empty selector; and the primary check is unset exactly
when no check of the list has an absent or empty selector. -/
theorem rule_parse_checks_and_primary (h : xccdf_item_h) (reader : xml_node)
    (m : xccdf_mem)
    (hel : xccdf_element_get reader = XCCDFE_RULE)
    (hattr : (h.xccdf_item_process_attributes (xccdf_rule_new_empty h).base reader m).1 = true) :
    ∃ b s m', xccdf_rule_new_parse h reader m = some (some (.rule b s), m')
      ∧ List.Forall₂ (fun c k => ∃ m1, (xccdf_check_new_parse c m1).1 = some k)
          ((xml_children reader).filter is_check) s.checks
      ∧ (∀ k, s.check = some k →
          k ∈ s.checks ∧ (k.selector = none ∨ k.selector = some []))
      ∧ (s.check = none ↔
          ∀ k ∈ s.checks, ¬ (k.selector = none ∨ k.selector = some [])) := by
  obtain ⟨b, s, m', hrun, hf, hk⟩ := rule_parse_spec h reader m hel hattr
  refine ⟨b, s, m', hrun, hf, ?_, ?_⟩
  · intro k hsome
    rw [hk] at hsome
    have hmem := List.mem_of_getLast?_eq_some hsome
    rw [List.mem_filter] at hmem
    exact ⟨hmem.1, by simpa [no_selector] using hmem.2⟩
  · rw [hk, List.getLast?_eq_none_iff, List.filter_eq_nil_iff]
    constructor
    · intro hall k hmem
      simpa [no_selector] using hall k hmem
    · intro hall k hmem
      simpa [no_selector] using hall k hmem

/-- C5 on an example: a rule with the children `check` "c1" (selector "s"), `ident`,
`check` "c2" (no selector): the checks list is "c1", "c2" and the primary check is set. -/
theorem rule_parse_checks_and_primary_witness :
    ∃ b s m',
      xccdf_rule_new_parse item_h0 (tree_node XCCDFE_RULE [(XCCDFA_ID, "r".toList)]
        [leaf_node XCCDFE_CHECK [(XCCDFA_ID, "c1".toList), (XCCDFA_SELECTOR, "s".toList)],
         leaf_node XCCDFE_IDENT [],
         leaf_node XCCDFE_CHECK [(XCCDFA_ID, "c2".toList)]])
        mem0 = some (some (.rule b s), m')
      ∧ s.checks.map xccdf_check.id = [some "c1".toList, some "c2".toList]
      ∧ (∀ k, s.check = some k →
          k ∈ s.checks ∧ (k.selector = none ∨ k.selector = some [])) := by
  obtain ⟨b, s, m', hrun, _, h3, _⟩ := rule_parse_checks_and_primary item_h0
    (tree_node XCCDFE_RULE [(XCCDFA_ID, "r".toList)]
        [leaf_node XCCDFE_CHECK [(XCCDFA_ID, "c1".toList), (XCCDFA_SELECTOR, "s".toList)],
         leaf_node XCCDFE_IDENT [],
         leaf_node XCCDFE_CHECK [(XCCDFA_ID, "c2".toList)]]) mem0 (by decide) (by decide)
  refine ⟨b, s, m', hrun, ?_, h3⟩
  have hev : (parsed_rule (xccdf_rule_new_parse item_h0
        (tree_node XCCDFE_RULE [(XCCDFA_ID, "r".toList)]
        [leaf_node XCCDFE_CHECK [(XCCDFA_ID, "c1".toList), (XCCDFA_SELECTOR, "s".toList)],
         leaf_node XCCDFE_IDENT [],
         leaf_node XCCDFE_CHECK [(XCCDFA_ID, "c2".toList)]]) mem0)).map
      (fun s => s.checks.map xccdf_check.id)
      = some [some "c1".toList, some "c2".toList] := by decide
  rw [hrun] at hev
  simpa [parsed_rule, xccdf_item.sub_rule] using hev

/-- C6: what the code does on a rule whose only child is a `complex-check` (operator
"and", one nested check): `xccdf_check_new_parse` accepts the element and returns a
check, but `xccdf_rule_new_parse` does not call it: the switch of rule.c 257-287 has no
case for `XCCDFE_COMPLEX_CHECK`, the element goes to the generic element processor and
the checks list stays empty, the primary check NULL. -/
theorem rule_parse_skips_complex_check :
    (xccdf_check_new_parse (tree_node XCCDFE_COMPLEX_CHECK [(XCCDFA_OPERATOR, "and".toList)]
        [leaf_node XCCDFE_CHECK [(XCCDFA_ID, "c1".toList)]]) mem0).1.isSome = true
    ∧ (parsed_rule (xccdf_rule_new_parse item_h0
        (tree_node XCCDFE_RULE [(XCCDFA_ID, "r".toList)]
          [tree_node XCCDFE_COMPLEX_CHECK [(XCCDFA_OPERATOR, "and".toList)]
            [leaf_node XCCDFE_CHECK [(XCCDFA_ID, "c1".toList)]]]) mem0)).map
      (fun s => (s.check.isSome, s.checks.length))
    = some (false, 0) := by
  decide

/-! ## Checks: content references, content, imports -/

theorem check_set_children_keeps_lists (check : xccdf_check)
    (l : List (Option xccdf_check)) :
    (check.set_children l).content_refs = check.content_refs
    ∧ (check.set_children l).imports = check.imports
    ∧ (check.set_children l).exports = check.exports
    ∧ (check.set_children l).content = check.content := by
  cases check
  simp [xccdf_check.set_children, xccdf_check.content_refs, xccdf_check.imports,
    xccdf_check.exports, xccdf_check.content]

theorem check_parse_leaf_content_refs (c : xml_node) (check : xccdf_check)
    (m : xccdf_mem) :
    (xccdf_check_new_parse_leaf c check m).1.content_refs
      = check.content_refs ++ (content_ref_of c).toList := by
  cases check
  unfold xccdf_check_new_parse_leaf content_ref_of
  split
  · rename_i hel
    simp only [hel, if_true]
    split <;> rename_i hh <;>
      simp [hh, xccdf_check.set_content_refs, xccdf_check.content_refs, xccdf_list_add,
        xccdf_attribute_copy]
  · rename_i hel
    simp only [hel]
    split <;> simp [xccdf_check.set_content, xccdf_check.content_refs]
  · rename_i hel
    simp only [hel]
    split <;> simp [xccdf_check.set_imports, xccdf_check.content_refs]
  · rename_i hel
    simp only [hel]
    split <;> simp [xccdf_check.set_exports, xccdf_check.content_refs]
  · rename_i h1 h2 h3 h4
    have : ¬ xccdf_element_get c = XCCDFE_CHECK_CONTENT_REF := fun e => h1 e
    simp [this]

theorem check_parse_loop_content_refs (cs : List xml_node) (check : xccdf_check)
    (m : xccdf_mem) :
    (xccdf_check_new_parse_loop cs check m).1.content_refs
      = check.content_refs ++ cs.filterMap content_ref_of := by
  induction cs generalizing check m with
  | nil => simp [xccdf_check_new_parse_loop]
  | cons c rest ih =>
    rw [xccdf_check_new_parse_loop]
    by_cases hc : xccdf_element_get c = XCCDFE_CHECK
        ∨ xccdf_element_get c = XCCDFE_COMPLEX_CHECK
    · have hnone : content_ref_of c = none := by
        unfold content_ref_of
        rcases hc with h | h <;> simp [h]
      rw [if_pos hc]
      split
      · rw [ih, List.filterMap_cons, hnone]
      · rw [ih, (check_set_children_keeps_lists _ _).1, List.filterMap_cons, hnone]
    · rw [if_neg hc, ih, check_parse_leaf_content_refs c check m, List.append_assoc]
      congr 1
      rw [List.filterMap_cons]
      cases content_ref_of c <;> simp

theorem check_attrs_lists (reader : xml_node) :
    (xccdf_check_new_parse_attrs reader).content_refs = []
    ∧ (xccdf_check_new_parse_attrs reader).imports = []
    ∧ (xccdf_check_new_parse_attrs reader).exports = []
    ∧ (xccdf_check_new_parse_attrs reader).content = none := by
  unfold xccdf_check_new_parse_attrs
  split <;> exact ⟨rfl, rfl, rfl, rfl⟩

/-- C11: for a `check` or `complex-check` element, the content-refs list of the check
that `xccdf_check_new_parse` returns is, in document order, one (name, href) record per
immediate `check-content-ref` child that has an href attribute (the name being the
name attribute, NULL when absent); a child without href, and any other child,
contributes nothing. -/
theorem check_parse_content_refs (reader : xml_node) (m : xccdf_mem)
    (hel : xccdf_element_get reader = XCCDFE_CHECK
      ∨ xccdf_element_get reader = XCCDFE_COMPLEX_CHECK) :
    ∃ check, (xccdf_check_new_parse reader m).1 = some check
      ∧ check.content_refs = (xml_children reader).filterMap content_ref_of := by
  refine ⟨_, by rw [check_parse_eq reader m hel], ?_⟩
  rw [check_parse_loop_content_refs, (check_attrs_lists reader).1, List.nil_append]

/-- C11 on the example: a `check` with one `check-content-ref` of href "oval.xml" and
name "oval:def:1" (after one without href) has exactly the content-ref
("oval:def:1", "oval.xml"). -/
theorem check_parse_content_refs_witness :
    ∃ check, (xccdf_check_new_parse (tree_node XCCDFE_CHECK []
        [leaf_node XCCDFE_CHECK_CONTENT_REF [(XCCDFA_NAME, "n".toList)],
         leaf_node XCCDFE_CHECK_CONTENT_REF
          [(XCCDFA_HREF, "oval.xml".toList), (XCCDFA_NAME, "oval:def:1".toList)]])
        mem0).1 = some check
      ∧ check.content_refs
          = [{ name := some "oval:def:1".toList, href := "oval.xml".toList }] := by
  obtain ⟨check, h1, h2⟩ := check_parse_content_refs (tree_node XCCDFE_CHECK []
        [leaf_node XCCDFE_CHECK_CONTENT_REF [(XCCDFA_NAME, "n".toList)],
         leaf_node XCCDFE_CHECK_CONTENT_REF
          [(XCCDFA_HREF, "oval.xml".toList), (XCCDFA_NAME, "oval:def:1".toList)]])
        mem0 (by decide)
  exact ⟨check, h1, h2.trans (by decide)⟩

theorem check_parse_leaf_content (c : xml_node) (check : xccdf_check) (m : xccdf_mem) :
    (xccdf_check_new_parse_leaf c check m).1.content
      = if xccdf_element_get c = XCCDFE_CHECK_CONTENT ∧ check.content = none then
          xccdf_element_string_copy c
        else check.content := by
  cases check
  unfold xccdf_check_new_parse_leaf
  split
  · rename_i hel
    simp only [hel]
    split <;> simp [xccdf_check.set_content_refs, xccdf_check.content]
  · rename_i hel
    simp only [hel, true_and]
    split <;> rename_i hh <;> simp [hh, xccdf_check.set_content, xccdf_check.content]
  · rename_i hel
    simp only [hel]
    split <;> simp [xccdf_check.set_imports, xccdf_check.content]
  · rename_i hel
    simp only [hel]
    split <;> simp [xccdf_check.set_exports, xccdf_check.content]
  · rename_i h1 h2 h3 h4
    have : ¬ xccdf_element_get c = XCCDFE_CHECK_CONTENT := fun e => h2 e
    simp [this]

theorem check_parse_loop_content (cs : List xml_node) (check : xccdf_check)
    (m : xccdf_mem) :
    (xccdf_check_new_parse_loop cs check m).1.content
      = check.content.or
          ((cs.filter is_check_content).findSome? xccdf_element_string_copy) := by
  induction cs generalizing check m with
  | nil => simp [xccdf_check_new_parse_loop]
  | cons c rest ih =>
    rw [xccdf_check_new_parse_loop]
    by_cases hc : xccdf_element_get c = XCCDFE_CHECK
        ∨ xccdf_element_get c = XCCDFE_COMPLEX_CHECK
    · have hfil : (c :: rest).filter is_check_content = rest.filter is_check_content := by
        rcases hc with h | h <;> simp [List.filter_cons, is_check_content, h]
      rw [if_pos hc, hfil]
      split
      · rw [ih]
      · rw [ih, (check_set_children_keeps_lists _ _).2.2.2]
    · rw [if_neg hc, ih, check_parse_leaf_content]
      by_cases hel : xccdf_element_get c = XCCDFE_CHECK_CONTENT
      · have hfil : (c :: rest).filter is_check_content
            = c :: rest.filter is_check_content := by
          simp [List.filter_cons, is_check_content, hel]
        rw [hfil, List.findSome?_cons]
        cases hcont : check.content with
        | none =>
          simp only [hel, true_and, if_true, Option.none_or]
          cases xccdf_element_string_copy c <;> simp
        | some x => simp [hel]
      · have hfil : (c :: rest).filter is_check_content = rest.filter is_check_content := by
          simp [List.filter_cons, is_check_content, hel]
        rw [hfil]
        simp [hel]

/-- C12, as stated, fails: of two `check-content` children, the first without body and
the second with body "b", the stored content is "b", the body of the second one. -/
theorem check_parse_content_not_first :
    xccdf_element_string_copy (leaf_node XCCDFE_CHECK_CONTENT []) = none
    ∧ (xccdf_check_new_parse (tree_node XCCDFE_CHECK []
        [leaf_node XCCDFE_CHECK_CONTENT [],
         text_node XCCDFE_CHECK_CONTENT [] "b".toList]) mem0).1.bind xccdf_check.content
      = some "b".toList := by
  decide

/-- C12 amended: for a `check` or `complex-check` element, the content stored by
`xccdf_check_new_parse` is the body of the first `check-content` child, in document
order, whose body is not NULL (NULL when there is none); every later `check-content`
child is ignored. In particular, when the first `check-content` child has a body, the
content is that body. -/
theorem check_parse_content_first_body (reader : xml_node) (m : xccdf_mem)
    (hel : xccdf_element_get reader = XCCDFE_CHECK
      ∨ xccdf_element_get reader = XCCDFE_COMPLEX_CHECK) :
    ∃ check, (xccdf_check_new_parse reader m).1 = some check
      ∧ check.content = ((xml_children reader).filter is_check_content).findSome?
          xccdf_element_string_copy
      ∧ ∀ c rest body, (xml_children reader).filter is_check_content = c :: rest →
          xccdf_element_string_copy c = some body → check.content = some body := by
  have hcont : (xccdf_check_new_parse_loop (xml_children reader)
      (xccdf_check_new_parse_attrs reader) m).1.content
        = ((xml_children reader).filter is_check_content).findSome?
          xccdf_element_string_copy := by
    rw [check_parse_loop_content, (check_attrs_lists reader).2.2.2, Option.none_or]
  refine ⟨_, by rw [check_parse_eq reader m hel], hcont, ?_⟩
  intro c rest body hfil hbody
  rw [hcont, hfil, List.findSome?_cons, hbody]

/-- C12 amended, on an example: with the `check-content` bodies "a" and "b", in that
order, the content is "a". -/
theorem check_parse_content_first_body_witness :
    ∃ check, (xccdf_check_new_parse (tree_node XCCDFE_CHECK []
        [text_node XCCDFE_CHECK_CONTENT [] "a".toList,
         text_node XCCDFE_CHECK_CONTENT [] "b".toList]) mem0).1 = some check
      ∧ check.content = some "a".toList := by
  obtain ⟨check, h1, _, h3⟩ := check_parse_content_first_body (tree_node XCCDFE_CHECK []
        [text_node XCCDFE_CHECK_CONTENT [] "a".toList,
         text_node XCCDFE_CHECK_CONTENT [] "b".toList]) mem0 (by decide)
  exact ⟨check, h1, h3 _ _ _ rfl rfl⟩

/-- C13: `xccdf_check_new_parse` returns NULL exactly when the element is neither `check`
nor `complex-check` (and then leaves the memory as it was); for a `check` or
`complex-check` element, whatever its attributes and children, it returns a check, whose
four lists are there: they are the empty lists of `xccdf_check_new_empty` when the
element has no children. -/
theorem check_parse_null_iff (reader : xml_node) (m : xccdf_mem) :
    ((xccdf_check_new_parse reader m).1 = none ↔
        (xccdf_element_get reader ≠ XCCDFE_CHECK
          ∧ xccdf_element_get reader ≠ XCCDFE_COMPLEX_CHECK))
    ∧ ((xccdf_check_new_parse reader m).1 = none → (xccdf_check_new_parse reader m).2 = m)
    ∧ ((xccdf_element_get reader = XCCDFE_CHECK
          ∨ xccdf_element_get reader = XCCDFE_COMPLEX_CHECK) →
        ∃ check, (xccdf_check_new_parse reader m).1 = some check
          ∧ (xml_children reader = [] →
              check.content_refs = [] ∧ check.imports = [] ∧ check.exports = []
                ∧ check.children = [])) := by
  by_cases hel : xccdf_element_get reader = XCCDFE_CHECK
      ∨ xccdf_element_get reader = XCCDFE_COMPLEX_CHECK
  · have hp := check_parse_eq reader m hel
    refine ⟨?_, ?_, ?_⟩
    · rw [hp]
      simp only [reduceCtorEq, false_iff, not_and_or, not_not]
      exact hel
    · rw [hp]; intro h; cases h
    · intro _
      refine ⟨_, by rw [hp], ?_⟩
      intro hch
      rw [hch]
      simp only [xccdf_check_new_parse_loop]
      exact ⟨(check_attrs_lists reader).1, (check_attrs_lists reader).2.1,
        (check_attrs_lists reader).2.2.1, check_attrs_children reader⟩
  · have hp := check_parse_null reader m hel
    refine ⟨?_, ?_, ?_⟩
    · rw [hp]
      simp only [true_iff]
      exact not_or.mp hel
    · intro _; rw [hp]
    · intro h; exact absurd h hel

/-- C13 on examples: a `fix` element gives NULL; a `complex-check` without attributes
whose only child is an unknown element gives a check with four empty lists. -/
theorem check_parse_null_iff_witness :
    (xccdf_check_new_parse (leaf_node XCCDFE_FIX []) mem0).1 = none
    ∧ ∃ check, (xccdf_check_new_parse (leaf_node XCCDFE_COMPLEX_CHECK []) mem0).1 = some check
        ∧ check.content_refs = [] ∧ check.imports = [] ∧ check.exports = []
        ∧ check.children = [] := by
  refine ⟨(check_parse_null_iff (leaf_node XCCDFE_FIX []) mem0).1.mpr (by decide), ?_⟩
  obtain ⟨check, h1, h2⟩ := (check_parse_null_iff (leaf_node XCCDFE_COMPLEX_CHECK [])
    mem0).2.2 (by decide)
  exact ⟨check, h1, h2 rfl⟩

/-! ## Checks: imports, exports and their reference requests -/

theorem mem_ext_refl (m : xccdf_mem) : mem_ext m m :=
  ⟨le_refl _, rfl, rfl, [], by simp, by simp, by simp⟩

theorem mem_ext_trans {m n k : xccdf_mem} (h1 : mem_ext m n) (h2 : mem_ext n k) :
    mem_ext m k := by
  obtain ⟨a1, a2, a3, new1, a4, a5, a6⟩ := h1
  obtain ⟨b1, b2, b3, new2, b4, b5, b6⟩ := h2
  refine ⟨le_trans a1 b1, b2.trans a2, b3.trans a3, new1 ++ new2, ?_, ?_, ?_⟩
  · rw [b4, a4, List.append_assoc]
  · intro b hb
    rcases List.mem_append.mp hb with hb | hb
    · exact ⟨(a5 b hb).1, lt_of_lt_of_le (a5 b hb).2 b1⟩
    · exact ⟨le_trans a1 (b5 b hb).1, (b5 b hb).2⟩
  · rw [List.map_append]
    refine List.Nodup.append a6 b6 ?_
    intro p hp1 hp2
    obtain ⟨x, hx, rfl⟩ := List.mem_map.mp hp1
    obtain ⟨y, hy, hxy⟩ := List.mem_map.mp hp2
    have := (a5 x hx).2
    have := (b5 y hy).1
    omega

theorem mem_ext_alloc_request (m : xccdf_mem) (id : Option cstring) (t : xccdf_type) :
    mem_ext m (xccdf_benchmark_add_ref { m with brk := m.brk + 1 } m.brk id t) := by
  refine ⟨Nat.le_succ _, rfl, rfl, [⟨m.brk, id, t⟩], rfl, ?_, by simp⟩
  intro b hb
  simp only [List.mem_singleton] at hb
  subst hb
  exact ⟨le_refl _, Nat.lt_succ_self _⟩

theorem check_parse_leaf_mem (c : xml_node) (check : xccdf_check) (m : xccdf_mem) :
    (xccdf_check_new_parse_leaf c check m).2 =
      if is_named_export c = true then
        xccdf_benchmark_add_ref { m with brk := m.brk + 1 } m.brk
          (xccdf_attribute_get c XCCDFA_VALUE_ID) XCCDF_VALUE
      else m := by
  unfold xccdf_check_new_parse_leaf is_named_export
  split
  · rename_i hel
    simp only [hel]
    split <;> simp
  · rename_i hel
    simp only [hel]
    split <;> simp
  · rename_i hel
    simp only [hel]
    split <;> simp
  · rename_i hel
    simp only [hel]
    split <;> rename_i hh <;> simp [hh]
  · rename_i h1 h2 h3 h4
    have : ¬ xccdf_element_get c = XCCDFE_CHECK_EXPORT := fun e => h4 e
    simp [this]

theorem check_parse_leaf_mem_ext (c : xml_node) (check : xccdf_check) (m : xccdf_mem) :
    mem_ext m (xccdf_check_new_parse_leaf c check m).2 := by
  rw [check_parse_leaf_mem]
  split
  · exact mem_ext_alloc_request m _ _
  · exact mem_ext_refl m

mutual
theorem check_parse_mem_ext :
    ∀ (reader : xml_node) (m : xccdf_mem), mem_ext m (xccdf_check_new_parse reader m).2
  | .mk el attrs text xml children, m => by
    rw [xccdf_check_new_parse]
    split
    · exact mem_ext_refl m
    · exact check_parse_loop_mem_ext children _ m
theorem check_parse_loop_mem_ext :
    ∀ (cs : List xml_node) (check : xccdf_check) (m : xccdf_mem),
      mem_ext m (xccdf_check_new_parse_loop cs check m).2
  | [], check, m => by
    rw [xccdf_check_new_parse_loop]
    exact mem_ext_refl m
  | c :: rest, check, m => by
    rw [xccdf_check_new_parse_loop]
    split
    · split
      · exact check_parse_loop_mem_ext rest check m
      · exact mem_ext_trans (check_parse_mem_ext c m)
          (check_parse_loop_mem_ext rest _ _)
    · exact mem_ext_trans (check_parse_leaf_mem_ext c check m)
        (check_parse_loop_mem_ext rest _ _)
end

theorem check_parse_leaf_imports (c : xml_node) (check : xccdf_check) (m : xccdf_mem) :
    (xccdf_check_new_parse_leaf c check m).1.imports
      = check.imports ++ (import_of c).toList := by
  cases check
  unfold xccdf_check_new_parse_leaf import_of
  split
  · rename_i hel
    simp only [hel]
    split <;> simp [xccdf_check.set_content_refs, xccdf_check.imports]
  · rename_i hel
    simp only [hel]
    split <;> simp [xccdf_check.set_content, xccdf_check.imports]
  · rename_i hel
    simp only [hel, if_true]
    split <;> rename_i hh <;>
      simp [hh, xccdf_check.set_imports, xccdf_check.imports, xccdf_list_add,
        xccdf_element_string_copy]
  · rename_i hel
    simp only [hel]
    split <;> simp [xccdf_check.set_exports, xccdf_check.imports]
  · rename_i h1 h2 h3 h4
    have : ¬ xccdf_element_get c = XCCDFE_CHECK_IMPORT := fun e => h3 e
    simp [this]

theorem check_parse_loop_imports (cs : List xml_node) (check : xccdf_check)
    (m : xccdf_mem) :
    (xccdf_check_new_parse_loop cs check m).1.imports
      = check.imports ++ cs.filterMap import_of := by
  induction cs generalizing check m with
  | nil => simp [xccdf_check_new_parse_loop]
  | cons c rest ih =>
    rw [xccdf_check_new_parse_loop]
    by_cases hc : xccdf_element_get c = XCCDFE_CHECK
        ∨ xccdf_element_get c = XCCDFE_COMPLEX_CHECK
    · have hnone : import_of c = none := by
        unfold import_of
        rcases hc with h | h <;> simp [h]
      rw [if_pos hc]
      split
      · rw [ih, List.filterMap_cons, hnone]
      · rw [ih, (check_set_children_keeps_lists _ _).2.1, List.filterMap_cons, hnone]
    · rw [if_neg hc, ih, check_parse_leaf_imports c check m, List.append_assoc]
      congr 1
      rw [List.filterMap_cons]
      cases import_of c <;> simp

theorem check_parse_leaf_exports (c : xml_node) (check : xccdf_check) (m : xccdf_mem) :
    (xccdf_check_new_parse_leaf c check m).1.exports
      = check.exports ++ (export_of c m.brk).toList := by
  cases check
  unfold xccdf_check_new_parse_leaf export_of
  split
  · rename_i hel
    simp only [hel]
    split <;> simp [xccdf_check.set_content_refs, xccdf_check.exports]
  · rename_i hel
    simp only [hel]
    split <;> simp [xccdf_check.set_content, xccdf_check.exports]
  · rename_i hel
    simp only [hel]
    split <;> simp [xccdf_check.set_imports, xccdf_check.exports]
  · rename_i hel
    simp only [hel, if_true]
    split <;> rename_i hh <;>
      simp [hh, xccdf_check.set_exports, xccdf_check.exports, xccdf_list_add]
  · rename_i h1 h2 h3 h4
    have : ¬ xccdf_element_get c = XCCDFE_CHECK_EXPORT := fun e => h4 e
    simp [this]

theorem mem_ext_idrefs_mono {m n : xccdf_mem} (h : mem_ext m n) {b : xccdf_backref}
    (hb : b ∈ m.bench.idrefs) : b ∈ n.bench.idrefs := by
  obtain ⟨_, _, _, new, h4, _, _⟩ := h
  rw [h4]
  exact List.mem_append_left _ hb

theorem export_of_named (c : xml_node) (cell : Nat) (h : is_named_export c = true) :
    ∃ e, export_of c cell = some e ∧ xccdf_attribute_get c XCCDFA_EXPORT_NAME = some e.name
      ∧ e.value.cell = cell := by
  simp only [is_named_export, Bool.and_eq_true, decide_eq_true_eq] at h
  obtain ⟨hel, hname⟩ := h
  obtain ⟨name, hn⟩ := Option.isSome_iff_exists.mp hname
  exact ⟨⟨name, ⟨cell⟩⟩, by simp [export_of, hel, hn], hn, rfl⟩

theorem export_of_unnamed (c : xml_node) (cell : Nat) (h : ¬ is_named_export c = true) :
    export_of c cell = none := by
  simp only [is_named_export, Bool.and_eq_true, decide_eq_true_eq, not_and] at h
  unfold export_of
  split
  · rename_i hel
    have := h hel
    simp only [Option.isSome_iff_ne_none, ne_eq, not_not] at this
    simp [this]
  · rfl

theorem check_parse_loop_exports (cs : List xml_node) (check : xccdf_check)
    (m : xccdf_mem) :
    ∃ l, (xccdf_check_new_parse_loop cs check m).1.exports = check.exports ++ l
      ∧ List.Forall₂
          (fun c e => xccdf_attribute_get c XCCDFA_EXPORT_NAME = some e.name
            ∧ m.brk ≤ e.value.cell
            ∧ export_request c e ∈ (xccdf_check_new_parse_loop cs check m).2.bench.idrefs)
          (cs.filter is_named_export) l
      ∧ (check.oper = 0 →
          (xccdf_check_new_parse_loop cs check m).2.bench.idrefs
            = m.bench.idrefs
              ++ List.zipWith export_request (cs.filter is_named_export) l) := by
  induction cs generalizing check m with
  | nil => exact ⟨[], by simp [xccdf_check_new_parse_loop], by simp,
      by simp [xccdf_check_new_parse_loop]⟩
  | cons c rest ih =>
    rw [xccdf_check_new_parse_loop]
    by_cases hc : xccdf_element_get c = XCCDFE_CHECK
        ∨ xccdf_element_get c = XCCDFE_COMPLEX_CHECK
    · have hfil : (c :: rest).filter is_named_export = rest.filter is_named_export := by
        rcases hc with h | h <;> simp [List.filter_cons, is_named_export, h]
      rw [if_pos hc, hfil]
      by_cases h0 : check.oper = 0
      · rw [if_pos h0]
        exact ih check m
      · rw [if_neg h0]
        obtain ⟨l, hl, hf, _⟩ := ih (check.set_children
          (xccdf_list_add check.children (xccdf_check_new_parse c m).1))
          (xccdf_check_new_parse c m).2
        have hext := check_parse_mem_ext c m
        refine ⟨l, by rw [hl, (check_set_children_keeps_lists _ _).2.2.1], ?_,
          fun h => absurd h h0⟩
        exact List.Forall₂.imp (fun _ _ h => ⟨h.1, le_trans hext.1 h.2.1, h.2.2⟩) hf
    · rw [if_neg hc]
      obtain ⟨l, hl, hf, hz⟩ := ih (xccdf_check_new_parse_leaf c check m).1
        (xccdf_check_new_parse_leaf c check m).2
      have hext := check_parse_leaf_mem_ext c check m
      have hrest := check_parse_loop_mem_ext rest (xccdf_check_new_parse_leaf c check m).1
        (xccdf_check_new_parse_leaf c check m).2
      have hf' : List.Forall₂
          (fun a b => xccdf_attribute_get a XCCDFA_EXPORT_NAME = some b.name
            ∧ m.brk ≤ b.value.cell
            ∧ export_request a b ∈ (xccdf_check_new_parse_loop rest
              (xccdf_check_new_parse_leaf c check m).1
              (xccdf_check_new_parse_leaf c check m).2).2.bench.idrefs)
          (rest.filter is_named_export) l :=
        List.Forall₂.imp (fun _ _ h => ⟨h.1, le_trans hext.1 h.2.1, h.2.2⟩) hf
      have hoper := (check_parse_leaf_keeps c check m).1
      by_cases hn : is_named_export c = true
      · obtain ⟨e, he, hname, hcell⟩ := export_of_named c m.brk hn
        have hfil : (c :: rest).filter is_named_export
            = c :: rest.filter is_named_export := by
          simp [List.filter_cons, hn]
        have hmem1 : (xccdf_check_new_parse_leaf c check m).2.bench.idrefs
            = m.bench.idrefs ++ [export_request c e] := by
          rw [check_parse_leaf_mem, if_pos hn]
          simp [xccdf_benchmark_add_ref, export_request, hcell]
        refine ⟨e :: l, ?_, ?_, ?_⟩
        · rw [hl, check_parse_leaf_exports, he]
          simp
        · rw [hfil]
          refine List.Forall₂.cons ⟨hname, by rw [hcell], ?_⟩ hf'
          apply mem_ext_idrefs_mono hrest
          rw [hmem1]
          simp
        · intro h0
          rw [hfil, hz (hoper.trans h0), hmem1]
          simp
      · have hfil : (c :: rest).filter is_named_export = rest.filter is_named_export := by
          simp [List.filter_cons, hn]
        have hmem1 : (xccdf_check_new_parse_leaf c check m).2 = m := by
          rw [check_parse_leaf_mem, if_neg hn]
        refine ⟨l, ?_, ?_, ?_⟩
        · rw [hl, check_parse_leaf_exports, export_of_unnamed c m.brk hn]
          simp
        · rw [hfil]; exact hf'
        · intro h0
          rw [hfil, hz (hoper.trans h0), hmem1]

theorem filter_ptr_of_nodup (l : List xccdf_backref) (b : xccdf_backref)
    (hn : (l.map (fun x => x.ptr)).Nodup) (hb : b ∈ l) :
    l.filter (fun x => decide (x.ptr = b.ptr)) = [b] := by
  induction l with
  | nil => cases hb
  | cons x xs ih =>
    rw [List.map_cons, List.nodup_cons] at hn
    rcases List.mem_cons.mp hb with rfl | hb'
    · have hrest : xs.filter (fun x => decide (x.ptr = b.ptr)) = [] := by
        rw [List.filter_eq_nil_iff]
        intro y hy hyb
        simp only [decide_eq_true_eq] at hyb
        exact hn.1 (List.mem_map.mpr ⟨y, hy, hyb⟩)
      simp [List.filter_cons, hrest]
    · have hne : x.ptr ≠ b.ptr := by
        intro e
        exact hn.1 (List.mem_map.mpr ⟨b, hb', e.symm⟩)
      simp [List.filter_cons, hne, ih hn.2 hb']

theorem filter_ptr_unique {m n : xccdf_mem} (hwf : mem_fresh m) (hext : mem_ext m n)
    (b : xccdf_backref) (hb : b ∈ n.bench.idrefs) (hge : m.brk ≤ b.ptr) :
    n.bench.idrefs.filter (fun x => decide (x.ptr = b.ptr)) = [b] := by
  obtain ⟨_, _, _, new, h4, _, h6⟩ := hext
  rw [h4] at hb ⊢
  have hold : m.bench.idrefs.filter (fun x => decide (x.ptr = b.ptr)) = [] := by
    rw [List.filter_eq_nil_iff]
    intro y hy hyb
    simp only [decide_eq_true_eq] at hyb
    have := hwf y hy
    omega
  have hnew : b ∈ new := by
    rcases List.mem_append.mp hb with h | h
    · have := hwf b h
      omega
    · exact h
  rw [List.filter_append, hold, List.nil_append]
  exact filter_ptr_of_nodup new b h6 hnew

theorem check_parse_leaf_unnamed (c : xml_node) (check : xccdf_check) (m : xccdf_mem)
    (h : is_unnamed_import_or_export c = true) :
    xccdf_check_new_parse_leaf c check m = (check, m) := by
  simp only [is_unnamed_import_or_export, Bool.or_eq_true, Bool.and_eq_true,
    decide_eq_true_eq, Option.isNone_iff_eq_none] at h
  unfold xccdf_check_new_parse_leaf
  rcases h with ⟨hel, hn⟩ | ⟨hel, hn⟩
  · simp [hel, hn]
  · simp [hel, hn]

/-- C14: for a `check` or `complex-check` element parsed from a memory whose queued
requests all point to allocated cells, `xccdf_check_new_parse` returns a check such
that: its imports list is, in document order, one (name, raw body) record per
immediate `check-import` child that has a name attribute; its exports list has, in
document order, one record per immediate `check-export` child that has a name
attribute, carrying that name, and the queue afterwards holds exactly one request into
the record's slot, for the child's value-id attribute with kind `XCCDF_VALUE`; when the
check is a Leaf (operator 0) the requests queued by the call are exactly those, in
order; and the loop body on a `check-import` or `check-export` child without name
attribute changes neither the check nor the memory. -/
theorem check_parse_imports_exports (reader : xml_node) (m : xccdf_mem)
    (hel : xccdf_element_get reader = XCCDFE_CHECK
      ∨ xccdf_element_get reader = XCCDFE_COMPLEX_CHECK)
    (hwf : mem_fresh m) :
    ∃ check m', xccdf_check_new_parse reader m = (some check, m')
      ∧ check.imports = (xml_children reader).filterMap import_of
      ∧ List.Forall₂
          (fun c e => xccdf_attribute_get c XCCDFA_EXPORT_NAME = some e.name
            ∧ m'.bench.idrefs.filter (fun b => decide (b.ptr = e.value.cell))
                = [export_request c e])
          ((xml_children reader).filter is_named_export) check.exports
      ∧ (check.oper = 0 →
          m'.bench.idrefs = m.bench.idrefs
            ++ List.zipWith export_request
                ((xml_children reader).filter is_named_export) check.exports)
      ∧ (∀ c check0 m0, is_unnamed_import_or_export c = true →
          xccdf_check_new_parse_leaf c check0 m0 = (check0, m0)) := by
  obtain ⟨l, hl, hf, hz⟩ := check_parse_loop_exports (xml_children reader)
    (xccdf_check_new_parse_attrs reader) m
  have hext := check_parse_loop_mem_ext (xml_children reader)
    (xccdf_check_new_parse_attrs reader) m
  rw [(check_attrs_lists reader).2.2.1, List.nil_append] at hl
  refine ⟨_, _, check_parse_eq reader m hel, ?_, ?_, ?_, ?_⟩
  · rw [check_parse_loop_imports, (check_attrs_lists reader).2.1, List.nil_append]
  · rw [hl]
    refine List.Forall₂.imp ?_ hf
    intro c e h
    exact ⟨h.1, filter_ptr_unique hwf hext (export_request c e) h.2.2 h.2.1⟩
  · intro h0
    rw [(check_parse_loop_keeps _ _ _).1] at h0
    rw [hl]
    exact hz h0
  · intro c check0 m0 h
    exact check_parse_leaf_unnamed c check0 m0 h

/-- C14 on an example: a `check` with the children `check-import` "i1" (body "x"), a
`check-import` without name, `check-export` "e1" for value "v1" and a `check-export`
without name: one import, one export, one request of kind `XCCDF_VALUE` for "v1". -/
theorem check_parse_imports_exports_witness :
    ∃ check m', xccdf_check_new_parse (tree_node XCCDFE_CHECK []
        [text_node XCCDFE_CHECK_IMPORT [(XCCDFA_IMPORT_NAME, "i1".toList)] "x".toList,
         leaf_node XCCDFE_CHECK_IMPORT [],
         leaf_node XCCDFE_CHECK_EXPORT
          [(XCCDFA_EXPORT_NAME, "e1".toList), (XCCDFA_VALUE_ID, "v1".toList)],
         leaf_node XCCDFE_CHECK_EXPORT [(XCCDFA_VALUE_ID, "v2".toList)]]) mem0
        = (some check, m')
      ∧ check.imports = [{ name := "i1".toList, content := some "x".toList }]
      ∧ check.exports = [{ name := "e1".toList, value := ⟨0⟩ }]
      ∧ m'.bench.idrefs = [⟨0, some "v1".toList, XCCDF_VALUE⟩] := by
  obtain ⟨check, m', h1, h2, _, _, _⟩ := check_parse_imports_exports
    (tree_node XCCDFE_CHECK []
        [text_node XCCDFE_CHECK_IMPORT [(XCCDFA_IMPORT_NAME, "i1".toList)] "x".toList,
         leaf_node XCCDFE_CHECK_IMPORT [],
         leaf_node XCCDFE_CHECK_EXPORT
          [(XCCDFA_EXPORT_NAME, "e1".toList), (XCCDFA_VALUE_ID, "v1".toList)],
         leaf_node XCCDFE_CHECK_EXPORT [(XCCDFA_VALUE_ID, "v2".toList)]]) mem0
    (by decide) (by intro b hb; cases hb)
  have hev : ((xccdf_check_new_parse (tree_node XCCDFE_CHECK []
        [text_node XCCDFE_CHECK_IMPORT [(XCCDFA_IMPORT_NAME, "i1".toList)] "x".toList,
         leaf_node XCCDFE_CHECK_IMPORT [],
         leaf_node XCCDFE_CHECK_EXPORT
          [(XCCDFA_EXPORT_NAME, "e1".toList), (XCCDFA_VALUE_ID, "v1".toList)],
         leaf_node XCCDFE_CHECK_EXPORT [(XCCDFA_VALUE_ID, "v2".toList)]]) mem0).1.map
          xccdf_check.exports,
      (xccdf_check_new_parse (tree_node XCCDFE_CHECK []
        [text_node XCCDFE_CHECK_IMPORT [(XCCDFA_IMPORT_NAME, "i1".toList)] "x".toList,
         leaf_node XCCDFE_CHECK_IMPORT [],
         leaf_node XCCDFE_CHECK_EXPORT
          [(XCCDFA_EXPORT_NAME, "e1".toList), (XCCDFA_VALUE_ID, "v1".toList)],
         leaf_node XCCDFE_CHECK_EXPORT [(XCCDFA_VALUE_ID, "v2".toList)]])
        mem0).2.bench.idrefs)
      = (some [{ name := "e1".toList, value := ⟨0⟩ }],
         [⟨0, some "v1".toList, XCCDF_VALUE⟩]) := by decide
  rw [h1] at hev
  simp only [Option.map_some', Prod.mk.injEq, Option.some.injEq] at hev
  exact ⟨check, m', h1, h2.trans (by decide), hev.1, hev.2⟩

/-! ## Groups: the content list -/

theorem rule_parse_fail (h : xccdf_item_h) (reader : xml_node) (m : xccdf_mem)
    (hel : xccdf_element_get reader = XCCDFE_RULE)
    (hattr : (h.xccdf_item_process_attributes (xccdf_rule_new_empty h).base reader m).1
      = false) :
    xccdf_rule_new_parse h reader m = some (none,
      (h.xccdf_item_process_attributes (xccdf_rule_new_empty h).base reader m).2.2) := by
  unfold xccdf_rule_new_parse
  simp [hel, hattr]

theorem rule_parse_total (h : xccdf_item_h) (reader : xml_node) (m : xccdf_mem)
    (hel : xccdf_element_get reader = XCCDFE_RULE) :
    ∃ r, xccdf_rule_new_parse h reader m = some r := by
  cases hattr : (h.xccdf_item_process_attributes (xccdf_rule_new_empty h).base reader m).1
  · exact ⟨_, rule_parse_fail h reader m hel hattr⟩
  · obtain ⟨b, s, m', hrun, _⟩ := rule_parse_spec h reader m hel hattr
    exact ⟨_, hrun⟩

theorem group_parse_fail (h : xccdf_item_h) (reader : xml_node) (m : xccdf_mem)
    (hel : xccdf_element_get reader = XCCDFE_GROUP)
    (hattr : (h.xccdf_item_process_attributes xccdf_group_new_empty.base reader m).1
      = false) :
    xccdf_group_new_parse h reader m = some (none,
      (h.xccdf_item_process_attributes xccdf_group_new_empty.base reader m).2.2) := by
  cases reader with
  | mk el attrs text xml children =>
    simp only [xccdf_element_get] at hel
    subst hel
    rw [xccdf_group_new_parse]
    simp [hattr]

theorem parse_deps_group_keeps (c : xml_node) (b : xccdf_item_base)
    (content : List xccdf_item) (rq : List (List xccdf_slot)) (k : List xccdf_slot)
    (v : List (Option xccdf_value)) (m : xccdf_mem)
    (hel : xccdf_element_get c = XCCDFE_REQUIRES ∨ xccdf_element_get c = XCCDFE_CONFLICTS) :
    ∃ r rq' k' m', xccdf_parse_deps c (.group b content rq k v) m
      = some (r, .group b content rq' k' v, m') := by
  rcases hel with hel | hel
  · simp only [xccdf_parse_deps, xccdf_deps_get, hel]
    split
    · exact ⟨_, _, _, _, rfl⟩
    · exact ⟨_, _, _, _, rfl⟩
  · simp only [xccdf_parse_deps, xccdf_deps_get, hel]
    exact ⟨_, _, _, _, rfl⟩

theorem content_parse_with_eq (h : xccdf_item_h) (reader : xml_node) (parent : xccdf_item)
    (m : xccdf_mem) (list : List xccdf_item) (r : Option xccdf_item) (m' : xccdf_mem)
    (hlist : parent.content_list = some list)
    (hitem : parse_content_item h reader m = some (r, m')) :
    xccdf_content_parse_with h (xccdf_group_new_parse h reader m) reader parent m
      = some (r.isSome,
          r.elim parent (fun item => parent.set_content (list ++ [item])), m') := by
  unfold xccdf_content_parse_with
  unfold parse_content_item at hitem
  simp only [hlist]
  rw [hitem]
  cases r <;> simp [xccdf_list_add]

theorem parse_content_item_total (h : xccdf_item_h) (reader : xml_node) (m : xccdf_mem)
    (hel : xccdf_element_get reader = XCCDFE_GROUP ∨ xccdf_element_get reader = XCCDFE_RULE)
    (hg : xccdf_element_get reader = XCCDFE_GROUP →
      ∃ r, xccdf_group_new_parse h reader m = some r) :
    ∃ r, parse_content_item h reader m = some r := by
  unfold parse_content_item
  rcases hel with hel | hel
  · simp only [hel]
    exact hg hel
  · simp only [hel]
    exact rule_parse_total h reader m hel

theorem group_step_spec (h : xccdf_item_h) (c : xml_node) (b : xccdf_item_base)
    (content : List xccdf_item) (rq : List (List xccdf_slot)) (k : List xccdf_slot)
    (v : List (Option xccdf_value)) (m : xccdf_mem)
    (hg : xccdf_element_get c = XCCDFE_GROUP →
      ∃ r, xccdf_group_new_parse h c m = some r) :
    ∃ b' content' rq' k' v' m' rs,
      xccdf_group_new_parse_step h (xccdf_group_new_parse h c m) c
          (.group b content rq k v) m = some (.group b' content' rq' k' v', m')
      ∧ content' = content ++ rs.reduceOption
      ∧ List.Forall₂ (fun c r => ∃ m1 m2, parse_content_item h c m1 = some (r, m2))
          ([c].filter is_group_or_rule) rs := by
  by_cases hgr : xccdf_element_get c = XCCDFE_GROUP ∨ xccdf_element_get c = XCCDFE_RULE
  · obtain ⟨⟨r, m1⟩, hr⟩ := parse_content_item_total h c m hgr hg
    have hcp := content_parse_with_eq h c (.group b content rq k v) m content r m1 rfl hr
    have hfil : [c].filter is_group_or_rule = [c] := by
      simp [is_group_or_rule, hgr]
    have hstep : xccdf_group_new_parse_step h (xccdf_group_new_parse h c m) c
        (.group b content rq k v) m
        = some (r.elim (xccdf_item.group b content rq k v)
            (fun item => (xccdf_item.group b content rq k v).set_content (content ++ [item])),
            m1) := by
      unfold xccdf_group_new_parse_step
      rcases hgr with hel | hel <;> simp [hel, hcp]
    rw [hfil, hstep]
    cases r with
    | none =>
      exact ⟨b, content, rq, k, v, m1, [none], rfl, by simp,
        List.Forall₂.cons ⟨m, m1, hr⟩ List.Forall₂.nil⟩
    | some item =>
      exact ⟨b, content ++ [item], rq, k, v, m1, [some item], rfl, by simp,
        List.Forall₂.cons ⟨m, m1, hr⟩ List.Forall₂.nil⟩
  · have hfil : [c].filter is_group_or_rule = [] := by
      simp [is_group_or_rule, hgr]
    rw [hfil]
    rw [not_or] at hgr
    by_cases hdep : xccdf_element_get c = XCCDFE_REQUIRES
        ∨ xccdf_element_get c = XCCDFE_CONFLICTS
    · obtain ⟨r, rq', k', m', hpd⟩ := parse_deps_group_keeps c b content rq k v m hdep
      refine ⟨b, content, rq', k', v, m', [], ?_, by simp, List.Forall₂.nil⟩
      unfold xccdf_group_new_parse_step
      rcases hdep with hel | hel <;> simp [hel, hpd]
    · rw [not_or] at hdep
      by_cases hval : xccdf_element_get c = XCCDFE_VALUE
      · refine ⟨b, content, rq, k, xccdf_list_add v (h.xccdf_value_new_parse c m).1,
          (h.xccdf_value_new_parse c m).2, [], ?_, by simp, List.Forall₂.nil⟩
        · unfold xccdf_group_new_parse_step
          simp only [hval]
          rfl
      · refine ⟨(h.xccdf_item_process_element b c m).1, content, rq, k, v,
          (h.xccdf_item_process_element b c m).2, [], ?_, by simp, List.Forall₂.nil⟩
        · unfold xccdf_group_new_parse_step
          split
          · rename_i he; exact absurd he hdep.1
          · rename_i he; exact absurd he hdep.2
          · rename_i he; exact absurd he hgr.1
          · rename_i he; exact absurd he hgr.2
          · rename_i he; exact absurd he hval
          · rfl

mutual
theorem group_parse_total (h : xccdf_item_h) :
    ∀ (reader : xml_node) (m : xccdf_mem), xccdf_element_get reader = XCCDFE_GROUP →
      ∃ r, xccdf_group_new_parse h reader m = some r
  | .mk el attrs text xml children, m, hel => by
    simp only [xccdf_element_get] at hel
    subst hel
    rw [xccdf_group_new_parse]
    simp only [ne_eq, not_true_eq_false, if_false]
    split
    · exact ⟨_, rfl⟩
    · obtain ⟨b', content', rq', k', v', m', rs, hl, _⟩ := group_loop_spec h children
        (h.xccdf_item_process_attributes xccdf_group_new_empty.base
          (.mk XCCDFE_GROUP attrs text xml children) m).2.1 [] [] [] []
        (h.xccdf_item_process_attributes xccdf_group_new_empty.base
          (.mk XCCDFE_GROUP attrs text xml children) m).2.2
      have hsb : ∀ x, xccdf_group_new_empty.set_base x = .group x [] [] [] [] :=
        fun _ => rfl
      rw [hsb, hl]
      exact ⟨_, rfl⟩
theorem group_loop_spec (h : xccdf_item_h) :
    ∀ (cs : List xml_node) (b : xccdf_item_base) (content : List xccdf_item)
      (rq : List (List xccdf_slot)) (k : List xccdf_slot) (v : List (Option xccdf_value))
      (m : xccdf_mem),
      ∃ b' content' rq' k' v' m' rs,
        xccdf_group_new_parse_loop h cs (.group b content rq k v) m
          = some (.group b' content' rq' k' v', m')
        ∧ content' = content ++ rs.reduceOption
        ∧ List.Forall₂ (fun c r => ∃ m1 m2, parse_content_item h c m1 = some (r, m2))
            (cs.filter is_group_or_rule) rs
  | [], b, content, rq, k, v, m =>
    ⟨b, content, rq, k, v, m, [], by rw [xccdf_group_new_parse_loop], by simp,
      List.Forall₂.nil⟩
  | c :: rest, b, content, rq, k, v, m => by
    obtain ⟨b1, content1, rq1, k1, v1, m1, rs1, hs, hc1, hf1⟩ :=
      group_step_spec h c b content rq k v m (fun hel => group_parse_total h c m hel)
    obtain ⟨b2, content2, rq2, k2, v2, m2, rs2, hl, hc2, hf2⟩ :=
      group_loop_spec h rest b1 content1 rq1 k1 v1 m1
    refine ⟨b2, content2, rq2, k2, v2, m2, rs1 ++ rs2, ?_, ?_, ?_⟩
    · rw [xccdf_group_new_parse_loop, hs]
      exact hl
    · rw [hc2, hc1, List.append_assoc, List.reduceOption_append]
    · have : (c :: rest).filter is_group_or_rule
          = [c].filter is_group_or_rule ++ rest.filter is_group_or_rule := by
        rw [← List.filter_append]; rfl
      rw [this]
      exact List.rel_append hf1 hf2
end

theorem content_list_set_content (parent : xccdf_item) (list l : List xccdf_item)
    (h : parent.content_list = some list) : (parent.set_content l).content_list = some l := by
  cases parent <;> simp_all [xccdf_item.content_list, xccdf_item.set_content]

theorem parse_deps_group_content (c : xml_node) (b : xccdf_item_base)
    (rq : List (List xccdf_slot)) (k : List xccdf_slot)
    (v : List (Option xccdf_value)) (m : xccdf_mem)
    (hel : xccdf_element_get c = XCCDFE_REQUIRES ∨ xccdf_element_get c = XCCDFE_CONFLICTS) :
    ∃ r rq' k' m', ∀ content, xccdf_parse_deps c (.group b content rq k v) m
      = some (r, .group b content rq' k' v, m') := by
  rcases hel with hel | hel
  · by_cases hz : (xccdf_parse_deps_loop
        (((xccdf_attribute_copy c XCCDFA_IDREF).elim 0 List.length) + 2)
        (xccdf_attribute_copy c XCCDFA_IDREF) [] m).1.length = 0
    · exact ⟨false, rq, k, (xccdf_parse_deps_loop
        (((xccdf_attribute_copy c XCCDFA_IDREF).elim 0 List.length) + 2)
        (xccdf_attribute_copy c XCCDFA_IDREF) [] m).2, fun content => by
          simp only [xccdf_parse_deps, xccdf_deps_get, hel]
          rw [if_pos hz]⟩
    · exact ⟨true, xccdf_list_add rq (xccdf_parse_deps_loop
        (((xccdf_attribute_copy c XCCDFA_IDREF).elim 0 List.length) + 2)
        (xccdf_attribute_copy c XCCDFA_IDREF) [] m).1, k, (xccdf_parse_deps_loop
        (((xccdf_attribute_copy c XCCDFA_IDREF).elim 0 List.length) + 2)
        (xccdf_attribute_copy c XCCDFA_IDREF) [] m).2, fun content => by
          simp only [xccdf_parse_deps, xccdf_deps_get, hel]
          rw [if_neg hz]
          rfl⟩
  · exact ⟨true, rq, (xccdf_list_add_null k m).1,
      xccdf_benchmark_add_ref (xccdf_list_add_null k m).2.2 (xccdf_list_add_null k m).2.1
        (xccdf_attribute_get c XCCDFA_IDREF) XCCDF_CONTENT, fun content => by
          simp only [xccdf_parse_deps, xccdf_deps_get, hel]
          rfl⟩

theorem group_step_content_child (h : xccdf_item_h) (c : xml_node) (b : xccdf_item_base)
    (content : List xccdf_item) (rq : List (List xccdf_slot)) (k : List xccdf_slot)
    (v : List (Option xccdf_value)) (m : xccdf_mem) (r : Option xccdf_item)
    (m1 : xccdf_mem) (hgr : is_group_or_rule c = true)
    (hr : parse_content_item h c m = some (r, m1)) :
    xccdf_group_new_parse_step h (xccdf_group_new_parse h c m) c
        (.group b content rq k v) m
      = some (.group b (content ++ r.toList) rq k v, m1) := by
  have hcp := content_parse_with_eq h c (.group b content rq k v) m content r m1 rfl hr
  have hel : xccdf_element_get c = XCCDFE_GROUP ∨ xccdf_element_get c = XCCDFE_RULE := by
    simpa [is_group_or_rule] using hgr
  unfold xccdf_group_new_parse_step
  cases r with
  | none => rcases hel with hel | hel <;> simp [hel, hcp]
  | some item =>
    rcases hel with hel | hel <;> simp [hel, hcp, xccdf_item.set_content]

theorem group_step_other_child (h : xccdf_item_h) (c : xml_node) (b : xccdf_item_base)
    (rq : List (List xccdf_slot)) (k : List xccdf_slot)
    (v : List (Option xccdf_value)) (m : xccdf_mem)
    (gp : Option (Option xccdf_item × xccdf_mem))
    (hgr : ¬ is_group_or_rule c = true) :
    ∃ b' rq' k' v' m', ∀ content,
      xccdf_group_new_parse_step h gp c (.group b content rq k v) m
        = some (.group b' content rq' k' v', m') := by
  have hgr' : ¬ (xccdf_element_get c = XCCDFE_GROUP ∨ xccdf_element_get c = XCCDFE_RULE) := by
    simpa [is_group_or_rule] using hgr
  rw [not_or] at hgr'
  by_cases hdep : xccdf_element_get c = XCCDFE_REQUIRES
      ∨ xccdf_element_get c = XCCDFE_CONFLICTS
  · obtain ⟨r, rq', k', m', hpd⟩ := parse_deps_group_content c b rq k v m hdep
    refine ⟨b, rq', k', v, m', fun content => ?_⟩
    unfold xccdf_group_new_parse_step
    rcases hdep with hel | hel <;> simp [hel, hpd content]
  · rw [not_or] at hdep
    by_cases hval : xccdf_element_get c = XCCDFE_VALUE
    · refine ⟨b, rq, k, xccdf_list_add v (h.xccdf_value_new_parse c m).1,
        (h.xccdf_value_new_parse c m).2, fun content => ?_⟩
      unfold xccdf_group_new_parse_step
      simp only [hval]
      rfl
    · refine ⟨(h.xccdf_item_process_element b c m).1, rq, k, v,
        (h.xccdf_item_process_element b c m).2, fun content => ?_⟩
      unfold xccdf_group_new_parse_step
      split
      · rename_i he; exact absurd he hdep.1
      · rename_i he; exact absurd he hdep.2
      · rename_i he; exact absurd he hgr'.1
      · rename_i he; exact absurd he hgr'.2
      · rename_i he; exact absurd he hval
      · rfl

theorem group_loop_content (h : xccdf_item_h) (cs : List xml_node) :
    ∀ (b : xccdf_item_base) (content content0 : List xccdf_item)
      (rq : List (List xccdf_slot)) (k : List xccdf_slot) (v : List (Option xccdf_value))
      (m : xccdf_mem),
      ∃ b' rq' k' v' m',
        xccdf_group_new_parse_loop h cs (.group b content rq k v) m
          = some (.group b'
              (content ++ (group_children_results h cs
                (.group b content0 rq k v) m).reduceOption) rq' k' v', m')
        ∧ (group_children_results h cs (.group b content0 rq k v) m).length
            = (cs.filter is_group_or_rule).length := by
  induction cs with
  | nil =>
    intro b content content0 rq k v m
    exact ⟨b, rq, k, v, m, by simp [xccdf_group_new_parse_loop, group_children_results],
      by simp [group_children_results]⟩
  | cons c rest ih =>
    intro b content content0 rq k v m
    by_cases hgr : is_group_or_rule c = true
    · have hel : xccdf_element_get c = XCCDFE_GROUP ∨ xccdf_element_get c = XCCDFE_RULE := by
        simpa [is_group_or_rule] using hgr
      obtain ⟨⟨r, m1⟩, hr⟩ := parse_content_item_total h c m hel
        (fun he => group_parse_total h c m he)
      have hstep := group_step_content_child h c b content rq k v m r m1 hgr hr
      obtain ⟨b', rq', k', v', m', hl, hlen⟩ :=
        ih b (content ++ r.toList) content0 rq k v m1
      refine ⟨b', rq', k', v', m', ?_, ?_⟩
      · rw [xccdf_group_new_parse_loop, hstep]
        simp only [group_children_results, hgr, if_true, hr]
        rw [hl]
        cases r <;> simp [List.reduceOption_cons_of_some, List.reduceOption_cons_of_none]
      · simp only [group_children_results, hgr, if_true, hr, List.filter_cons,
          List.length_cons, hlen]
    · obtain ⟨b1, rq1, k1, v1, m1, hst⟩ :=
        group_step_other_child h c b rq k v m (xccdf_group_new_parse h c m) hgr
      obtain ⟨b', rq', k', v', m', hl, hlen⟩ := ih b1 content content0 rq1 k1 v1 m1
      refine ⟨b', rq', k', v', m', ?_, ?_⟩
      · rw [xccdf_group_new_parse_loop, hst content]
        simp only [group_children_results, hgr, hst content0]
        exact hl
      · simp only [group_children_results, hgr, hst content0, List.filter_cons]
        exact hlen

/-- C16: for every `group` element on which attribute processing succeeds,
`xccdf_group_new_parse` returns a group whose content list is exactly the sequence of
the items that the parsers of its immediate `group` and `rule` children returned, in
document order, the NULL results left out, where each child is parsed with the memory
that the children before it left (`group_children_results`), and no such child is
passed over; and on a `group`, `rule` or `value` element and a parent that is a group
or the benchmark, `xccdf_content_parse` calls the parser of the element, returns true
exactly when that parser returned an item, which it has then appended at the end of
the parent's content list, and returns false with the parent unchanged when the parser
returned NULL; the memory is the one the parser left. -/
theorem group_parse_content (h : xccdf_item_h) (reader : xml_node) (m : xccdf_mem)
    (parent : xccdf_item) (list : List xccdf_item) :
    (xccdf_element_get reader = XCCDFE_GROUP →
      (h.xccdf_item_process_attributes xccdf_group_new_empty.base reader m).1 = true →
      ∃ group m', xccdf_group_new_parse h reader m = some (some group, m')
        ∧ group.content_list = some (group_children_results h (xml_children reader)
            (xccdf_group_new_empty.set_base
              (h.xccdf_item_process_attributes xccdf_group_new_empty.base reader m).2.1)
            (h.xccdf_item_process_attributes xccdf_group_new_empty.base reader m).2.2
          ).reduceOption
        ∧ (group_children_results h (xml_children reader)
            (xccdf_group_new_empty.set_base
              (h.xccdf_item_process_attributes xccdf_group_new_empty.base reader m).2.1)
            (h.xccdf_item_process_attributes xccdf_group_new_empty.base reader m).2.2
          ).length = ((xml_children reader).filter is_group_or_rule).length)
    ∧ ((xccdf_element_get reader = XCCDFE_GROUP ∨ xccdf_element_get reader = XCCDFE_RULE
          ∨ xccdf_element_get reader = XCCDFE_VALUE) →
      parent.content_list = some list →
      ∃ r m', parse_content_item h reader m = some (r, m')
        ∧ xccdf_content_parse h reader parent m
          = some (r.isSome,
              r.elim parent (fun item => parent.set_content (list ++ [item])), m')
        ∧ (r.elim parent (fun item => parent.set_content (list ++ [item]))).content_list
          = some (list ++ r.toList)) := by
  constructor
  · intro hel hattr
    cases reader with
    | mk el attrs text xml children =>
      simp only [xccdf_element_get] at hel
      subst hel
      have hsb : ∀ x, xccdf_group_new_empty.set_base x = .group x [] [] [] [] :=
        fun _ => rfl
      obtain ⟨b', rq', k', v', m', hl, hlen⟩ := group_loop_content h children
        (h.xccdf_item_process_attributes xccdf_group_new_empty.base
          (.mk XCCDFE_GROUP attrs text xml children) m).2.1 [] [] [] [] []
        (h.xccdf_item_process_attributes xccdf_group_new_empty.base
          (.mk XCCDFE_GROUP attrs text xml children) m).2.2
      simp only [xml_children, hsb]
      generalize group_children_results h children _ _ = results at hl hlen ⊢
      refine ⟨.group b' ([] ++ results.reduceOption) rq' k' v', m', ?_, ?_, hlen⟩
      · rw [xccdf_group_new_parse]
        simp only [ne_eq, not_true_eq_false, if_false, hattr, Bool.true_eq_false]
        rw [hsb, hl]
      · simp only [xccdf_item.content_list, List.nil_append]
  · intro hel hlist
    have hitem : ∃ r, parse_content_item h reader m = some r := by
      rcases hel with hel | hel | hel
      · exact parse_content_item_total h reader m (Or.inl hel)
          (fun he => group_parse_total h reader m he)
      · exact parse_content_item_total h reader m (Or.inr hel)
          (fun he => group_parse_total h reader m he)
      · exact ⟨(none, m), by simp [parse_content_item, hel]⟩
    obtain ⟨⟨r, m'⟩, hr⟩ := hitem
    have hcp := content_parse_with_eq h reader parent m list r m' hlist hr
    refine ⟨r, m', hr, hcp, ?_⟩
    cases r with
    | none => simpa using hlist
    | some item => simpa using content_list_set_content parent list _ hlist

/-- C16 on an example, with attribute processing that fails on an identifier seen
before: a group with the children `rule` "a", a second `rule` "a" (its attribute
processing fails because of the first), `group` "g2", a `value` and a `requires`: the
three `group` and `rule` children give three results, the content is "a", "g2", and
`xccdf_content_parse` on the group element itself appends the group to an empty
content list and returns true. -/
theorem group_parse_content_witness :
    ∃ (group : xccdf_item) (m' : xccdf_mem),
      xccdf_group_new_parse item_h1
        (tree_node XCCDFE_GROUP [(XCCDFA_ID, "g".toList)]
          [tree_node XCCDFE_RULE [(XCCDFA_ID, "a".toList)] [leaf_node XCCDFE_CHECK []],
           tree_node XCCDFE_RULE [(XCCDFA_ID, "a".toList)] [leaf_node XCCDFE_CHECK []],
           tree_node XCCDFE_GROUP [(XCCDFA_ID, "g2".toList)]
            [tree_node XCCDFE_RULE [(XCCDFA_ID, "r2".toList)] []],
           leaf_node XCCDFE_VALUE [],
           leaf_node XCCDFE_REQUIRES [(XCCDFA_IDREF, "a".toList)]]) mem0
        = some (some group, m')
      ∧ group.content_list.map content_ids = some [some "a".toList, some "g2".toList]
      ∧ (group_children_results item_h1
          [tree_node XCCDFE_RULE [(XCCDFA_ID, "a".toList)] [leaf_node XCCDFE_CHECK []],
           tree_node XCCDFE_RULE [(XCCDFA_ID, "a".toList)] [leaf_node XCCDFE_CHECK []],
           tree_node XCCDFE_GROUP [(XCCDFA_ID, "g2".toList)]
            [tree_node XCCDFE_RULE [(XCCDFA_ID, "r2".toList)] []],
           leaf_node XCCDFE_VALUE [],
           leaf_node XCCDFE_REQUIRES [(XCCDFA_IDREF, "a".toList)]]
          (xccdf_group_new_empty.set_base
            (item_h1.xccdf_item_process_attributes xccdf_group_new_empty.base
              (tree_node XCCDFE_GROUP [(XCCDFA_ID, "g".toList)]
          [tree_node XCCDFE_RULE [(XCCDFA_ID, "a".toList)] [leaf_node XCCDFE_CHECK []],
           tree_node XCCDFE_RULE [(XCCDFA_ID, "a".toList)] [leaf_node XCCDFE_CHECK []],
           tree_node XCCDFE_GROUP [(XCCDFA_ID, "g2".toList)]
            [tree_node XCCDFE_RULE [(XCCDFA_ID, "r2".toList)] []],
           leaf_node XCCDFE_VALUE [],
           leaf_node XCCDFE_REQUIRES [(XCCDFA_IDREF, "a".toList)]]) mem0).2.1)
          (item_h1.xccdf_item_process_attributes xccdf_group_new_empty.base
            (tree_node XCCDFE_GROUP [(XCCDFA_ID, "g".toList)]
          [tree_node XCCDFE_RULE [(XCCDFA_ID, "a".toList)] [leaf_node XCCDFE_CHECK []],
           tree_node XCCDFE_RULE [(XCCDFA_ID, "a".toList)] [leaf_node XCCDFE_CHECK []],
           tree_node XCCDFE_GROUP [(XCCDFA_ID, "g2".toList)]
            [tree_node XCCDFE_RULE [(XCCDFA_ID, "r2".toList)] []],
           leaf_node XCCDFE_VALUE [],
           leaf_node XCCDFE_REQUIRES [(XCCDFA_IDREF, "a".toList)]]) mem0).2.2).map
            (fun r => r.map (fun i => i.base.id))
        = [some (some "a".toList), none, some (some "g2".toList)]
      ∧ (xccdf_content_parse item_h1
        (tree_node XCCDFE_GROUP [(XCCDFA_ID, "g".toList)]
          [tree_node XCCDFE_RULE [(XCCDFA_ID, "a".toList)] [leaf_node XCCDFE_CHECK []],
           tree_node XCCDFE_RULE [(XCCDFA_ID, "a".toList)] [leaf_node XCCDFE_CHECK []],
           tree_node XCCDFE_GROUP [(XCCDFA_ID, "g2".toList)]
            [tree_node XCCDFE_RULE [(XCCDFA_ID, "r2".toList)] []],
           leaf_node XCCDFE_VALUE [],
           leaf_node XCCDFE_REQUIRES [(XCCDFA_IDREF, "a".toList)]])
        xccdf_group_new_empty mem0).map
          (fun r => (r.1, r.2.1.content_list.map content_ids))
        = some (true, some [some "g".toList]) := by
  obtain ⟨hA, hB⟩ := group_parse_content item_h1
    (tree_node XCCDFE_GROUP [(XCCDFA_ID, "g".toList)]
          [tree_node XCCDFE_RULE [(XCCDFA_ID, "a".toList)] [leaf_node XCCDFE_CHECK []],
           tree_node XCCDFE_RULE [(XCCDFA_ID, "a".toList)] [leaf_node XCCDFE_CHECK []],
           tree_node XCCDFE_GROUP [(XCCDFA_ID, "g2".toList)]
            [tree_node XCCDFE_RULE [(XCCDFA_ID, "r2".toList)] []],
           leaf_node XCCDFE_VALUE [],
           leaf_node XCCDFE_REQUIRES [(XCCDFA_IDREF, "a".toList)]]) mem0
    xccdf_group_new_empty []
  obtain ⟨group, m', h1, h2, _⟩ := hA (by decide) (by decide)
  obtain ⟨r, m2, _, h4, _⟩ := hB (Or.inl (by decide)) rfl
  have hev : ((xccdf_group_new_parse item_h1
        (tree_node XCCDFE_GROUP [(XCCDFA_ID, "g".toList)]
          [tree_node XCCDFE_RULE [(XCCDFA_ID, "a".toList)] [leaf_node XCCDFE_CHECK []],
           tree_node XCCDFE_RULE [(XCCDFA_ID, "a".toList)] [leaf_node XCCDFE_CHECK []],
           tree_node XCCDFE_GROUP [(XCCDFA_ID, "g2".toList)]
            [tree_node XCCDFE_RULE [(XCCDFA_ID, "r2".toList)] []],
           leaf_node XCCDFE_VALUE [],
           leaf_node XCCDFE_REQUIRES [(XCCDFA_IDREF, "a".toList)]]) mem0).bind
        (fun r => r.1.bind xccdf_item.content_list)).map content_ids
      = some [some "a".toList, some "g2".toList] := by decide
  rw [h1] at hev
  refine ⟨group, m', h1, by simpa using hev, by decide, by decide⟩

/-- C17: when attribute processing fails for a `group` or `rule` element, the parser
called for it (`xccdf_group_new_parse` or `xccdf_rule_new_parse`) returns NULL and
leaves the memory exactly as the attribute step left it: no child element has been
parsed, nothing of the element is recorded; `xccdf_content_parse` on it returns false
and leaves the parent, so its content list, unchanged; and the loop of the enclosing
group goes on with the later siblings from the same group and that memory. -/
theorem content_parse_attribute_failure (h : xccdf_item_h) (c : xml_node) (m : xccdf_mem)
    (rest : List xml_node) (b : xccdf_item_base) (content : List xccdf_item)
    (rq : List (List xccdf_slot)) (k : List xccdf_slot) (v : List (Option xccdf_value))
    (parent : xccdf_item) (list : List xccdf_item)
    (hel : xccdf_element_get c = XCCDFE_GROUP ∨ xccdf_element_get c = XCCDFE_RULE)
    (hfail : (content_item_attributes h c m).1 = false) :
    parse_content_item h c m = some (none, (content_item_attributes h c m).2.2)
    ∧ (parent.content_list = some list →
        xccdf_content_parse h c parent m
          = some (false, parent, (content_item_attributes h c m).2.2))
    ∧ xccdf_group_new_parse_loop h (c :: rest) (.group b content rq k v) m
        = xccdf_group_new_parse_loop h rest (.group b content rq k v)
            (content_item_attributes h c m).2.2 := by
  have hitem : parse_content_item h c m
      = some (none, (content_item_attributes h c m).2.2) := by
    unfold parse_content_item
    unfold content_item_attributes at hfail ⊢
    rcases hel with hel | hel
    · have hne : ¬ xccdf_element_get c = XCCDFE_RULE := by rw [hel]; decide
      rw [if_neg hne] at hfail ⊢
      simp only [hel]
      exact group_parse_fail h c m hel hfail
    · rw [if_pos hel] at hfail ⊢
      simp only [hel]
      exact rule_parse_fail h c m hel hfail
  refine ⟨hitem, ?_, ?_⟩
  · intro hlist
    have := content_parse_with_eq h c parent m list none _ hlist hitem
    simpa [xccdf_content_parse] using this
  · have hcp := content_parse_with_eq h c (.group b content rq k v) m content none _ rfl hitem
    have hstep : xccdf_group_new_parse_step h (xccdf_group_new_parse h c m) c
        (.group b content rq k v) m
        = some (.group b content rq k v, (content_item_attributes h c m).2.2) := by
      unfold xccdf_group_new_parse_step
      rcases hel with hel | hel <;> simp [hel, hcp]
    rw [xccdf_group_new_parse_loop, hstep]

/-- C17 on an example: a `rule` without id attribute (attribute processing fails) that
has a `check`, a `requires` and a `fix` child, followed by the rule "r2", in the group
"g": the failed rule leaves no item, no request and no fix entry; "r2" is parsed. -/
theorem content_parse_attribute_failure_witness :
    parse_content_item item_h0
        (tree_node XCCDFE_RULE []
          [leaf_node XCCDFE_CHECK [], leaf_node XCCDFE_REQUIRES [(XCCDFA_IDREF, "a".toList)],
           leaf_node XCCDFE_FIX [(XCCDFA_ID, "f".toList)]]) mem0 = some (none, mem0)
    ∧ ((xccdf_group_new_parse item_h0 (tree_node XCCDFE_GROUP [(XCCDFA_ID, "g".toList)]
        [tree_node XCCDFE_RULE []
          [leaf_node XCCDFE_CHECK [], leaf_node XCCDFE_REQUIRES [(XCCDFA_IDREF, "a".toList)],
           leaf_node XCCDFE_FIX [(XCCDFA_ID, "f".toList)]],
         leaf_node XCCDFE_RULE [(XCCDFA_ID, "r2".toList)]]) mem0).bind
        (fun r => r.1.bind xccdf_item.content_list)).map content_ids
      = some [some "r2".toList] := by
  refine ⟨?_, by decide⟩
  have hw := (content_parse_attribute_failure item_h0
    (tree_node XCCDFE_RULE []
          [leaf_node XCCDFE_CHECK [], leaf_node XCCDFE_REQUIRES [(XCCDFA_IDREF, "a".toList)],
           leaf_node XCCDFE_FIX [(XCCDFA_ID, "f".toList)]]) mem0 [] (xccdf_item_new XCCDF_GROUP)
    [] [] [] [] xccdf_group_new_empty [] (by decide) (by decide)).1
  have hm : (content_item_attributes item_h0
    (tree_node XCCDFE_RULE []
          [leaf_node XCCDFE_CHECK [], leaf_node XCCDFE_REQUIRES [(XCCDFA_IDREF, "a".toList)],
           leaf_node XCCDFE_FIX [(XCCDFA_ID, "f".toList)]]) mem0).2.2 = mem0 := by decide
  rw [hm] at hw
  exact hw

/-! ## Rules: idents and fixes -/

/-- C15: what the code does on a rule with three `ident` children, the first with text
"id1" and system "s", the second without system attribute, the third without text:
`xccdf_ident_new` returns NULL for the two malformed ones, and `xccdf_rule_new_parse`
appends each result to the idents list, NULL or not (rule.c 283-285 has no test): the
list has three entries, two of them NULL. -/
theorem rule_parse_appends_null_idents :
    xccdf_ident_new (some "id2".toList) none = none
    ∧ xccdf_ident_new none (some "s".toList) = none
    ∧ xccdf_ident_new_parse (text_node XCCDFE_IDENT [] "id2".toList) = some none
    ∧ (parsed_rule (xccdf_rule_new_parse item_h0
        (tree_node XCCDFE_RULE [(XCCDFA_ID, "r".toList)]
          [text_node XCCDFE_IDENT [(XCCDFA_SYSTEM, "s".toList)] "id1".toList,
           text_node XCCDFE_IDENT [] "id2".toList,
           leaf_node XCCDFE_IDENT [(XCCDFA_SYSTEM, "s".toList)]]) mem0)).map
        (fun s => s.idents)
      = some [some { id := "id1".toList, system := "s".toList }, none, none] := by
  decide

theorem fix_parse_eq (h : xccdf_item_h) (reader : xml_node) (m : xccdf_mem) :
    (xccdf_fix_new_parse h reader m).1.addr = m.brk
    ∧ (xccdf_fix_new_parse h reader m).1.id = xccdf_attribute_copy reader XCCDFA_ID
    ∧ (xccdf_fix_new_parse h reader m).2.brk = m.brk + 1
    ∧ (xccdf_fix_new_parse h reader m).2.bench.dict = m.bench.dict
    ∧ (xccdf_fix_new_parse h reader m).2.bench.idrefs = m.bench.idrefs
    ∧ (xccdf_fix_new_parse h reader m).2.bench.auxdict =
        match xccdf_attribute_copy reader XCCDFA_ID with
        | some id => if id ≠ [] then m.bench.auxdict ++ [(id, m.brk)] else m.bench.auxdict
        | none => m.bench.auxdict := by
  unfold xccdf_fix_new_parse
  cases hid : xccdf_attribute_copy reader XCCDFA_ID with
  | none => simp
  | some id =>
    by_cases he : id = []
    · simp [he]
    · simp [he, xccdf_htable_add_aux]

theorem rule_step_fix (h : xccdf_item_h) (c : xml_node) (b : xccdf_item_base)
    (s : xccdf_rule_item) (m : xccdf_mem) (hel : xccdf_element_get c = XCCDFE_FIX) :
    xccdf_rule_new_parse_step h c (.rule b s) m
      = some (.rule b { s with fixes := s.fixes ++ [(xccdf_fix_new_parse h c m).1] },
          (xccdf_fix_new_parse h c m).2) := by
  simp [xccdf_rule_new_parse_step, hel, xccdf_item.upd_rule, xccdf_list_add]

theorem parse_deps_rule_keeps_fixes (c : xml_node) (b : xccdf_item_base)
    (s : xccdf_rule_item) (m : xccdf_mem)
    (hel : xccdf_element_get c = XCCDFE_REQUIRES ∨ xccdf_element_get c = XCCDFE_CONFLICTS) :
    ∃ r s' m', xccdf_parse_deps c (.rule b s) m = some (r, .rule b s', m')
      ∧ s'.fixes = s.fixes := by
  rcases hel with hel | hel
  · simp only [xccdf_parse_deps, xccdf_deps_get, hel]
    split
    · exact ⟨_, _, _, rfl, rfl⟩
    · exact ⟨_, _, _, rfl, rfl⟩
  · simp only [xccdf_parse_deps, xccdf_deps_get, hel]
    exact ⟨_, _, _, rfl, rfl⟩

theorem rule_step_fixes (h : xccdf_item_h) (c : xml_node) (b : xccdf_item_base)
    (s : xccdf_rule_item) (m : xccdf_mem) :
    ∃ b' s' m' l, xccdf_rule_new_parse_step h c (.rule b s) m = some (.rule b' s', m')
      ∧ s'.fixes = s.fixes ++ l
      ∧ List.Forall₂ (fun c f => ∃ m1, (xccdf_fix_new_parse h c m1).1 = f)
          ([c].filter is_fix) l := by
  cases hel : xccdf_element_get c
  case XCCDFE_FIX =>
    have hfil : [c].filter is_fix = [c] := by simp [is_fix, hel]
    rw [hfil]
    exact ⟨b, _, _, [(xccdf_fix_new_parse h c m).1], rule_step_fix h c b s m hel, rfl,
      List.Forall₂.cons ⟨m, rfl⟩ List.Forall₂.nil⟩
  case XCCDFE_REQUIRES =>
    obtain ⟨r, s', m', h1, h2⟩ := parse_deps_rule_keeps_fixes c b s m (Or.inl hel)
    refine ⟨b, s', m', [], ?_, by simp [h2], ?_⟩
    · simp [xccdf_rule_new_parse_step, hel, h1]
    · simp [is_fix, hel]
  case XCCDFE_CONFLICTS =>
    obtain ⟨r, s', m', h1, h2⟩ := parse_deps_rule_keeps_fixes c b s m (Or.inr hel)
    refine ⟨b, s', m', [], ?_, by simp [h2], ?_⟩
    · simp [xccdf_rule_new_parse_step, hel, h1]
    · simp [is_fix, hel]
  case XCCDFE_CHECK =>
    have hp := check_parse_eq c m (Or.inl hel)
    generalize (xccdf_check_new_parse_loop (xml_children c)
      (xccdf_check_new_parse_attrs c) m) = r at hp
    have hfil : [c].filter is_fix = [] := by simp [is_fix, hel]
    rw [hfil]
    by_cases hsel : r.1.selector = none ∨ r.1.selector = some []
    · refine ⟨b, { s with check := some r.1, checks := s.checks ++ [r.1] }, r.2, [],
        ?_, by simp, List.Forall₂.nil⟩
      simp [xccdf_rule_new_parse_step, hel, hp, hsel, xccdf_item.upd_rule, xccdf_list_add]
    · refine ⟨b, { s with checks := s.checks ++ [r.1] }, r.2, [], ?_, by simp,
        List.Forall₂.nil⟩
      simp [xccdf_rule_new_parse_step, hel, hp, hsel, xccdf_item.upd_rule, xccdf_list_add]
  case XCCDFE_PROFILE_NOTE =>
    have hfil : [c].filter is_fix = [] := by simp [is_fix, hel]
    rw [hfil]
    cases htag : xccdf_attribute_get c XCCDFA_TAG with
    | none =>
      exact ⟨b, s, m, [], by simp [xccdf_rule_new_parse_step, hel, htag], by simp,
        List.Forall₂.nil⟩
    | some tag =>
      exact ⟨b, _, m, [],
        by simp [xccdf_rule_new_parse_step, hel, htag, xccdf_item.upd_rule]; rfl,
        by simp, List.Forall₂.nil⟩
  case XCCDFE_IDENT =>
    have hfil : [c].filter is_fix = [] := by simp [is_fix, hel]
    rw [hfil]
    exact ⟨b, _, m, [],
      by simp [xccdf_rule_new_parse_step, hel, xccdf_ident_new_parse, xccdf_item.upd_rule]; rfl,
      by simp, List.Forall₂.nil⟩
  case XCCDFE_FIXTEXT =>
    have hfil : [c].filter is_fix = [] := by simp [is_fix, hel]
    rw [hfil]
    exact ⟨b, _, _, [],
      by simp [xccdf_rule_new_parse_step, hel, xccdf_item.upd_rule]; exact ⟨rfl, rfl⟩,
      by simp, List.Forall₂.nil⟩
  all_goals
    have hfil : [c].filter is_fix = [] := by simp [is_fix, hel]
    rw [hfil]
    exact ⟨_, s, _, [],
      by simp [xccdf_rule_new_parse_step, hel, xccdf_item.set_base, xccdf_item.base];
         exact ⟨rfl, rfl⟩,
      by simp, List.Forall₂.nil⟩

theorem rule_loop_fixes (h : xccdf_item_h) (cs : List xml_node) (b : xccdf_item_base)
    (s : xccdf_rule_item) (m : xccdf_mem) :
    ∃ b' s' m' l, xccdf_rule_new_parse_loop h cs (.rule b s) m = some (.rule b' s', m')
      ∧ s'.fixes = s.fixes ++ l
      ∧ List.Forall₂ (fun c f => ∃ m1, (xccdf_fix_new_parse h c m1).1 = f)
          (cs.filter is_fix) l := by
  induction cs generalizing b s m with
  | nil => exact ⟨b, s, m, [], rfl, by simp, List.Forall₂.nil⟩
  | cons c rest ih =>
    obtain ⟨b1, s1, m1, l1, hs, hc1, hf1⟩ := rule_step_fixes h c b s m
    obtain ⟨b2, s2, m2, l2, hl, hc2, hf2⟩ := ih b1 s1 m1
    refine ⟨b2, s2, m2, l1 ++ l2, ?_, ?_, ?_⟩
    · simp [xccdf_rule_new_parse_loop, hs, hl]
    · rw [hc2, hc1, List.append_assoc]
    · have : (c :: rest).filter is_fix = [c].filter is_fix ++ rest.filter is_fix := by
        rw [← List.filter_append]; rfl
      rw [this]
      exact List.rel_append hf1 hf2

theorem rule_parse_fixes (h : xccdf_item_h) (reader : xml_node) (m : xccdf_mem)
    (hel : xccdf_element_get reader = XCCDFE_RULE)
    (hattr : (h.xccdf_item_process_attributes (xccdf_rule_new_empty h).base reader m).1 = true) :
    ∃ b s m', xccdf_rule_new_parse h reader m = some (some (.rule b s), m')
      ∧ List.Forall₂ (fun c f => ∃ m1, (xccdf_fix_new_parse h c m1).1 = f)
          ((xml_children reader).filter is_fix) s.fixes := by
  unfold xccdf_rule_new_parse
  simp only [hel, ne_eq, not_true_eq_false, if_false, hattr, Bool.true_eq_false]
  simp only [xccdf_rule_new_empty, xccdf_item.set_base]
  split_ifs
  all_goals
    try simp only [xccdf_item.upd_rule]
    obtain ⟨b', s', m', l, hl, hc, hf⟩ := rule_loop_fixes h (xml_children reader) _ _ _
    rw [hl]
    simp only [List.nil_append] at hc
    exact ⟨b', s', m', rfl, hc ▸ hf⟩

/-- C18: `xccdf_fix_new_parse` always returns a fix; it enters it, by its address, in the
auxiliary table under its identifier when the id attribute is present and non-empty,
and leaves the auxiliary table as it was when the id attribute is absent or empty; it
never changes the main identifier table nor the queue of reference requests; the loop
body of `xccdf_rule_new_parse` on a `fix` child appends the returned fix at the end of
the fixes list whatever its id; and the fixes list of a parsed rule has, in document
order, exactly one entry per `fix` child, the fix returned for it. -/
theorem fix_parse_registers (h : xccdf_item_h) (reader : xml_node) (m : xccdf_mem) :
    (∀ id, xccdf_attribute_copy reader XCCDFA_ID = some id → id ≠ [] →
        (xccdf_fix_new_parse h reader m).2.bench.auxdict
          = m.bench.auxdict ++ [(id, (xccdf_fix_new_parse h reader m).1.addr)])
    ∧ ((xccdf_attribute_copy reader XCCDFA_ID = none
          ∨ xccdf_attribute_copy reader XCCDFA_ID = some []) →
        (xccdf_fix_new_parse h reader m).2.bench.auxdict = m.bench.auxdict)
    ∧ (xccdf_fix_new_parse h reader m).1.id = xccdf_attribute_copy reader XCCDFA_ID
    ∧ (xccdf_fix_new_parse h reader m).2.bench.dict = m.bench.dict
    ∧ (xccdf_fix_new_parse h reader m).2.bench.idrefs = m.bench.idrefs
    ∧ (∀ b s, xccdf_element_get reader = XCCDFE_FIX →
        xccdf_rule_new_parse_step h reader (.rule b s) m
          = some (.rule b { s with fixes := s.fixes ++ [(xccdf_fix_new_parse h reader m).1] },
              (xccdf_fix_new_parse h reader m).2))
    ∧ (xccdf_element_get reader = XCCDFE_RULE →
        (h.xccdf_item_process_attributes (xccdf_rule_new_empty h).base reader m).1 = true →
        ∃ b s m', xccdf_rule_new_parse h reader m = some (some (.rule b s), m')
          ∧ List.Forall₂ (fun c f => ∃ m1, (xccdf_fix_new_parse h c m1).1 = f)
              ((xml_children reader).filter is_fix) s.fixes) := by
  obtain ⟨h1, h2, _, h4, h5, h6⟩ := fix_parse_eq h reader m
  refine ⟨?_, ?_, h2, h4, h5, ?_, ?_⟩
  · intro id hid hne
    rw [h6, h1]
    simp [hid, hne]
  · intro hid
    rw [h6]
    rcases hid with hid | hid <;> simp [hid]
  · intro b s hel
    exact rule_step_fix h reader b s m hel
  · intro hel hattr
    exact rule_parse_fixes h reader m hel hattr

/-- C18 on an example: a rule with the `fix` children "f1", one with an empty id and
one without id: three fixes in the list, one entry ("f1", address 0) in the auxiliary
table, the main table holding the rule's identifier only. -/
theorem fix_parse_registers_witness :
    (xccdf_fix_new_parse item_h0 (leaf_node XCCDFE_FIX [(XCCDFA_ID, "f1".toList)])
        mem0).2.bench.auxdict = [("f1".toList, 0)]
    ∧ (xccdf_fix_new_parse item_h0 (leaf_node XCCDFE_FIX [(XCCDFA_ID, [])])
        mem0).2.bench.auxdict = []
    ∧ (∃ b s m', xccdf_rule_new_parse item_h0
        (tree_node XCCDFE_RULE [(XCCDFA_ID, "r".toList)]
          [leaf_node XCCDFE_FIX [(XCCDFA_ID, "f1".toList)],
           leaf_node XCCDFE_FIX [(XCCDFA_ID, [])],
           leaf_node XCCDFE_FIX []]) mem0 = some (some (.rule b s), m')
        ∧ s.fixes.length = 3
        ∧ m'.bench.auxdict = [("f1".toList, 0)]
        ∧ m'.bench.dict = ["r".toList]) := by
  refine ⟨?_, ?_, ?_⟩
  · have := (fix_parse_registers item_h0 (leaf_node XCCDFE_FIX [(XCCDFA_ID, "f1".toList)])
      mem0).1 "f1".toList (by decide) (by decide)
    exact this.trans (by decide)
  · exact (fix_parse_registers item_h0 (leaf_node XCCDFE_FIX [(XCCDFA_ID, [])])
      mem0).2.1 (Or.inr (by decide))
  · obtain ⟨b, s, m', hrun, hf⟩ := (fix_parse_registers item_h0
      (tree_node XCCDFE_RULE [(XCCDFA_ID, "r".toList)]
          [leaf_node XCCDFE_FIX [(XCCDFA_ID, "f1".toList)],
           leaf_node XCCDFE_FIX [(XCCDFA_ID, [])],
           leaf_node XCCDFE_FIX []]) mem0).2.2.2.2.2.2 (by decide) (by decide)
    have hev : (xccdf_rule_new_parse item_h0
        (tree_node XCCDFE_RULE [(XCCDFA_ID, "r".toList)]
          [leaf_node XCCDFE_FIX [(XCCDFA_ID, "f1".toList)],
           leaf_node XCCDFE_FIX [(XCCDFA_ID, [])],
           leaf_node XCCDFE_FIX []]) mem0).map (fun r => (r.2.bench.auxdict, r.2.bench.dict))
        = some ([("f1".toList, 0)], ["r".toList]) := by decide
    rw [hrun] at hev
    simp only [Option.map_some', Option.some.injEq, Prod.mk.injEq] at hev
    refine ⟨b, s, m', hrun, ?_, hev.1, hev.2⟩
    rw [← hf.length_eq]
    decide

/-! ## Dependencies: whitespace other than the space -/

theorem strchr_none_of_not_mem {s : cstring} {c : Char} (hc : c ≠ Char.ofNat 0)
    (h : c ∉ s) : strchr s c = none := by
  induction s with
  | nil => simp [strchr, hc]
  | cons x t ih =>
    simp only [List.mem_cons, not_or] at h
    simp [strchr, Ne.symm h.1, ih h.2]

/-- C20, as stated, fails: the idref "a", tab, "b" gives one request, for the whole
string, not one for "a" and one for "b"; and the idref made of a tab and a newline
gives an alternative group with one reference, requested for that string. -/
theorem parse_deps_requires_tab_not_split :
    (xccdf_parse_deps
        (leaf_node XCCDFE_REQUIRES [(XCCDFA_IDREF, ['a', Char.ofNat 9, 'b'])])
        (xccdf_rule_new_empty item_h0) mem0).map
      (fun r => (r.1, r.2.1.requires, r.2.2.bench.idrefs))
      = some (true, [[⟨0⟩]], [⟨0, some ['a', Char.ofNat 9, 'b'], XCCDF_CONTENT⟩])
    ∧ (xccdf_parse_deps
        (leaf_node XCCDFE_REQUIRES [(XCCDFA_IDREF, [Char.ofNat 9, Char.ofNat 10])])
        (xccdf_rule_new_empty item_h0) mem0).map
      (fun r => (r.1, r.2.1.requires, r.2.2.bench.idrefs))
      = some (true, [[⟨0⟩]], [⟨0, some [Char.ofNat 9, Char.ofNat 10], XCCDF_CONTENT⟩]) := by
  decide

/-- C20 amended: the idref attribute of a `requires` element is split on the space
character only. For every non-empty attribute value without a space, whatever other
whitespace (tab, newline) it contains or is made of, `xccdf_parse_deps` on a rule or
group returns true, appends one alternative group with one slot and queues one
request, into that slot, for the whole value, of kind `XCCDF_CONTENT`. -/
theorem parse_deps_requires_splits_on_space_only (reader : xml_node) (item : xccdf_item)
    (m : xccdf_mem) (s : cstring) (conflicts : List xccdf_slot)
    (requires : List (List xccdf_slot))
    (hel : xccdf_element_get reader = XCCDFE_REQUIRES)
    (hattr : xccdf_attribute_copy reader XCCDFA_IDREF = some s)
    (hitem : xccdf_deps_get item = some (conflicts, requires))
    (hne : s ≠ []) (hsp : ' ' ∉ s) :
    idref_tokens s = [s]
    ∧ xccdf_parse_deps reader item m
      = some (true, item.deps_put conflicts (requires ++ [[⟨m.brk⟩]]),
          xccdf_benchmark_add_ref { m with brk := m.brk + 1 } m.brk (some s)
            XCCDF_CONTENT) := by
  have htok : idref_tokens s = [s] := by
    rw [idref_tokens_of_none (strchr_none_of_not_mem space_ne_nul hsp), if_neg hne]
  refine ⟨htok, ?_⟩
  rw [parse_deps_requires_eq reader item m s conflicts requires hel hattr hitem, htok]
  simp [slots_from, requests_from, xccdf_benchmark_add_ref]

/-- C20 amended, on an example: the idref "id1", newline, "id2" on a new rule gives one
group with one slot, requested for the whole string. -/
theorem parse_deps_requires_splits_on_space_only_witness :
    xccdf_parse_deps
        (leaf_node XCCDFE_REQUIRES
          [(XCCDFA_IDREF, ['i', 'd', '1', Char.ofNat 10, 'i', 'd', '2'])])
        (xccdf_rule_new_empty item_h0) mem0
      = some (true, (xccdf_rule_new_empty item_h0).deps_put [] ([] ++ [[⟨mem0.brk⟩]]),
          xccdf_benchmark_add_ref { mem0 with brk := mem0.brk + 1 } mem0.brk
            (some ['i', 'd', '1', Char.ofNat 10, 'i', 'd', '2']) XCCDF_CONTENT) :=
  (parse_deps_requires_splits_on_space_only
    (leaf_node XCCDFE_REQUIRES
      [(XCCDFA_IDREF, ['i', 'd', '1', Char.ofNat 10, 'i', 'd', '2'])])
    (xccdf_rule_new_empty item_h0) mem0 ['i', 'd', '1', Char.ofNat 10, 'i', 'd', '2'] [] []
    (by decide) (by decide) (by decide) (by decide) (by decide)).2

/-! ## Destruction: every owned entity once -/

theorem list_delete_none {α : Type} (l : List α) : xccdf_list_delete l none = [] := by
  induction l with
  | nil => rfl
  | cons x xs ih => simpa [xccdf_list_delete] using ih

theorem list_delete_single {α : Type} (l : List α) (d : α → List xccdf_freed)
    (f : α → xccdf_freed) (hd : ∀ x, d x = [f x]) :
    xccdf_list_delete l (some d) = l.map f := by
  induction l with
  | nil => rfl
  | cons x xs ih => simp [xccdf_list_delete, hd, ih]

theorem list_delete_empty {α : Type} (l : List α) (d : α → List xccdf_freed)
    (hd : ∀ x, d x = []) : xccdf_list_delete l (some d) = [] := by
  induction l with
  | nil => rfl
  | cons x xs ih => simp [xccdf_list_delete, hd, ih]

theorem list_delete_idents (l : List (Option xccdf_ident)) :
    xccdf_list_delete l (some xccdf_ident_delete) = l.reduceOption.map .ident := by
  induction l with
  | nil => rfl
  | cons x xs ih =>
    cases x with
    | none => simp [xccdf_list_delete, xccdf_ident_delete, ih, List.reduceOption_cons_of_none]
    | some i =>
      simp [xccdf_list_delete, xccdf_ident_delete, ih, List.reduceOption_cons_of_some]

theorem list_delete_values (l : List (Option xccdf_value)) :
    xccdf_list_delete l (some xccdf_value_delete) = l.reduceOption.map .value := by
  induction l with
  | nil => rfl
  | cons x xs ih =>
    cases x with
    | none => simp [xccdf_list_delete, xccdf_value_delete, ih, List.reduceOption_cons_of_none]
    | some i =>
      simp [xccdf_list_delete, xccdf_value_delete, ih, List.reduceOption_cons_of_some]

theorem check_delete_children_eq (l : List (Option xccdf_check)) :
    xccdf_check_delete_children l = xccdf_list_delete l (some xccdf_check_delete) := by
  induction l with
  | nil => simp [xccdf_check_delete_children, xccdf_list_delete]
  | cons x xs ih => simp [xccdf_check_delete_children, xccdf_list_delete, ih]

theorem item_delete_content_eq (l : List xccdf_item) :
    xccdf_item_delete_content l = xccdf_list_delete l (some xccdf_item_delete) := by
  induction l with
  | nil => simp [xccdf_item_delete_content, xccdf_list_delete]
  | cons x xs ih => simp [xccdf_item_delete_content, xccdf_list_delete, ih]

mutual
theorem check_delete_perm :
    ∀ c : Option xccdf_check, (xccdf_check_delete c).Perm (check_entities c)
  | none => by simp [xccdf_check_delete, check_entities]
  | some (.mk id system selector content oper content_refs imports exports children) => by
    rw [xccdf_check_delete, check_entities,
      list_delete_single content_refs (fun r => xccdf_check_content_ref_delete (some r))
        .check_content_ref (fun _ => rfl),
      list_delete_single imports (fun i => xccdf_check_import_delete (some i))
        .check_import (fun _ => rfl),
      list_delete_single exports (fun e => xccdf_check_export_delete (some e))
        .check_export (fun _ => rfl)]
    refine (List.perm_append_singleton _ _).trans (List.Perm.cons _ ?_)
    exact List.Perm.append_left _ (check_delete_children_perm children)
theorem check_delete_children_perm :
    ∀ l : List (Option xccdf_check),
      (xccdf_check_delete_children l).Perm (check_entities_list l)
  | [] => by simp [xccdf_check_delete_children, check_entities_list]
  | c :: rest => by
    rw [xccdf_check_delete_children, check_entities_list]
    exact List.Perm.append (check_delete_perm c) (check_delete_children_perm rest)
end

theorem list_delete_checks_perm (l : List xccdf_check) :
    (xccdf_list_delete l (some (fun c => xccdf_check_delete (some c)))).Perm
      (check_entities_list (l.map some)) := by
  induction l with
  | nil => simp [xccdf_list_delete, check_entities_list]
  | cons c rest ih =>
    simp only [xccdf_list_delete, List.map_cons, check_entities_list]
    exact List.Perm.append (check_delete_perm (some c)) ih

theorem rule_delete_perm (b : xccdf_item_base) (s : xccdf_rule_item) :
    (xccdf_rule_delete (some (.rule b s))).Perm (item_entities (.rule b s)) := by
  rw [xccdf_rule_delete, item_entities, rule_owned, list_delete_idents,
    list_delete_empty s.requires xccdf_list_delete0 (fun l => list_delete_none l),
    list_delete_none,
    list_delete_single s.profile_notes (fun n => xccdf_profile_note_delete (some n))
      .profile_note (fun _ => rfl),
    list_delete_single s.fixes (fun f => xccdf_fix_delete (some f)) .fix (fun _ => rfl),
    list_delete_single s.fixtexts (fun t => xccdf_fixtext_delete (some t)) .fixtext
      (fun _ => rfl), xccdf_item_release]
  refine (List.perm_append_singleton _ _).trans (List.Perm.cons _ ?_)
  simp only [List.append_nil]
  refine List.Perm.append (List.Perm.append (List.Perm.append ?_ (List.Perm.refl _))
    (List.Perm.refl _)) (List.Perm.refl _)
  exact List.Perm.append_left _ (list_delete_checks_perm s.checks)

mutual
theorem item_delete_perm :
    ∀ i : xccdf_item, (xccdf_item_delete i).Perm (item_entities i)
  | .rule b s => by
    rw [xccdf_item_delete]
    exact rule_delete_perm b s
  | .group b content requires conflicts values => by
    rw [xccdf_item_delete, item_entities, list_delete_values,
      list_delete_empty requires xccdf_list_delete0 (fun l => list_delete_none l),
      list_delete_none, xccdf_item_release]
    refine (List.perm_append_singleton _ _).trans (List.Perm.cons _ ?_)
    simp only [List.append_nil]
    exact List.Perm.append_right _ (item_delete_content_perm content)
  | .benchmark b content => by
    rw [xccdf_item_delete, item_entities, xccdf_item_release]
    exact (List.perm_append_singleton _ _).trans
      (List.Perm.cons _ (item_delete_content_perm content))
theorem item_delete_content_perm :
    ∀ l : List xccdf_item, (xccdf_item_delete_content l).Perm (item_entities_list l)
  | [] => by simp [xccdf_item_delete_content, item_entities_list]
  | i :: rest => by
    rw [xccdf_item_delete_content, item_entities_list]
    exact List.Perm.append (item_delete_perm i) (item_delete_content_perm rest)
end

theorem group_delete_eq (b : xccdf_item_base) (content : List xccdf_item)
    (rq : List (List xccdf_slot)) (k : List xccdf_slot) (v : List (Option xccdf_value)) :
    xccdf_group_delete (some (.group b content rq k v))
      = xccdf_item_delete (.group b content rq k v) := by
  rw [xccdf_group_delete, xccdf_item_delete, item_delete_content_eq]

mutual
theorem check_entities_no_item :
    ∀ (c : Option xccdf_check) (x : xccdf_item), xccdf_freed.item x ∉ check_entities c
  | none, x => by simp [check_entities]
  | some (.mk id system selector content oper content_refs imports exports children), x => by
    rw [check_entities]
    simp only [List.mem_cons, reduceCtorEq, List.mem_append, List.mem_map, and_false,
      exists_false, false_or]
    exact check_entities_list_no_item children x
theorem check_entities_list_no_item :
    ∀ (l : List (Option xccdf_check)) (x : xccdf_item),
      xccdf_freed.item x ∉ check_entities_list l
  | [], x => by simp [check_entities_list]
  | c :: rest, x => by
    rw [check_entities_list, List.mem_append, not_or]
    exact ⟨check_entities_no_item c x, check_entities_list_no_item rest x⟩
end

mutual
theorem check_entities_no_value :
    ∀ (c : Option xccdf_check) (x : xccdf_value), xccdf_freed.value x ∉ check_entities c
  | none, x => by simp [check_entities]
  | some (.mk id system selector content oper content_refs imports exports children), x => by
    rw [check_entities]
    simp only [List.mem_cons, reduceCtorEq, List.mem_append, List.mem_map, and_false,
      exists_false, false_or]
    exact check_entities_list_no_value children x
theorem check_entities_list_no_value :
    ∀ (l : List (Option xccdf_check)) (x : xccdf_value),
      xccdf_freed.value x ∉ check_entities_list l
  | [], x => by simp [check_entities_list]
  | c :: rest, x => by
    rw [check_entities_list, List.mem_append, not_or]
    exact ⟨check_entities_no_value c x, check_entities_list_no_value rest x⟩
end

theorem rule_owned_no_item (s : xccdf_rule_item) (x : xccdf_item) :
    xccdf_freed.item x ∉ rule_owned s := by
  unfold rule_owned
  simp only [List.mem_append, List.mem_map, reduceCtorEq, and_false, exists_false,
    false_or, or_false]
  exact check_entities_list_no_item _ x

theorem rule_owned_no_value (s : xccdf_rule_item) (x : xccdf_value) :
    xccdf_freed.value x ∉ rule_owned s := by
  unfold rule_owned
  simp only [List.mem_append, List.mem_map, reduceCtorEq, and_false, exists_false,
    false_or, or_false]
  exact check_entities_list_no_value _ x

mutual
theorem item_entities_item_mem :
    ∀ (i x : xccdf_item), xccdf_freed.item x ∈ item_entities i → x ∈ item_tree i
  | .rule b s, x, hx => by
    rw [item_entities, List.mem_cons] at hx
    rw [item_tree]
    rcases hx with hx | hx
    · simp only [xccdf_freed.item.injEq] at hx
      simp [hx]
    · exact absurd hx (rule_owned_no_item s x)
  | .group b content requires conflicts values, x, hx => by
    rw [item_entities, List.mem_cons, List.mem_append] at hx
    rw [item_tree, List.mem_cons]
    rcases hx with hx | hx | hx
    · simp only [xccdf_freed.item.injEq] at hx
      exact Or.inl hx
    · exact Or.inr (item_entities_list_item_mem content x hx)
    · simp at hx
  | .benchmark b content, x, hx => by
    rw [item_entities, List.mem_cons] at hx
    rw [item_tree, List.mem_cons]
    rcases hx with hx | hx
    · simp only [xccdf_freed.item.injEq] at hx
      exact Or.inl hx
    · exact Or.inr (item_entities_list_item_mem content x hx)
theorem item_entities_list_item_mem :
    ∀ (l : List xccdf_item) (x : xccdf_item),
      xccdf_freed.item x ∈ item_entities_list l → x ∈ item_tree_list l
  | [], x, hx => by simp [item_entities_list] at hx
  | i :: rest, x, hx => by
    rw [item_entities_list, List.mem_append] at hx
    rw [item_tree_list, List.mem_append]
    rcases hx with hx | hx
    · exact Or.inl (item_entities_item_mem i x hx)
    · exact Or.inr (item_entities_list_item_mem rest x hx)
end

mutual
theorem check_entities_no_fix :
    ∀ (c : Option xccdf_check) (x : xccdf_fix), xccdf_freed.fix x ∉ check_entities c
  | none, x => by simp [check_entities]
  | some (.mk id system selector content oper content_refs imports exports children), x => by
    rw [check_entities]
    simp only [List.mem_cons, reduceCtorEq, List.mem_append, List.mem_map, and_false,
      exists_false, false_or]
    exact check_entities_list_no_fix children x
theorem check_entities_list_no_fix :
    ∀ (l : List (Option xccdf_check)) (x : xccdf_fix),
      xccdf_freed.fix x ∉ check_entities_list l
  | [], x => by simp [check_entities_list]
  | c :: rest, x => by
    rw [check_entities_list, List.mem_append, not_or]
    exact ⟨check_entities_no_fix c x, check_entities_list_no_fix rest x⟩
end

theorem rule_owned_fix_mem (s : xccdf_rule_item) (x : xccdf_fix)
    (hx : xccdf_freed.fix x ∈ rule_owned s) : x ∈ s.fixes := by
  unfold rule_owned at hx
  simp only [List.mem_append, List.mem_map, reduceCtorEq, and_false, exists_false,
    false_or, or_false, xccdf_freed.fix.injEq, exists_eq_right] at hx
  rcases hx with hx | hx
  · exact absurd hx (check_entities_list_no_fix _ x)
  · exact hx

/-- C19: the destructor events of `xccdf_rule_delete` on a rule, and of
`xccdf_group_delete` on a group, are a rearrangement of the list that names once the
item itself and once every entity it owns (for a rule its idents, profile notes,
fixes, fixtexts and every check node of its checks list with its content references,
imports, exports and, recursively, its child checks; for a group its values and its
content items with everything they own in turn): each owned entity is destroyed
exactly once, the primary check through the checks list only. Nothing else is
destroyed: the only item a rule destroys is itself, a rule destroys no value and no
fix outside its fixes list, and every item a group destroys is the group or an item of
its content, at any depth; so what is only referred to from a requires group, a
conflicts list, a check export or a fixtext is left alone. -/
theorem delete_destroys_owned_once (b : xccdf_item_base) (s : xccdf_rule_item)
    (bg : xccdf_item_base) (content : List xccdf_item) (rq : List (List xccdf_slot))
    (k : List xccdf_slot) (v : List (Option xccdf_value)) :
    (xccdf_rule_delete (some (.rule b s))).Perm (item_entities (.rule b s))
    ∧ (xccdf_group_delete (some (.group bg content rq k v))).Perm
        (item_entities (.group bg content rq k v))
    ∧ (∀ x, xccdf_freed.item x ∈ xccdf_rule_delete (some (.rule b s)) → x = .rule b s)
    ∧ (∀ x, xccdf_freed.value x ∉ xccdf_rule_delete (some (.rule b s)))
    ∧ (∀ x, xccdf_freed.fix x ∈ xccdf_rule_delete (some (.rule b s)) → x ∈ s.fixes)
    ∧ (∀ x, xccdf_freed.item x ∈ xccdf_group_delete (some (.group bg content rq k v)) →
        x ∈ item_tree (.group bg content rq k v))
    ∧ xccdf_list_delete s.conflicts none = []
    ∧ xccdf_list_delete s.requires (some xccdf_list_delete0) = [] := by
  have hr := rule_delete_perm b s
  have hg : (xccdf_group_delete (some (.group bg content rq k v))).Perm
      (item_entities (.group bg content rq k v)) := by
    rw [group_delete_eq]
    exact item_delete_perm _
  refine ⟨hr, hg, ?_, ?_, ?_, ?_, list_delete_none _,
    list_delete_empty _ _ (fun l => list_delete_none l)⟩
  · intro x hx
    have hx' := hr.subset hx
    rw [item_entities, List.mem_cons] at hx'
    rcases hx' with hx' | hx'
    · simpa using hx'
    · exact absurd hx' (rule_owned_no_item s x)
  · intro x hx
    have hx' := hr.subset hx
    rw [item_entities, List.mem_cons] at hx'
    rcases hx' with hx' | hx'
    · cases hx'
    · exact rule_owned_no_value s x hx'
  · intro x hx
    have hx' := hr.subset hx
    rw [item_entities, List.mem_cons] at hx'
    rcases hx' with hx' | hx'
    · cases hx'
    · exact rule_owned_fix_mem s x hx'
  · intro x hx
    exact item_entities_item_mem _ x (hg.subset hx)

/-! ## `xccdf_strsep` called until it returns NULL -/

theorem splitOn_of_strchr_none {s : cstring} {d : Char} (h : strchr s d = none) :
    s.splitOn d = [s] := by
  unfold List.splitOn
  apply List.splitOnP_eq_single
  intro x hx hp
  simp only [beq_iff_eq] at hp
  subst hp
  exact strchr_eq_none h hx

theorem splitOn_of_strchr_some {s : cstring} {d : Char} {i : Nat}
    (hd : d ≠ Char.ofNat 0) (h : strchr s d = some i) :
    s.splitOn d = s.take i :: (s.drop (i + 1)).splitOn d := by
  obtain ⟨h1, h2⟩ := strchr_eq_some hd h
  conv_lhs => rw [h2]
  unfold List.splitOn
  apply List.splitOnP_first
  · intro x hx hp
    simp only [beq_iff_eq] at hp
    subst hp
    exact h1 hx
  · simp

theorem strsep_calls_null (fuel : Nat) (d : Char) :
    xccdf_strsep_calls (fuel + 1) none d = some [] := by
  simp [xccdf_strsep_calls, xccdf_strsep]

theorem strsep_calls_spec (fuel : Nat) (s : cstring) (d : Char) (hd : d ≠ Char.ofNat 0)
    (hf : s.length + 2 ≤ fuel) :
    ∃ calls, xccdf_strsep_calls fuel (some s) d = some calls
      ∧ calls.map Prod.fst = s.splitOn d
      ∧ calls.length = s.count d + 1
      ∧ (∀ c ∈ calls, d ∉ c.1)
      ∧ calls.getLast?.map Prod.snd = some none := by
  induction fuel generalizing s with
  | zero => omega
  | succ fuel ih =>
    cases hch : strchr s d with
    | none =>
      have hnm := strchr_eq_none hch
      obtain ⟨f', hf'⟩ : ∃ f', fuel = f' + 1 := ⟨fuel - 1, by omega⟩
      subst hf'
      refine ⟨[(s, none)], ?_, ?_, ?_, ?_, ?_⟩
      · simp [xccdf_strsep_calls, xccdf_strsep, hch]
      · simp [splitOn_of_strchr_none hch]
      · simp [List.count_eq_zero_of_not_mem hnm]
      · intro c hc
        simp only [List.mem_singleton] at hc
        subst hc
        exact hnm
      · simp
    | some i =>
      have hlt := strchr_lt_length hd hch
      obtain ⟨h1, h2⟩ := strchr_eq_some hd hch
      have hlen : (s.drop (i + 1)).length + 2 ≤ fuel := by
        simp only [List.length_drop]; omega
      obtain ⟨calls, hrun, hmap, hcount, hno, hlast⟩ := ih (s.drop (i + 1)) hlen
      have hne : calls ≠ [] := by
        intro e
        rw [e] at hcount
        simp at hcount
      refine ⟨(s.take i, some (s.drop (i + 1))) :: calls, ?_, ?_, ?_, ?_, ?_⟩
      · simp [xccdf_strsep_calls, xccdf_strsep, hch, hrun]
      · simp [splitOn_of_strchr_some hd hch, hmap]
      · have hc : s.count d = (s.take i).count d + ((s.drop (i + 1)).count d + 1) := by
          conv_lhs => rw [h2]
          rw [List.count_append, List.count_cons_self]
        rw [hc, List.count_eq_zero_of_not_mem h1, List.length_cons, hcount]
        omega
      · intro c hc
        rcases List.mem_cons.mp hc with rfl | hc
        · exact h1
        · exact hno c hc
      · obtain ⟨c, cs, rfl⟩ := List.exists_cons_of_ne_nil hne
        rw [List.getLast?_cons_cons]
        exact hlast


/-- C21 (as the code has it): for every string `s` and every delimiter `d` other than
the NUL character, the calls of `xccdf_strsep` on `s` end, after `s.length + 2` calls
at the latest, with exactly (occurrences of `d` in `s`) + 1 results that are not NULL;
no returned token contains `d`, joining the tokens with `d` gives `s` back, the call
that returned the last token left the cursor NULL, and `xccdf_strsep` returns NULL and
leaves a NULL cursor NULL when the pointer to the cursor or the cursor is NULL. -/
theorem strsep_calls_split (fuel : Nat) (s : cstring) (d : Char)
    (hd : d ≠ Char.ofNat 0) (hf : s.length + 2 ≤ fuel) :
    (∃ calls, xccdf_strsep_calls fuel (some s) d = some calls
      ∧ calls.length = s.count d + 1
      ∧ (∀ c ∈ calls, d ∉ c.1)
      ∧ [d].intercalate (calls.map Prod.fst) = s
      ∧ calls.getLast?.map Prod.snd = some none)
    ∧ xccdf_strsep none d = (none, none)
    ∧ xccdf_strsep (some none) d = (none, none) := by
  obtain ⟨calls, hrun, hmap, hcount, hno, hlast⟩ := strsep_calls_spec fuel s d hd hf
  refine ⟨⟨calls, hrun, hcount, hno, ?_, hlast⟩, rfl, rfl⟩
  rw [hmap]
  exact List.intercalate_splitOn s d

/-- The string "a b c" split at the space: three tokens in four calls. -/
theorem strsep_calls_split_witness :
    ' ' ≠ Char.ofNat 0 ∧ "a b c".toList.length + 2 ≤ 7
    ∧ xccdf_strsep_calls 7 (some "a b c".toList) ' '
        = some [("a".toList, some "b c".toList), ("b".toList, some "c".toList),
                ("c".toList, none)]
    ∧ ((∃ calls, xccdf_strsep_calls 7 (some "a b c".toList) ' ' = some calls
      ∧ calls.length = "a b c".toList.count ' ' + 1
      ∧ (∀ c ∈ calls, ' ' ∉ c.1)
      ∧ [' '].intercalate (calls.map Prod.fst) = "a b c".toList
      ∧ calls.getLast?.map Prod.snd = some none)
    ∧ xccdf_strsep none ' ' = (none, none)
    ∧ xccdf_strsep (some none) ' ' = (none, none)) :=
  ⟨by decide, by decide, by decide,
    strsep_calls_split 7 "a b c".toList ' ' (by decide) (by decide)⟩

/-- C21 (counterexample): with the NUL character as delimiter `strchr` finds the
terminator of "ab", a string with no occurrence of the delimiter before it: the first
call returns "ab", the one token the count allows, and leaves a cursor that is not NULL. -/
theorem strsep_nul_delimiter_cursor_not_null :
    "ab".toList.count (Char.ofNat 0) + 1 = 1
    ∧ (xccdf_strsep (some (some "ab".toList)) (Char.ofNat 0)).1 = some "ab".toList
    ∧ (xccdf_strsep (some (some "ab".toList)) (Char.ofNat 0)).2 ≠ none := by
  decide
